import Mathlib

/-!
# Object-identity cache, inheritance index and cache coherence of the `config` façade

A shallow embedding of `src/src/ConfigurationImpl.cpp` and `src/src/Configuration.cpp`.

Representation choices (the headers `config/map.h`, `config/ConfigObjectImpl.h`,
`config/DalFactory.h` are not part of the sources at hand):

* a class name is its interned string; pointer identity of interned names is
  string equality;
* every hash map / hash set of the source (`config::map`, `config::pmap`,
  `config::fmap`, `config::fset`) is an association list / list read through
  `find` (first match), the list order being the container's iteration order;
* an implementation object lives at an address (`Ptr`); the cache stores
  addresses, and `objs` gives the object found at an address.
-/

namespace Config

/-- Interned class name. -/
abbrev ClassName := String

/-- Address of a `ConfigObjectImpl` (never null; a null pointer is `none`). -/
abbrev Ptr := Nat

/-- The `daq::config::ObjectState` enumeration. -/
inductive ObjectState where
  | Valid
  | Deleted
  | Unknown
  deriving DecidableEq, Repr

/-- Virtual calls made on an implementation object, in the order they were made. -/
inductive VCall where
  | clear
  | reset
  deriving DecidableEq, Repr

/-- The members of `ConfigObjectImpl` the core reads or writes (constructor at
`ConfigObjectImpl.cpp:101`), the cached field values the backend keeps in the
object, and the trace of virtual calls received. -/
structure ConfigObjectImpl where
  m_state : ObjectState
  m_id : String
  m_class_name : Option ClassName
  fields : List (String × String)
  calls : List VCall
  deriving DecidableEq, Repr

/-- The `ConfigObjectImpl(impl, id, state)` constructor: `m_class_name(nullptr)`. -/
def ConfigObjectImpl.new (id : String) (state : ObjectState) : ConfigObjectImpl :=
  { m_state := state, m_id := id, m_class_name := none, fields := [], calls := [] }

/-- Modelled from the spec: `DalFactory::get_known_class_name_ref` (declared in the
absent `config/DalFactory.h`) returns the process-interned string equal to `name`;
an interned name is represented by its value. -/
def get_known_class_name_ref (name : String) : ClassName := name

/-- Modelled from the spec: `ConfigObjectImpl::clear()` is a virtual method declared in
the absent `config/ConfigObjectImpl.h`; the spec says it clears the object's fields.
The call is recorded in the trace. -/
def call_clear (o : ConfigObjectImpl) : ConfigObjectImpl :=
  { o with fields := [], calls := o.calls ++ [VCall.clear] }

/-- A call of the pure virtual `ConfigObjectImpl::reset()`: the backend's override
`reset` acts on the object, and the call is recorded in the trace. -/
def call_reset (reset : ConfigObjectImpl → ConfigObjectImpl) (o : ConfigObjectImpl) :
    ConfigObjectImpl :=
  { reset o with calls := o.calls ++ [VCall.reset] }

section Maps

variable {K V : Type} [DecidableEq K]

/-- Container `find(k)`: the first entry whose key equals `k`, `none` for `end()`. -/
def find : List (K × V) → K → Option (K × V)
  | [], _ => none
  | (k', v) :: rest, k => if k' = k then some (k', v) else find rest k

/-- Container `m[k] = v`: overwrite the entry of `k`, or add one. -/
def assign : List (K × V) → K → V → List (K × V)
  | [], k, v => [(k, v)]
  | (k', v') :: rest, k, v =>
      if k' = k then (k', v) :: rest else (k', v') :: assign rest k v

/-- Container `erase(it)` for the entry of key `k`. -/
def erase (m : List (K × V)) (k : K) : List (K × V) :=
  m.filter (fun e => decide (e.1 ≠ k))

/-- Set `insert(x)`: no effect when `x` is already a member. -/
def fset_insert (s : List K) (x : K) : List K :=
  if x ∈ s then s else s ++ [x]

end Maps

/-- One bucket of the cache: `config::map<ConfigObjectImpl *>`. -/
abbrev Bucket := List (String × Ptr)

/-- The inheritance maps `config::fmap<config::fset>`. -/
abbrev ClassMap := List (ClassName × List ClassName)

/-- The `daq::config::type_t` enumeration (`ConfigurationImpl.cpp:27-48`). -/
inductive type_t where
  | bool_type | s8_type | u8_type | s16_type | u16_type | s32_type | u32_type
  | s64_type | u64_type | float_type | double_type | date_type | time_type
  | string_type | enum_type | class_type
  deriving DecidableEq, Repr

/-- The `daq::config::int_format_t` enumeration (`ConfigurationImpl.cpp:73-81`). -/
inductive int_format_t where
  | oct_int_format | dec_int_format | hex_int_format | na_int_format
  deriving DecidableEq, Repr

/-- The `daq::config::cardinality_t` enumeration (`ConfigurationImpl.cpp:124-133`). -/
inductive cardinality_t where
  | zero_or_one | zero_or_many | only_one | one_or_many
  deriving DecidableEq, Repr

/-- The members of `daq::config::attribute_t` (`ConfigurationImpl.cpp:12-25`). -/
structure attribute_t where
  p_name : String
  p_type : type_t
  p_range : String
  p_int_format : int_format_t
  p_is_not_null : Bool
  p_is_multi_value : Bool
  p_default_value : String
  p_description : String
  deriving DecidableEq, Repr

/-- The members of `daq::config::relationship_t` (`ConfigurationImpl.cpp:108-122`). -/
structure relationship_t where
  p_name : String
  p_type : String
  p_cardinality : cardinality_t
  p_is_aggregation : Bool
  p_description : String
  deriving DecidableEq, Repr

/-- The members of `daq::config::class_t` (`ConfigurationImpl.cpp:151-212`). -/
structure class_t where
  p_name : String
  p_description : String
  p_abstract : Bool
  p_superclasses : List String
  p_subclasses : List String
  p_attributes : List attribute_t
  p_relationships : List relationship_t
  deriving DecidableEq, Repr

/-- The schema part of the `Configuration` façade: the inheritance maps and the two
class-descriptor caches (`config::map<class_t *>`). -/
structure Configuration where
  p_superclasses : ClassMap
  p_subclasses : ClassMap
  p_direct_classes_desc_cache : List (String × class_t) := []
  p_all_classes_desc_cache : List (String × class_t) := []
  m_impl_spec : String := ""
  m_impl_name : String := ""
  m_impl_param : String := ""
  deriving DecidableEq, Repr

/-- State of `ConfigurationImpl` together with the implementation objects its
pointers refer to. `m_conf` is the façade the implementation points to
(`none` for `nullptr`). -/
structure ConfigurationImpl where
  objs : Ptr → ConfigObjectImpl
  m_impl_objects : List (ClassName × Bucket)
  m_tangled_objects : List Ptr
  p_number_of_cache_hits : Nat
  p_number_of_object_read : Nat
  m_conf : Option Configuration

/-- Write `o` at address `p`. -/
def setObj (objs : Ptr → ConfigObjectImpl) (p : Ptr) (o : ConfigObjectImpl) :
    Ptr → ConfigObjectImpl :=
  fun q => if q = p then o else objs q

/-- The loop over `subclasses->second` in `get_impl_object`
(`ConfigurationImpl.cpp:304-336`): the first subclass bucket holding `id` wins. -/
def probe_subclasses (cache : List (ClassName × Bucket)) (id : String) :
    List ClassName → Option Ptr
  | [] => none
  | k :: rest =>
      match find cache k with
      | some (_, bucket) =>
          match find bucket id with
          | some (_, p) => some p
          | none => probe_subclasses cache id rest
      | none => probe_subclasses cache id rest

/-- The set `m_conf->subclasses()` holds for `class_name`; empty when the class is not a
key of the index, and when no `Configuration` is attached. -/
def subclasses_consulted (self : ConfigurationImpl) (class_name : ClassName) :
    List ClassName :=
  match self.m_conf with
  | none => []
  | some conf =>
      match find conf.p_subclasses class_name with
      | some (_, s) => s
      | none => []

/-- Embedding of `ConfigurationImpl::get_impl_object` (`ConfigurationImpl.cpp:253-348`).
Returns the pointer (`none` for `nullptr`) and the state with the hit counter. -/
def get_impl_object (self : ConfigurationImpl) (name : String) (id : String) :
    Option Ptr × ConfigurationImpl :=
  let hit : ConfigurationImpl :=
    { self with p_number_of_cache_hits := self.p_number_of_cache_hits + 1 }
  let own : Option Ptr × ClassName :=
    match find self.m_impl_objects name with
    | some (key, bucket) =>
        match find bucket id with
        | some (_, p) => (some p, key)
        | none => (none, key)
    | none => (none, get_known_class_name_ref name)
  match own with
  | (some p, _) => (some p, hit)
  | (none, class_name) =>
      match self.m_conf with
      | some conf =>
          match find conf.p_subclasses class_name with
          | some (_, subs) =>
              match probe_subclasses self.m_impl_objects id subs with
              | some p => (some p, hit)
              | none => (none, self)
          | none => (none, self)
      | none => (none, self)

/-- Embedding of `ConfigurationImpl::put_impl_object` (`ConfigurationImpl.cpp:351-368`). -/
def put_impl_object (self : ConfigurationImpl) (name : String) (id : String) (obj : Ptr) :
    ConfigurationImpl :=
  let self1 := { self with p_number_of_object_read := self.p_number_of_object_read + 1 }
  match find self1.m_impl_objects name with
  | some (key, bucket) =>
      { self1 with
        m_impl_objects := assign self1.m_impl_objects key (assign bucket id obj)
        objs := setObj self1.objs obj { self1.objs obj with m_class_name := some key } }
  | none =>
      let cn := get_known_class_name_ref name
      { self1 with
        objs := setObj self1.objs obj { self1.objs obj with m_class_name := some cn }
        m_impl_objects := assign self1.m_impl_objects cn (assign [] id obj) }

/-- Embedding of `ConfigurationImpl::rename_impl_object` (`ConfigurationImpl.cpp:370-395`).
`(*i->second)[new_id]` yields the entry of `new_id`, created as `nullptr` when absent;
the test `obj != nullptr` is the test that the entry existed. The entry then receives
`j->second`, and the entry of `old_id` is erased. -/
def rename_impl_object (self : ConfigurationImpl) (class_name : ClassName)
    (old_id new_id : String) : ConfigurationImpl :=
  match find self.m_impl_objects class_name with
  | some (key, bucket) =>
      match find bucket old_id with
      | some (_, moved) =>
          let self1 : ConfigurationImpl :=
            match find bucket new_id with
            | some (_, obj) =>
                { self with
                  objs := setObj self.objs obj
                            { self.objs obj with m_state := ObjectState.Unknown }
                  m_tangled_objects := self.m_tangled_objects ++ [obj] }
            | none => self
          { self1 with
            m_impl_objects :=
              assign self1.m_impl_objects key (erase (assign bucket new_id moved) old_id) }
      | none => self
  | none => self

/-- The object stored under `id` in the bucket of class `C`, if any. -/
def bucket_entry (cache : List (ClassName × Bucket)) (C : ClassName) (id : String) :
    Option Ptr :=
  match find cache C with
  | some (_, bucket) =>
      match find bucket id with
      | some (_, p) => some p
      | none => none
  | none => none

/-- The set an inheritance map holds for class `C` (`m.find(C)->second`), empty when `C`
is not a key. -/
def members (m : ClassMap) (C : ClassName) : List ClassName :=
  match find m C with
  | some (_, s) => s
  | none => []

/-- The set `superclasses(C)`: what `p_superclasses.find(C)` holds, empty when absent. -/
def superclasses_of (conf : Configuration) (C : ClassName) : List ClassName :=
  members conf.p_superclasses C

/-- The set `subclasses(C)`: what `p_subclasses.find(C)` holds, empty when absent. -/
def subclasses_of (conf : Configuration) (C : ClassName) : List ClassName :=
  members conf.p_subclasses C

/-- An implementation object freshly constructed, used to fill concrete states. -/
def blank : Ptr → ConfigObjectImpl :=
  fun _ => ConfigObjectImpl.new "" ObjectState.Valid

/-- The scenario schema restricted to `Second ⊂ Dummy`. -/
def dummySecond : Configuration :=
  { p_superclasses := [("Second", ["Dummy"]), ("Dummy", [])]
    p_subclasses := [("Dummy", ["Second"])] }

/-- A cache in which `Dummy` already holds `#7` (object 1) before `Second#7` is created. -/
def staleDummy7 : ConfigurationImpl :=
  { objs := blank
    m_impl_objects := [("Dummy", [("#7", 1)])]
    m_tangled_objects := []
    p_number_of_cache_hits := 0
    p_number_of_object_read := 0
    m_conf := some dummySecond }

/-- A cache holding `Dummy#A` only (object 1), no façade attached. -/
def onlyDummyA : ConfigurationImpl :=
  { objs := blank
    m_impl_objects := [("Dummy", [("#A", 1)])]
    m_tangled_objects := []
    p_number_of_cache_hits := 0
    p_number_of_object_read := 0
    m_conf := none }

/-- A cache holding `Dummy#A` (object 1) and `Second#A` (object 2). -/
def dummyAsecondA : ConfigurationImpl :=
  { objs := blank
    m_impl_objects := [("Dummy", [("#A", 1)]), ("Second", [("#A", 2)])]
    m_tangled_objects := []
    p_number_of_cache_hits := 0
    p_number_of_object_read := 0
    m_conf := some dummySecond }

/-- A cache holding `Dummy#A` (object 1) and `Dummy#B` (object 2, deleted). -/
def dummyAB : ConfigurationImpl :=
  { objs := setObj blank 2 (ConfigObjectImpl.new "#B" ObjectState.Deleted)
    m_impl_objects := [("Dummy", [("#A", 1), ("#B", 2)])]
    m_tangled_objects := [7]
    p_number_of_cache_hits := 0
    p_number_of_object_read := 0
    m_conf := some dummySecond }

/-! ### Inheritance index and façade operations on the schema maps -/

/-- The statement `p_subclasses[j].insert(i)` of `set_subclasses`. -/
def subclasses_add (m : ClassMap) (j i : ClassName) : ClassMap :=
  match find m j with
  | some (_, s) => assign m j (fset_insert s i)
  | none => assign m j (fset_insert [] i)

/-- Embedding of `Configuration::set_subclasses` (`Configuration.cpp:665-673`):
clear the index, then for every entry `i` of `p_superclasses` and every `j` of
`i.second` insert `i.first` into `p_subclasses[j]`. -/
def set_subclasses (self : Configuration) : Configuration :=
  { self with
    p_subclasses :=
      self.p_superclasses.foldl
        (fun acc i => i.2.foldl (fun acc' j => subclasses_add acc' j i.1) acc) [] }

/-- The issues of `Configuration.cpp:21-54`. `GenericCaused` is a `Generic` constructed
with a cause. -/
inductive ConfigError where
  | Generic (what : String)
  | GenericCaused (what : String) (cause : ConfigError)
  | NotFound (type data : String)
  | DeletedObject (class_name object_id : String)
  deriving DecidableEq, Repr

/-- The handler `catch (daq::config::Generic& ex) { throw Generic(what, ex); }`: only a
`Generic` is caught and wrapped, any other issue passes through. -/
def catch_generic {α : Type} (what : String) : Except ConfigError α → Except ConfigError α
  | .ok a => .ok a
  | .error (.Generic w) => .error (.GenericCaused what (.Generic w))
  | .error (.GenericCaused w c) => .error (.GenericCaused what (.GenericCaused w c))
  | .error e => .error e

/-- The schema part of the `Configuration` constructor (`Configuration.cpp:155-162`):
`creator` is the outcome of loading the plug-in and calling its creator (`true` when the
returned `m_impl` is not null), `get_superclasses` the backend call filling its
out-parameter. -/
def Configuration.ctor (creator : Except ConfigError Bool)
    (get_superclasses : ClassMap → ClassMap) : Except ConfigError Configuration :=
  match creator with
  | .error e => .error e
  | .ok m_impl =>
      let self : Configuration := { p_superclasses := [], p_subclasses := [] }
      if m_impl then
        .ok (set_subclasses { self with p_superclasses := get_superclasses self.p_superclasses })
      else .ok self

/-- Embedding of `Configuration::load` (`Configuration.cpp:291-352`) from the point where
the database name is resolved: `open_db` is the outcome of the backend call (not caught). -/
def load (self : Configuration) (m_impl : Bool) (open_db : Except ConfigError Unit)
    (get_superclasses : ClassMap → ClassMap) : Except ConfigError Configuration :=
  if m_impl then
    match open_db with
    | .error e => .error e
    | .ok _ =>
        .ok (set_subclasses { self with p_superclasses := get_superclasses self.p_superclasses })
  else .error (.Generic "no implementation loaded")

/-- Embedding of `Configuration::unload` (`Configuration.cpp:354-416`), schema part:
after `m_impl->unsubscribe()` the map `p_superclasses` is cleared, the class-descriptor
caches are emptied and the database is closed. `p_subclasses` is not written. -/
def unload (self : Configuration) (m_impl : Bool)
    (unsubscribe close_db : Except ConfigError Unit) : Except ConfigError Configuration :=
  if m_impl then
    match unsubscribe with
    | .error e => .error e
    | .ok _ =>
        let self1 :=
          { self with
            p_superclasses := []
            p_direct_classes_desc_cache := []
            p_all_classes_desc_cache := [] }
        match close_db with
        | .error e => .error e
        | .ok _ => .ok self1
  else .error (.Generic "nothing to unload")

/-- Embedding of `Configuration::create(db_name, includes)` (`Configuration.cpp:418-438`). -/
def create (self : Configuration) (m_impl : Bool) (db_name : String)
    (backend_create : Except ConfigError Unit)
    (get_superclasses : ClassMap → ClassMap) : Except ConfigError Configuration :=
  if m_impl then
    catch_generic ("failed to create database \x27" ++ db_name ++ "\x27")
      (match backend_create with
       | .error e => .error e
       | .ok _ =>
           .ok (set_subclasses
                 { self with p_superclasses := get_superclasses self.p_superclasses }))
  else .error (.Generic "no implementation loaded")

/-- Embedding of `Configuration::add_include` (`Configuration.cpp:462-482`). -/
def add_include (self : Configuration) (m_impl : Bool) (db_name incl : String)
    (backend_add_include : Except ConfigError Unit)
    (get_superclasses : ClassMap → ClassMap) : Except ConfigError Configuration :=
  if m_impl then
    catch_generic
      ("failed to add include \x27" ++ incl ++ "\x27 to database \x27" ++ db_name ++ "\x27")
      (match backend_add_include with
       | .error e => .error e
       | .ok _ =>
           .ok (set_subclasses
                 { self with p_superclasses := get_superclasses self.p_superclasses }))
  else .error (.Generic "no implementation loaded")

/-- Embedding of `Configuration::remove_include` (`Configuration.cpp:484-505`). -/
def remove_include (self : Configuration) (m_impl : Bool) (db_name incl : String)
    (backend_remove_include : Except ConfigError Unit)
    (get_superclasses : ClassMap → ClassMap) : Except ConfigError Configuration :=
  if m_impl then
    catch_generic
      ("failed to remove include \x27" ++ incl ++ "\x27 from database \x27" ++ db_name ++ "\x27")
      (match backend_remove_include with
       | .error e => .error e
       | .ok _ =>
           .ok (set_subclasses
                 { self with p_superclasses := get_superclasses self.p_superclasses }))
  else .error (.Generic "no implementation loaded")

/-- The body of the loops of `_unread_implementation_objects`: `clear()` then
`m_state = state`. -/
def unread_object (state : ObjectState) (objs : Ptr → ConfigObjectImpl) (p : Ptr) :
    Ptr → ConfigObjectImpl :=
  setObj objs p { call_clear (objs p) with m_state := state }

/-- Embedding of `Configuration::_unread_implementation_objects`
(`Configuration.cpp:645-662`): every object of every bucket, then every tangled object. -/
def _unread_implementation_objects (impl : ConfigurationImpl) (state : ObjectState) :
    ConfigurationImpl :=
  let objs1 :=
    impl.m_impl_objects.foldl
      (fun objs i => i.2.foldl (fun objs' j => unread_object state objs' j.2) objs) impl.objs
  let objs2 := impl.m_tangled_objects.foldl (fun objs x => unread_object state objs x) objs1
  { impl with objs := objs2 }

/-- Embedding of `Configuration::abort` (`Configuration.cpp:587-610`); `m_impl` is `none`
for a null implementation, and the implementation returned sees the new schema maps
through `m_conf`. -/
def abort (self : Configuration) (m_impl : Option ConfigurationImpl)
    (backend_abort : Except ConfigError Unit)
    (get_superclasses : ClassMap → ClassMap) :
    Except ConfigError (Configuration × ConfigurationImpl) :=
  match m_impl with
  | none => .error (.Generic "no implementation loaded")
  | some impl =>
      catch_generic "abort failed"
        (match backend_abort with
         | .error e => .error e
         | .ok _ =>
             let impl1 := _unread_implementation_objects impl ObjectState.Unknown
             let self1 :=
               set_subclasses { self with p_superclasses := get_superclasses self.p_superclasses }
             .ok (self1, { impl1 with m_conf := impl1.m_conf.map (fun _ => self1) }))

/-- Embedding of `Configuration::try_cast(const std::string *, const std::string *)`
(`Configuration.cpp:1763-1789`) on interned names. -/
def try_cast_ptr (self : Configuration) (target source : ClassName) : Bool :=
  if target = source then true
  else
    match find self.p_superclasses source with
    | none => false
    | some (_, s) => if target ∈ s then true else false

/-- Embedding of `Configuration::try_cast(const std::string&, const std::string&)`
(`Configuration.cpp:1757-1761`): both names are interned first. -/
def try_cast (self : Configuration) (target source : String) : Bool :=
  try_cast_ptr self (get_known_class_name_ref target) (get_known_class_name_ref source)

/-- The schema of the end-to-end scenarios: `Second ⊂ Dummy`, `Third ⊂ Dummy`. -/
def scenarioSchema : Configuration :=
  set_subclasses
    { p_superclasses := [("Dummy", []), ("Second", ["Dummy"]), ("Third", ["Dummy"])]
      p_subclasses := [] }

/-- The scenario superclass map next to a subclass index left over from another schema. -/
def staleIndex : Configuration :=
  { p_superclasses := [("Dummy", []), ("Second", ["Dummy"]), ("Third", ["Dummy"])]
    p_subclasses := [("Old", ["Gone"])] }

/-! ### Cache coherence -/

/-- The `ConfigurationChange` record: class name and the three UID lists. -/
structure ConfigurationChange where
  m_class_name : String
  m_modified : List String
  m_created : List String
  m_removed : List String
  deriving DecidableEq, Repr

/-- The objects the cache points to. -/
abbrev Objs := Ptr → ConfigObjectImpl

/-- Body of the loop over removed UIDs (`Configuration.cpp:1321-1329`). -/
def removed_step (bucket : Bucket) (objs : Objs) (x : String) : Objs :=
  match find bucket x with
  | some (_, p) => setObj objs p (call_clear { objs p with m_state := ObjectState.Deleted })
  | none => objs

/-- Body of the loop over created UIDs (`Configuration.cpp:1342-1349`). -/
def created_step (reset : ConfigObjectImpl → ConfigObjectImpl) (bucket : Bucket)
    (objs : Objs) (x : String) : Objs :=
  match find bucket x with
  | some (_, p) => setObj objs p (call_reset reset (objs p))
  | none => objs

/-- Body of the loop over modified UIDs (`Configuration.cpp:1362-1373`). -/
def modified_step (reset : ConfigObjectImpl → ConfigObjectImpl) (bucket : Bucket)
    (objs : Objs) (x : String) : Objs :=
  match find bucket x with
  | some (_, p) =>
      if (objs p).m_state ≠ ObjectState.Valid then setObj objs p (call_reset reset (objs p))
      else setObj objs p (call_clear (objs p))
  | none => objs

/-- The frame shared by the three blocks of `update_impl_objects`: when the UID list is
not empty and the cache has a bucket for `class_name`, run `step` on every UID. -/
def for_each_uid (cache : List (ClassName × Bucket)) (class_name : ClassName)
    (uids : List String) (step : Bucket → Objs → String → Objs) (objs : Objs) : Objs :=
  if uids.isEmpty = false then
    match find cache class_name with
    | some (_, bucket) => uids.foldl (step bucket) objs
    | none => objs
  else objs

/-- Embedding of `Configuration::update_impl_objects` (`Configuration.cpp:1310-1377`):
removed UIDs first, then created, then modified. -/
def update_impl_objects (reset : ConfigObjectImpl → ConfigObjectImpl)
    (cache : List (ClassName × Bucket)) (objs : Objs) (change : ConfigurationChange)
    (class_name : ClassName) : Objs :=
  let objs1 := for_each_uid cache class_name change.m_removed removed_step objs
  let objs2 := for_each_uid cache class_name change.m_created (created_step reset) objs1
  for_each_uid cache class_name change.m_modified (modified_step reset) objs2

/-- One iteration of the first loop of `update_cache` (`Configuration.cpp:1388-1407`):
the class of the record, then its superclasses, then its subclasses. -/
def update_cache_record (reset : ConfigObjectImpl → ConfigObjectImpl) (self : Configuration)
    (cache : List (ClassName × Bucket)) (objs : Objs) (i : ConfigurationChange) : Objs :=
  let class_name := get_known_class_name_ref i.m_class_name
  let objs1 := update_impl_objects reset cache objs i class_name
  let objs2 :=
    match find self.p_superclasses class_name with
    | some (_, sc) => sc.foldl (fun o c => update_impl_objects reset cache o i c) objs1
    | none => objs1
  match find self.p_subclasses class_name with
  | some (_, sc) => sc.foldl (fun o c => update_impl_objects reset cache o i c) objs2
  | none => objs2

/-- Embedding of `Configuration::update_cache` (`Configuration.cpp:1382-1469`) as far as
implementation objects go; the second loop only calls the update hooks of the template
caches. -/
def update_cache (reset : ConfigObjectImpl → ConfigObjectImpl) (self : Configuration)
    (m_impl : ConfigurationImpl) (changes : List ConfigurationChange) : ConfigurationImpl :=
  { m_impl with
    objs := changes.foldl (update_cache_record reset self m_impl.m_impl_objects) m_impl.objs }

/-- An object is marked deleted and holds no field values. -/
def deleted_and_cleared (o : ConfigObjectImpl) : Prop :=
  o.m_state = ObjectState.Deleted ∧ o.fields = []

instance (o : ConfigObjectImpl) : Decidable (deleted_and_cleared o) := by
  unfold deleted_and_cleared
  infer_instance

/-- Object `p` is cached under no UID other than `x`. -/
def cached_only_under (cache : List (ClassName × Bucket)) (p : Ptr) (x : String) : Prop :=
  ∀ K y, bucket_entry cache K y = some p → y = x

/-- A backend `reset` that finds the object alive again. -/
def reset_valid (o : ConfigObjectImpl) : ConfigObjectImpl :=
  { o with m_state := ObjectState.Valid }

/-- The cache of the removal scenario: `Second#x` is object 1 with cached values. -/
def secondX : ConfigurationImpl :=
  { objs := setObj blank 1
      { m_state := ObjectState.Valid, m_id := "x", m_class_name := some "Second",
        fields := [("string", "hi")], calls := [] }
    m_impl_objects := [("Second", [("x", 1)])]
    m_tangled_objects := []
    p_number_of_cache_hits := 0
    p_number_of_object_read := 0
    m_conf := some dummySecond }

/-- A batch reporting `x` removed in `Second` and created in `Dummy`. -/
def removedThenCreated : List ConfigurationChange :=
  [ { m_class_name := "Second", m_modified := [], m_created := [], m_removed := ["x"] },
    { m_class_name := "Dummy", m_modified := [], m_created := ["x"], m_removed := [] } ]

/-- A batch reporting `x` removed in `Dummy`. -/
def removedInDummy : List ConfigurationChange :=
  [ { m_class_name := "Dummy", m_modified := [], m_created := [], m_removed := ["x"] } ]

/-- A change record carrying a single created notice. -/
def createdNotice (n x : String) : ConfigurationChange :=
  { m_class_name := n, m_modified := [], m_created := [x], m_removed := [] }

/-- A change record carrying a single modified notice. -/
def modifiedNotice (n x : String) : ConfigurationChange :=
  { m_class_name := n, m_modified := [x], m_created := [], m_removed := [] }

/-- An object is marked Unknown and holds no field values. -/
def unknown_and_cleared (o : ConfigObjectImpl) : Prop :=
  o.m_state = ObjectState.Unknown ∧ o.fields = []

instance (o : ConfigObjectImpl) : Decidable (unknown_and_cleared o) := by
  unfold unknown_and_cleared
  infer_instance

/-! ### Subscriptions and the notification dispatcher -/

/-- The members of `ConfigurationSubscriptionCriteria`: the set of classes subscribed
wholesale and the map from class to subscribed object ids. -/
structure ConfigurationSubscriptionCriteria where
  m_classes_subscription : List String
  m_objects_subscription : List (String × List String)
  deriving DecidableEq, Repr

/-- How a call of a user callback ends: it returns, or it throws an `ers::Issue`, a
`std::exception`, or anything else. -/
inductive CallbackOutcome where
  | returned
  | ers_issue
  | std_exception
  | unknown_exception
  deriving DecidableEq, Repr

/-- The `CallbackSubscription` record; the user callback is given by how its call on a
batch ends. -/
structure CallbackSubscription where
  m_criteria : ConfigurationSubscriptionCriteria
  m_cb : List ConfigurationChange → CallbackOutcome
  m_param : Nat

/-- The `CallbackPreSubscription` record; the callback takes the user parameter only. -/
structure CallbackPreSubscription where
  m_cb : CallbackOutcome
  m_param : Nat
  deriving DecidableEq, Repr

/-- What the backend is asked by `reset_subscription`. -/
inductive BackendSubscription where
  | unsubscribe
  | subscribe (class_subscriptions : List String)
      (obj_subscriptions : List (String × List String))
  deriving DecidableEq, Repr

/-- The statement `obj_subscriptions[obj_class_name].insert(k)`. -/
def objects_add (m : List (String × List String)) (obj_class_name k : String) :
    List (String × List String) :=
  match find m obj_class_name with
  | some (_, s) => assign m obj_class_name (fset_insert s k)
  | none => assign m obj_class_name (fset_insert [] k)

/-- The test of `reset_subscription` and `system_cb` for a subscribe-all criteria:
both parts empty. -/
def subscribes_all (c : ConfigurationSubscriptionCriteria) : Bool :=
  c.m_classes_subscription.isEmpty && c.m_objects_subscription.isEmpty

/-- The first loop of `reset_subscription` (`Configuration.cpp:1291-1293`): all classes
for which there is a subscription. -/
def class_union (m_callbacks : List CallbackSubscription) : List String :=
  m_callbacks.foldl
    (fun acc i => i.m_criteria.m_classes_subscription.foldl fset_insert acc) []

/-- The second loop of `reset_subscription` (`Configuration.cpp:1296-1303`): all objects
for which there is a subscription, if their class is not in `class_subscriptions`. -/
def object_union (class_subscriptions : List String)
    (m_callbacks : List CallbackSubscription) : List (String × List String) :=
  m_callbacks.foldl
    (fun acc i =>
      i.m_criteria.m_objects_subscription.foldl
        (fun acc' j =>
          if j.1 ∉ class_subscriptions then
            j.2.foldl (fun a k => objects_add a j.1 k) acc'
          else acc')
        acc)
    []

/-- Embedding of `Configuration::reset_subscription` (`Configuration.cpp:1260-1307`):
the call made on the backend. -/
def reset_subscription (m_callbacks : List CallbackSubscription) : BackendSubscription :=
  if m_callbacks.isEmpty then BackendSubscription.unsubscribe
  else
    let found_subscribe_all := m_callbacks.any (fun i => subscribes_all i.m_criteria)
    if found_subscribe_all = false then
      let class_subscriptions := class_union m_callbacks
      let obj_subscriptions := object_union class_subscriptions m_callbacks
      BackendSubscription.subscribe class_subscriptions obj_subscriptions
    else BackendSubscription.subscribe [] []

/-- What a run of the dispatcher did: the callbacks invoked, as pairs of user parameter
and batch passed, in order; the messages sent to `ers::error`; and the failure that
left the function, if any (the functions are `noexcept`). -/
structure Dispatch where
  invoked : List (Nat × List ConfigurationChange)
  reported : List String
  escaped : Option CallbackOutcome
  deriving DecidableEq, Repr

/-- A callback invocation inside the `try`/`catch` of `Configuration.cpp:1543-1559` and
`1614-1629`. -/
def guarded_call (j : CallbackSubscription) (batch : List ConfigurationChange)
    (d : Dispatch) : Dispatch :=
  let d1 := { d with invoked := d.invoked ++ [(j.m_param, batch)] }
  match j.m_cb batch with
  | .returned => d1
  | .ers_issue => { d1 with reported := d1.reported ++ ["user callback thrown ers exception"] }
  | .std_exception =>
      { d1 with reported := d1.reported ++ ["user callback thrown std exception"] }
  | .unknown_exception =>
      { d1 with reported := d1.reported ++ ["user callback thrown unknown exception"] }

/-- The block under `if (found_class_subscription)` (`Configuration.cpp:1577-1587`): the
three lists of `i` are appended to those of `class_changes`. -/
def copy_all (found_class_subscription : Bool) (i class_changes : ConfigurationChange) :
    ConfigurationChange :=
  if found_class_subscription then
    { class_changes with
      m_modified := class_changes.m_modified ++ i.m_modified
      m_created := class_changes.m_created ++ i.m_created
      m_removed := class_changes.m_removed ++ i.m_removed }
  else class_changes

/-- The block under `if (found_obj_subscription)` (`Configuration.cpp:1589-1598`): the
modified and removed UIDs of `i` found in the id-set are appended. -/
def copy_listed (p : Option (String × List String)) (i class_changes : ConfigurationChange) :
    ConfigurationChange :=
  match p with
  | some (_, ids) =>
      { class_changes with
        m_modified :=
          class_changes.m_modified ++ i.m_modified.filter (fun obj_id => decide (obj_id ∈ ids))
        m_removed :=
          class_changes.m_removed ++ i.m_removed.filter (fun obj_id => decide (obj_id ∈ ids)) }
  | none => class_changes

/-- The body of the loop over `changes` (`Configuration.cpp:1565-1608`): the record
passed on to a subscriber for the backend record `i`, if any. -/
def filter_record (criteria : ConfigurationSubscriptionCriteria) (i : ConfigurationChange) :
    Option ConfigurationChange :=
  let p := find criteria.m_objects_subscription i.m_class_name
  let found_class_subscription : Bool :=
    decide (i.m_class_name ∈ criteria.m_classes_subscription)
  if found_class_subscription || p.isSome then
    let class_changes :=
      copy_listed p i
        (copy_all found_class_subscription i
          { m_class_name := i.m_class_name, m_modified := [], m_created := [], m_removed := [] })
    if class_changes.m_modified.isEmpty && class_changes.m_created.isEmpty
        && class_changes.m_removed.isEmpty then none
    else some class_changes
  else none

/-- The batch `changes1` computed for a subscriber with non-empty criteria. -/
def filter_changes (criteria : ConfigurationSubscriptionCriteria)
    (changes : List ConfigurationChange) : List ConfigurationChange :=
  changes.filterMap (filter_record criteria)

/-- The batch a subscriber is called with in the loop over several subscribers
(`Configuration.cpp:1541-1634`), `none` when it is skipped. -/
def batch_for (j : CallbackSubscription) (changes : List ConfigurationChange) :
    Option (List ConfigurationChange) :=
  if subscribes_all j.m_criteria then some changes
  else
    let changes1 := filter_changes j.m_criteria changes
    if changes1.isEmpty = false then some changes1 else none

/-- One iteration of the loop over several subscribers. -/
def dispatch_one (changes : List ConfigurationChange) (d : Dispatch)
    (j : CallbackSubscription) : Dispatch :=
  match batch_for j changes with
  | some batch => guarded_call j batch d
  | none => d

/-- The callback part of `Configuration::system_cb` (`Configuration.cpp:1498-1636`):
nothing without subscribers; a single subscriber is called with the batch as received,
outside any `try`; several subscribers are called in turn, each with its own batch. -/
def system_cb_callbacks (m_callbacks : List CallbackSubscription)
    (changes : List ConfigurationChange) : Dispatch :=
  match m_callbacks with
  | [] => { invoked := [], reported := [], escaped := none }
  | [j] =>
      match j.m_cb changes with
      | .returned => { invoked := [(j.m_param, changes)], reported := [], escaped := none }
      | failure => { invoked := [(j.m_param, changes)], reported := [], escaped := some failure }
  | _ => m_callbacks.foldl (dispatch_one changes) { invoked := [], reported := [], escaped := none }

/-- Embedding of `Configuration::system_cb` (`Configuration.cpp:1472-1639`): cache
coherence first, then the callbacks. The `notify` calls on the registered
`ConfigAction`s come before and touch neither. -/
def system_cb (reset : ConfigObjectImpl → ConfigObjectImpl) (conf : Configuration)
    (m_impl : ConfigurationImpl) (m_callbacks : List CallbackSubscription)
    (changes : List ConfigurationChange) : ConfigurationImpl × Dispatch :=
  (update_cache reset conf m_impl changes, system_cb_callbacks m_callbacks changes)

/-- Embedding of `Configuration::system_pre_cb` (`Configuration.cpp:1642-1656`): the
callbacks are called in turn outside any `try`, so the first failure leaves the
function. -/
def system_pre_cb : List CallbackPreSubscription → Dispatch
  | [] => { invoked := [], reported := [], escaped := none }
  | j :: rest =>
      match j.m_cb with
      | .returned =>
          let d := system_pre_cb rest
          { d with invoked := (j.m_param, []) :: d.invoked }
      | failure => { invoked := [(j.m_param, [])], reported := [], escaped := some failure }

/-- Scenario 6: the backend batch `Dummy: created #X #Y, modified #X, removed #Z`. -/
def scenarioBatch : List ConfigurationChange :=
  [ { m_class_name := "Dummy", m_modified := ["#X"], m_created := ["#X", "#Y"],
      m_removed := ["#Z"] } ]

/-- Subscriber A of scenario 6: class subscription on `Dummy`; its callback returns. -/
def subscriberA : CallbackSubscription :=
  { m_criteria := { m_classes_subscription := ["Dummy"], m_objects_subscription := [] }
    m_cb := fun _ => CallbackOutcome.returned
    m_param := 1 }

/-- Subscriber B of scenario 6: object subscription on `Dummy #X`; its callback returns. -/
def subscriberB : CallbackSubscription :=
  { m_criteria := { m_classes_subscription := [], m_objects_subscription := [("Dummy", ["#X"])] }
    m_cb := fun _ => CallbackOutcome.returned
    m_param := 2 }

/-- A subscriber with both a class subscription on `Dummy` and an object subscription on
`Dummy #X`. -/
def subscriberAB : CallbackSubscription :=
  { m_criteria :=
      { m_classes_subscription := ["Dummy"], m_objects_subscription := [("Dummy", ["#X"])] }
    m_cb := fun _ => CallbackOutcome.returned
    m_param := 3 }

/-- A subscribe-all subscriber whose callback throws a `std::exception`. -/
def subscriberThrows : CallbackSubscription :=
  { m_criteria := { m_classes_subscription := [], m_objects_subscription := [] }
    m_cb := fun _ => CallbackOutcome.std_exception
    m_param := 4 }

/-- The message sent to `ers::error` when a guarded callback call ends with `o`. -/
def failure_message : CallbackOutcome → Option String
  | .returned => none
  | .ers_issue => some "user callback thrown ers exception"
  | .std_exception => some "user callback thrown std exception"
  | .unknown_exception => some "user callback thrown unknown exception"

/-- The entry a subscriber adds to the list of invocations in the loop over several
subscribers. -/
def invocation_of (changes : List ConfigurationChange) (j : CallbackSubscription) :
    Option (Nat × List ConfigurationChange) :=
  (batch_for j changes).map (fun b => (j.m_param, b))

/-- A record lists at least one UID. -/
def lists_some_uid (r : ConfigurationChange) : Prop :=
  r.m_modified ≠ [] ∨ r.m_created ≠ [] ∨ r.m_removed ≠ []

/-- A subscribe-all subscriber whose callback returns. -/
def subscriberAll : CallbackSubscription :=
  { m_criteria := { m_classes_subscription := [], m_objects_subscription := [] }
    m_cb := fun _ => CallbackOutcome.returned
    m_param := 5 }

/-- A batch with one modification of `Dummy #X`. -/
def modifiedX : List ConfigurationChange :=
  [ { m_class_name := "Dummy", m_modified := ["#X"], m_created := [], m_removed := [] } ]

/-- A pre-change callback that throws an `ers::Issue`. -/
def preThrows : CallbackPreSubscription :=
  { m_cb := CallbackOutcome.ers_issue, m_param := 6 }

/-- A pre-change callback that returns. -/
def preReturns : CallbackPreSubscription :=
  { m_cb := CallbackOutcome.returned, m_param := 7 }

/-! ### Façade operations delegating to the backend -/

/-- A `daq::config::Generic`, with or without cause. -/
def is_generic : ConfigError → Bool
  | .Generic _ => true
  | .GenericCaused _ _ => true
  | _ => false

/-- Embedding of `Configuration::_get` (`Configuration.cpp:234-247`); `backend_get` is
the outcome of `m_impl->get(class_name, name, ...)`. -/
def _get {α : Type} (class_name name : String) (backend_get : Except ConfigError α) :
    Except ConfigError α :=
  catch_generic ("failed to get object \x27" ++ name ++ "@" ++ class_name ++ "\x27") backend_get

/-- Embedding of `Configuration::test_object` (`Configuration.cpp:684-698`). -/
def test_object (class_name id : String) (backend_test : Except ConfigError Bool) :
    Except ConfigError Bool :=
  catch_generic
    ("failed to test existence of object \x27" ++ id ++ "@" ++ class_name ++ "\x27")
    backend_test

/-- Embedding of `Configuration::destroy_obj` (`Configuration.cpp:733-748`); `object` is
the printed form of the handle. -/
def destroy_obj (object : String) (backend_destroy : Except ConfigError Unit) :
    Except ConfigError Unit :=
  catch_generic ("failed to destroy object \x27" ++ object ++ "\x27") backend_destroy

/-- Embedding of `Configuration::commit` (`Configuration.cpp:566-585`). -/
def commit (m_impl : Bool) (backend_commit : Except ConfigError Unit) :
    Except ConfigError Unit :=
  if m_impl then catch_generic "commit failed" backend_commit
  else .error (.Generic "no implementation loaded")

/-- Embedding of `Configuration::get_versions` (`Configuration.cpp:1119-1131`). -/
def get_versions {α : Type} (backend_versions : Except ConfigError α) : Except ConfigError α :=
  catch_generic "failed to get versions" backend_versions

/-- Embedding of `Configuration::get_class_info` (`Configuration.cpp:794-819`): a cached
descriptor is returned as is; otherwise the backend is asked, its descriptor is cached
and returned, and only a `Generic` failure is wrapped. -/
def get_class_info (self : Configuration) (class_name : String) (direct_only : Bool)
    (backend_get : String → Bool → Except ConfigError class_t) :
    Except ConfigError (class_t × Configuration) :=
  let d_cache :=
    if direct_only then self.p_direct_classes_desc_cache else self.p_all_classes_desc_cache
  match find d_cache class_name with
  | some (_, d) => .ok (d, self)
  | none =>
      catch_generic ("failed to get description of class \x27" ++ class_name ++ "\x27")
        (match backend_get class_name direct_only with
         | .error e => .error e
         | .ok d =>
             .ok (d,
               if direct_only then
                 { self with p_direct_classes_desc_cache := assign d_cache class_name d }
               else { self with p_all_classes_desc_cache := assign d_cache class_name d }))

/-- Embedding of `Configuration::rename_object` (`Configuration.cpp:751-782`) as far as
the implementation goes: `throw_if_deleted` and `backend_rename` are the outcomes of
`obj.m_impl->throw_if_deleted()` and `obj.m_impl->rename(new_id)`; no handler surrounds
them. The renaming hooks of the template caches follow. -/
def rename_object (impl : ConfigurationImpl) (obj : Ptr) (new_id : String)
    (throw_if_deleted backend_rename : Except ConfigError Unit) :
    Except ConfigError ConfigurationImpl :=
  let old_id := (impl.objs obj).m_id
  match throw_if_deleted with
  | .error e => .error e
  | .ok _ =>
      match backend_rename with
      | .error e => .error e
      | .ok _ =>
          let impl1 := { impl with objs := setObj impl.objs obj { impl.objs obj with m_id := new_id } }
          match (impl1.objs obj).m_class_name with
          | some class_name => .ok (rename_impl_object impl1 class_name old_id new_id)
          | none => .ok impl1

/-- A class descriptor with only a name and a description. -/
def plainClass (name description : String) : class_t :=
  { p_name := name, p_description := description, p_abstract := false, p_superclasses := [],
    p_subclasses := [], p_attributes := [], p_relationships := [] }

/-- The schema `Second ⊂ Dummy` with the descriptor of `Dummy` memoised in both caches. -/
def dummyMemoised : Configuration :=
  { dummySecond with
    p_direct_classes_desc_cache := [("Dummy", plainClass "Dummy" "before")]
    p_all_classes_desc_cache := [("Dummy", plainClass "Dummy" "before")] }

/-! ### Object handles -/

/-- The `ConfigObject` handle: a pointer to the implementation object, or null. -/
structure ConfigObject where
  m_impl : Option Ptr
  deriving DecidableEq, Repr

/-- Modelled from the spec: `ConfigObject::UID()` is declared in the absent
`config/ConfigObject.h`; it is the UID of the implementation object. -/
def ConfigObject.UID (objs : Objs) (p : Ptr) : String := (objs p).m_id

/-- Modelled from the spec: `ConfigObject::class_name()` is declared in the absent
`config/ConfigObject.h`; it is the class name recorded on the implementation object. -/
def ConfigObject.class_name (objs : Objs) (p : Ptr) : Option ClassName :=
  (objs p).m_class_name

/-- Embedding of `ConfigObject::operator==` (`ConfigObject.cpp:49-55`). Comparing a
handle with itself (`this == &other`) is a case of equal `m_impl`. -/
def ConfigObject.operator_eq (objs : Objs) (self other : ConfigObject) : Bool :=
  if self.m_impl = other.m_impl then true
  else
    match self.m_impl, other.m_impl with
    | some p, some q =>
        decide (ConfigObject.UID objs p = ConfigObject.UID objs q)
          && decide (ConfigObject.class_name objs p = ConfigObject.class_name objs q)
    | _, _ => false

/-- Two implementation objects of `Dummy#1` at different addresses. -/
def twoDummy1 : Objs :=
  setObj (setObj blank 1
      { m_state := ObjectState.Valid, m_id := "#1", m_class_name := some "Dummy",
        fields := [], calls := [] })
    2 { m_state := ObjectState.Unknown, m_id := "#1", m_class_name := some "Dummy",
        fields := [], calls := [] }

/-- What identifies the object a handle stands for: nothing for a null handle, UID and
class name otherwise. -/
def ConfigObject.identity (objs : Objs) (a : ConfigObject) : Option (String × Option ClassName) :=
  a.m_impl.map (fun p => (ConfigObject.UID objs p, ConfigObject.class_name objs p))

/-! ### Building change batches and subscription criteria -/

/-- The tail of `ConfigurationChange::add` (`Configuration.cpp:1677-1683`): the list is
chosen by `action` and the object name is pushed at its back. -/
def ConfigurationChange.push (class_changes : ConfigurationChange) (obj_name : String)
    (action : Char) : ConfigurationChange :=
  if action = '+' then
    { class_changes with m_created := class_changes.m_created ++ [obj_name] }
  else if action = '-' then
    { class_changes with m_removed := class_changes.m_removed ++ [obj_name] }
  else { class_changes with m_modified := class_changes.m_modified ++ [obj_name] }

/-- The constructor `ConfigurationChange(class_name)`: no UID listed. -/
def ConfigurationChange.new (class_name : String) : ConfigurationChange :=
  { m_class_name := class_name, m_modified := [], m_created := [], m_removed := [] }

/-- Embedding of `ConfigurationChange::add` (`Configuration.cpp:1659-1684`): the first
record of the class receives the object name; without such a record a new one is
pushed at the back of the batch and receives it. -/
def ConfigurationChange.add : List ConfigurationChange → String → String → Char →
    List ConfigurationChange
  | [], class_name, obj_name, action =>
      [(ConfigurationChange.new class_name).push obj_name action]
  | c :: rest, class_name, obj_name, action =>
      if class_name = c.m_class_name then c.push obj_name action :: rest
      else c :: ConfigurationChange.add rest class_name obj_name action

/-- Embedding of `ConfigurationSubscriptionCriteria::add(class_name)`
(`SubscriptionCriteria.cpp:4-8`). -/
def ConfigurationSubscriptionCriteria.add (self : ConfigurationSubscriptionCriteria)
    (class_name : String) : ConfigurationSubscriptionCriteria :=
  { self with m_classes_subscription := fset_insert self.m_classes_subscription class_name }

/-- Embedding of `ConfigurationSubscriptionCriteria::add(class_name, object_id)`
(`SubscriptionCriteria.cpp:10-14`). -/
def ConfigurationSubscriptionCriteria.add_object (self : ConfigurationSubscriptionCriteria)
    (class_name object_id : String) : ConfigurationSubscriptionCriteria :=
  { self with
    m_objects_subscription := objects_add self.m_objects_subscription class_name object_id }

/-- Embedding of `ConfigurationSubscriptionCriteria::remove(class_name)`
(`SubscriptionCriteria.cpp:22-26`). -/
def ConfigurationSubscriptionCriteria.remove (self : ConfigurationSubscriptionCriteria)
    (class_name : String) : ConfigurationSubscriptionCriteria :=
  { self with
    m_classes_subscription := self.m_classes_subscription.filter (fun c => decide (c ≠ class_name)) }

/-- Embedding of `ConfigurationSubscriptionCriteria::remove(class_name, object_id)`
(`SubscriptionCriteria.cpp:28-40`): the id is erased from the set of the class, and the
class is erased when its set becomes empty. -/
def ConfigurationSubscriptionCriteria.remove_object (self : ConfigurationSubscriptionCriteria)
    (class_name object_id : String) : ConfigurationSubscriptionCriteria :=
  match find self.m_objects_subscription class_name with
  | some (_, ids) =>
      let ids1 := ids.filter (fun k => decide (k ≠ object_id))
      if ids1.isEmpty then
        { self with m_objects_subscription := erase self.m_objects_subscription class_name }
      else
        { self with m_objects_subscription := assign self.m_objects_subscription class_name ids1 }
  | none => self

/-- The criteria a default-constructed `ConfigurationSubscriptionCriteria` holds. -/
def ConfigurationSubscriptionCriteria.empty : ConfigurationSubscriptionCriteria :=
  { m_classes_subscription := [], m_objects_subscription := [] }

/-- The criteria that `add` and `remove` calls produce from the empty criteria. -/
inductive Reachable : ConfigurationSubscriptionCriteria → Prop where
  | empty : Reachable ConfigurationSubscriptionCriteria.empty
  | add (c : ConfigurationSubscriptionCriteria) (class_name : String) :
      Reachable c → Reachable (c.add class_name)
  | add_object (c : ConfigurationSubscriptionCriteria) (class_name object_id : String) :
      Reachable c → Reachable (c.add_object class_name object_id)
  | remove (c : ConfigurationSubscriptionCriteria) (class_name : String) :
      Reachable c → Reachable (c.remove class_name)
  | remove_object (c : ConfigurationSubscriptionCriteria) (class_name object_id : String) :
      Reachable c → Reachable (c.remove_object class_name object_id)

/-- A change record listing `x` both as modified and as removed. -/
def modifiedAndRemoved (n x : String) : ConfigurationChange :=
  { m_class_name := n, m_modified := [x], m_created := [], m_removed := [x] }

/-- Object `q` is cached under a UID that a record of the batch lists, in the bucket of
the class of that record, of one of its superclasses or of one of its subclasses. -/
def touched_by (self : Configuration) (cache : List (ClassName × Bucket))
    (changes : List ConfigurationChange) (q : Ptr) : Prop :=
  ∃ i ∈ changes, ∃ K x,
    (K = i.m_class_name ∨ K ∈ superclasses_of self i.m_class_name
        ∨ K ∈ subclasses_of self i.m_class_name)
      ∧ (x ∈ i.m_created ∨ x ∈ i.m_modified ∨ x ∈ i.m_removed)
      ∧ bucket_entry cache K x = some q

/-! ### Construction -/

/-- The call `s.find_first_of(c)`: the index of the first `c`, `none` for `npos`. -/
def find_first_of : List Char → Char → Option Nat
  | [], _ => none
  | x :: rest, c =>
      if x = c then some 0
      else
        match find_first_of rest c with
        | some i => some (i + 1)
        | none => none

/-- The plug-in name taken from the spec (`Configuration.cpp:109-119`): the whole spec
without `:`, else `substr(0, idx)`. -/
def spec_name (m_impl_spec : String) : String :=
  match find_first_of m_impl_spec.data ':' with
  | none => m_impl_spec
  | some idx => String.mk (m_impl_spec.data.take idx)

/-- The parameter taken from the spec (`Configuration.cpp:109-119`): empty without `:`,
else `substr(idx + 1)`. -/
def spec_param (m_impl_spec : String) : String :=
  match find_first_of m_impl_spec.data ':' with
  | none => ""
  | some idx => String.mk (m_impl_spec.data.drop (idx + 1))

/-- The dynamic loader and the plug-in, as the constructor sees them: `dlopen` and
`dlsym` give the `dlerror()` text on failure, `creator` is the call of the creator
function found (`true` when the implementation returned is not null). -/
structure PluginLoader where
  dlopen : String → Option String
  dlsym : String → String → Option String
  creator : String → String → Except ConfigError Bool

/-- The calls made on the loader, in order. -/
inductive LoaderCall where
  | dlopen (plugin_name : String)
  | dlsym (plugin_name impl_creator : String)
  | create (impl_creator m_impl_param : String)
  deriving DecidableEq, Repr

/-- The spec the constructor works on (`Configuration.cpp:96-104`): the argument, or
`getenv("TDAQ_DB")` when the argument is empty. -/
def effective_spec (spec : String) (env_TDAQ_DB : Option String) : String :=
  if spec.isEmpty then
    match env_TDAQ_DB with
    | some env => env
    | none => ""
  else spec

/-- The constructor from the parsing of the spec on (`Configuration.cpp:109-168`): the
outcome and the loader calls made. -/
def Configuration.load_plugin (m_impl_spec : String) (plugin : PluginLoader)
    (get_superclasses : ClassMap → ClassMap) :
    Except ConfigError Configuration × List LoaderCall :=
  let m_impl_name := spec_name m_impl_spec
  let m_impl_param := spec_param m_impl_spec
  let plugin_name := "lib" ++ m_impl_name ++ ".so"
  let impl_creator := "_" ++ m_impl_name ++ "_creator_"
  match plugin.dlopen plugin_name with
  | some err =>
      (.error (.Generic
        ("failed to load implementation plug-in \x27" ++ plugin_name ++ "\x27: \x22" ++ err
          ++ "\x22")),
        [LoaderCall.dlopen plugin_name])
  | none =>
      match plugin.dlsym plugin_name impl_creator with
      | some err =>
          (.error (.Generic
            ("failed to find implementation creator function \x27" ++ impl_creator
              ++ "\x27 in plug-in \x27" ++ plugin_name ++ "\x27: \x22" ++ err ++ "\x22")),
            [LoaderCall.dlopen plugin_name, LoaderCall.dlsym plugin_name impl_creator])
      | none =>
          (match Configuration.ctor (plugin.creator impl_creator m_impl_param)
              get_superclasses with
           | .error e => .error e
           | .ok conf =>
               .ok { conf with
                     m_impl_spec := m_impl_spec
                     m_impl_name := m_impl_name
                     m_impl_param := m_impl_param },
            [LoaderCall.dlopen plugin_name, LoaderCall.dlsym plugin_name impl_creator,
              LoaderCall.create impl_creator m_impl_param])

/-- Embedding of the constructor `Configuration::Configuration(spec)`
(`Configuration.cpp:91-168`): the outcome and the loader calls made. `env_TDAQ_DB` is
`getenv("TDAQ_DB")`. -/
def Configuration.new (spec : String) (env_TDAQ_DB : Option String) (plugin : PluginLoader)
    (get_superclasses : ClassMap → ClassMap) :
    Except ConfigError Configuration × List LoaderCall :=
  let m_impl_spec := effective_spec spec env_TDAQ_DB
  if m_impl_spec.isEmpty then
    (.error (.Generic
      "no database parameter found (check parameter of the constructor or value of TDAQ_DB environment variable)"),
      [])
  else Configuration.load_plugin m_impl_spec plugin get_superclasses

/-- The registry `m_callbacks`: a set of pointers to `CallbackSubscription` records, given
with the records pointed to. -/
abbrev CallbackSet := List (Ptr × CallbackSubscription)

/-- The call `m_callbacks.insert(cs)`: no effect when the pointer is already a member. -/
def callbacks_insert (m_callbacks : CallbackSet) (cs : Ptr) (r : CallbackSubscription) :
    CallbackSet :=
  match find m_callbacks cs with
  | some _ => m_callbacks
  | none => m_callbacks ++ [(cs, r)]

/-- Embedding of `Configuration::find_callback` (`Configuration.cpp:1144-1148`); `none` is
the null id. -/
def find_callback (m_callbacks : CallbackSet) (cb_handler : Option Ptr) : Option Ptr :=
  match cb_handler with
  | none => none
  | some h =>
      match find m_callbacks h with
      | none => none
      | some _ => some h

/-- Embedding of `Configuration::subscribe(criteria, user_cb, parameter)`
(`Configuration.cpp:1151-1185`): the outcome and the registry left. `user_cb` is `none`
for a null callback, `cs` is the address `new CallbackSubscription()` returns, and
`backend_subscribe` is the outcome of the call `reset_subscription` makes on the
backend. -/
def subscribe (m_callbacks : CallbackSet) (criteria : ConfigurationSubscriptionCriteria)
    (user_cb : Option (List ConfigurationChange → CallbackOutcome)) (parameter : Nat)
    (cs : Ptr) (backend_subscribe : BackendSubscription → Except ConfigError Unit) :
    Except ConfigError Ptr × CallbackSet :=
  match user_cb with
  | none => (.error (.Generic "callback function is not defined"), m_callbacks)
  | some cb =>
      let m1 := callbacks_insert m_callbacks cs
        { m_criteria := criteria, m_cb := cb, m_param := parameter }
      match backend_subscribe (reset_subscription (m1.map Prod.snd)) with
      | .ok _ => (.ok cs, m1)
      | .error e =>
          if is_generic e then
            (.error (.GenericCaused "subscription failed" e), erase m1 cs)
          else (.error e, m1)

/-! ### Mutexes -/

/-- The four mutexes of the façade: template objects, implementation, actions, and
subscriptions. -/
inductive Mutex where
  | m_tmpl_mutex
  | m_impl_mutex
  | m_actn_mutex
  | m_else_mutex
  deriving DecidableEq, Repr

/-- Taking and releasing a mutex. -/
inductive LockEvent where
  | lock (m : Mutex)
  | unlock (m : Mutex)
  deriving DecidableEq, Repr

/-- The façade operations of `Configuration.cpp` that take two mutexes or more. -/
inductive Operation where
  | load
  | unload
  | remove_include
  | commit
  | abort
  | prefetch_all_data
  | destroy_obj
  | rename_object
  | system_cb
  deriving DecidableEq, Repr

open Mutex LockEvent in
/-- The `std::lock_guard` constructions of each operation in program order, each guard
released at the end of its scope: `load` (`Configuration.cpp:323-332`), `unload`
(`360-402`), `remove_include` (`490-491`), `commit` (`574-575`), `abort` (`595-596`),
`prefetch_all_data` (`615-616`), `destroy_obj` (`738-739`), `rename_object`
(`754-755`), `system_cb` (`1483-1504`). -/
def lock_events : Operation → List LockEvent
  | .load =>
      [lock m_impl_mutex, lock m_actn_mutex, unlock m_actn_mutex, unlock m_impl_mutex]
  | .unload =>
      [lock m_tmpl_mutex, lock m_impl_mutex, lock m_actn_mutex, unlock m_actn_mutex,
        lock m_else_mutex, unlock m_else_mutex, unlock m_impl_mutex, unlock m_tmpl_mutex]
  | .remove_include =>
      [lock m_impl_mutex, lock m_tmpl_mutex, unlock m_tmpl_mutex, unlock m_impl_mutex]
  | .commit =>
      [lock m_tmpl_mutex, lock m_impl_mutex, unlock m_impl_mutex, unlock m_tmpl_mutex]
  | .abort =>
      [lock m_tmpl_mutex, lock m_impl_mutex, unlock m_impl_mutex, unlock m_tmpl_mutex]
  | .prefetch_all_data =>
      [lock m_tmpl_mutex, lock m_impl_mutex, unlock m_impl_mutex, unlock m_tmpl_mutex]
  | .destroy_obj =>
      [lock m_impl_mutex, lock m_tmpl_mutex, unlock m_tmpl_mutex, unlock m_impl_mutex]
  | .rename_object =>
      [lock m_tmpl_mutex, lock m_impl_mutex, unlock m_impl_mutex, unlock m_tmpl_mutex]
  | .system_cb =>
      [lock m_impl_mutex, lock m_actn_mutex, unlock m_actn_mutex, unlock m_impl_mutex,
        lock m_tmpl_mutex, lock m_impl_mutex, unlock m_impl_mutex, unlock m_tmpl_mutex,
        lock m_else_mutex, unlock m_else_mutex]

/-- Place of a mutex in the canonical order: template, implementation, actions,
subscriptions. -/
def Mutex.rank : Mutex → Nat
  | .m_tmpl_mutex => 1
  | .m_impl_mutex => 2
  | .m_actn_mutex => 3
  | .m_else_mutex => 4

/-- Every mutex is taken while only mutexes earlier in the canonical order are held;
`held` are the mutexes held at the start. -/
def canonical_order : List LockEvent → List Mutex → Bool
  | [], _ => true
  | .lock m :: rest, held =>
      held.all (fun h => decide (h.rank < m.rank)) && canonical_order rest (m :: held)
  | .unlock m :: rest, held => canonical_order rest (held.filter (fun h => decide (h ≠ m)))

/-! ### Export to a property tree -/

/-- Embedding of `attribute_t::type` (`ConfigurationImpl.cpp:50-71`). -/
def attribute_t.type : type_t → String
  | .bool_type => "bool"
  | .s8_type => "s8"
  | .u8_type => "u8"
  | .s16_type => "s16"
  | .u16_type => "u16"
  | .s32_type => "s32"
  | .u32_type => "u32"
  | .s64_type => "s64"
  | .u64_type => "u64"
  | .float_type => "float"
  | .double_type => "double"
  | .date_type => "date"
  | .time_type => "time"
  | .string_type => "string"
  | .enum_type => "enum"
  | .class_type => "class"

/-- Embedding of `attribute_t::format2str` (`ConfigurationImpl.cpp:73-81`). -/
def attribute_t.format2str : int_format_t → String
  | .oct_int_format => "octal"
  | .dec_int_format => "decimal"
  | .hex_int_format => "hexadecimal"
  | .na_int_format => "not applicable"

/-- Embedding of `relationship_t::card2str` (`ConfigurationImpl.cpp:124-133`). -/
def relationship_t.card2str : cardinality_t → String
  | .zero_or_one => "zero or one"
  | .zero_or_many => "zero or many"
  | .only_one => "one"
  | .one_or_many => "one or many"

/-- A property-tree node all of whose children are leaves: the keys with their values, in
order. -/
abbrev Fields := List (String × String)

/-- The call `ptree::put(key, value)`: the child `key` gets the value, or a child is
added at the back. -/
def ptree_put (pt : Fields) (key value : String) : Fields := assign pt key value

/-- The text `ptree::put` stores for a `bool`. -/
def bool_text (b : Bool) : String := if b then "true" else "false"

/-- The node `export_schema` builds for one attribute (`Configuration.cpp:888-906`). -/
def attribute_node (x : attribute_t) : Fields :=
  let attr := ptree_put [] "type" (attribute_t.type x.p_type)
  let attr :=
    if !x.p_range.isEmpty then ptree_put attr "range" x.p_range else attr
  let attr :=
    if x.p_int_format ≠ int_format_t.na_int_format then
      ptree_put attr "format" (attribute_t.format2str x.p_int_format)
    else attr
  let attr :=
    if x.p_is_not_null then ptree_put attr "is-not-null" (bool_text x.p_is_not_null)
    else attr
  let attr :=
    if x.p_is_multi_value then
      ptree_put attr "is-multi-value" (bool_text x.p_is_multi_value)
    else attr
  let attr :=
    if !x.p_default_value.isEmpty then ptree_put attr "default-value" x.p_default_value
    else attr
  if !x.p_description.isEmpty then ptree_put attr "description" x.p_description
  else attr

/-- The node `export_schema` builds for one relationship (`Configuration.cpp:915-926`). -/
def relationship_node (x : relationship_t) : Fields :=
  let relationship := ptree_put [] "type" x.p_type
  let relationship :=
    ptree_put relationship "cardinality" (relationship_t.card2str x.p_cardinality)
  let relationship :=
    if !x.p_is_aggregation then
      ptree_put relationship "is-aggregation" (bool_text x.p_is_aggregation)
    else relationship
  if !x.p_description.isEmpty then ptree_put relationship "description" x.p_description
  else relationship

/-- The node of one class in the exported schema: the leaves `abstract` and
`description`, and the children `superclasses`, `attributes` and `relationships`, each
absent (`none`) when the descriptor has none. -/
structure ClassNode where
  fields : Fields
  superclasses : Option (List String)
  attributes : Option (List (String × Fields))
  relationships : Option (List (String × Fields))
  deriving DecidableEq, Repr

/-- The node `export_schema` builds for one class (`Configuration.cpp:870-931`). -/
def class_node (info : class_t) : ClassNode :=
  let class_pt := ptree_put [] "abstract" (bool_text info.p_abstract)
  { fields :=
      if !info.p_description.isEmpty then ptree_put class_pt "description" info.p_description
      else class_pt
    superclasses := if !info.p_superclasses.isEmpty then some info.p_superclasses else none
    attributes :=
      if !info.p_attributes.isEmpty then
        some (info.p_attributes.map (fun x => (x.p_name, attribute_node x)))
      else none
    relationships :=
      if !info.p_relationships.isEmpty then
        some (info.p_relationships.map (fun x => (x.p_name, relationship_node x)))
      else none }

/-- A compiled `std::regex`, read through `std::regex_match`. -/
abbrev Regex := String → Bool

/-- Embedding of `init_regex` (`Configuration.cpp:822-837`): `compile` is the outcome of
constructing the `std::regex`, the text of the `std::regex_error` when it fails. -/
def init_regex (compile : String → Except String Regex) (str what : String) :
    Except ConfigError (Option Regex) :=
  if str.isEmpty then .ok none
  else
    match compile str with
    | .ok r => .ok (some r)
    | .error w =>
        .error (.Generic ("failed to create " ++ what ++ " regex \x22" ++ str ++ "\x22: " ++ w))

/-- The test `str.empty() || std::regex_match(s, *regex.get())` of the exports. -/
def regex_selects (str : String) (regex : Option Regex) (s : String) : Bool :=
  str.isEmpty || (match regex with
                  | some r => r s
                  | none => false)

/-- The lexicographic comparison of two character sequences by character code. -/
def chars_lt : List Char → List Char → Bool
  | _, [] => false
  | [], _ :: _ => true
  | a :: as, b :: bs =>
      if a.toNat < b.toNat then true
      else if b.toNat < a.toNat then false
      else chars_lt as bs

/-- The comparison `a < b` of two `std::string`. -/
def string_lt (a b : String) : Bool := chars_lt a.data b.data

/-- The call `insert(x)` on a `std::set` ordered by `key(a) < key(b)`: the members stay
in ascending order of key and an element whose key is already there is not added. -/
def sorted_insert_by {α : Type} (key : α → String) (x : α) : List α → List α
  | [] => [x]
  | y :: rest =>
      if string_lt (key x) (key y) then x :: y :: rest
      else if string_lt (key y) (key x) then y :: sorted_insert_by key x rest
      else y :: rest

/-- The set `sorted_classes` of the exports (`Configuration.cpp:859-864`): the names of
`superclasses()` the filter selects. -/
def sorted_classes (superclasses : ClassMap) (selects : String → Bool) : List String :=
  superclasses.foldl
    (fun acc c => if selects c.1 then sorted_insert_by id c.1 acc else acc) []

/-- A loop whose body may raise: the first error ends it. -/
def try_fold {α β ε : Type} (f : β → α → Except ε β) : List α → β → Except ε β
  | [], b => .ok b
  | a :: rest, b =>
      match f b a with
      | .error e => .error e
      | .ok b1 => try_fold f rest b1

/-- Embedding of `Configuration::export_schema` (`Configuration.cpp:849-935`); the class
nodes are the children of the tree, and `put_child` is given a class name without dots.
`backend_get` answers `get_class_info`; each class is visited once, so the descriptors
read are those of the calls on `self`, and the descriptor caches they fill are left
out. -/
def export_schema (self : Configuration) (compile : String → Except String Regex)
    (classes_str : String) (direct_only : Bool)
    (backend_get : String → Bool → Except ConfigError class_t) :
    Except ConfigError (List (String × ClassNode)) :=
  match init_regex compile classes_str "classes" with
  | .error e => .error e
  | .ok classes_regex =>
      try_fold
        (fun pt c =>
          if regex_selects classes_str classes_regex c then
            match get_class_info self c direct_only backend_get with
            | .error e => .error e
            | .ok (info, _) => .ok (assign pt c (class_node info))
          else .ok pt)
        (sorted_classes self.p_superclasses (regex_selects classes_str classes_regex)) []

/-- The class `Dummy` with a not-null multi-value attribute, a plain attribute, a
composite relationship and a plain relationship. -/
def dummyDescribed : class_t :=
  { p_name := "Dummy", p_description := "", p_abstract := false, p_superclasses := [],
    p_subclasses := [],
    p_attributes :=
      [{ p_name := "strings", p_type := type_t.string_type, p_range := "",
         p_int_format := int_format_t.na_int_format, p_is_not_null := true,
         p_is_multi_value := true, p_default_value := "", p_description := "" },
       { p_name := "flag", p_type := type_t.bool_type, p_range := "",
         p_int_format := int_format_t.na_int_format, p_is_not_null := false,
         p_is_multi_value := false, p_default_value := "", p_description := "" }],
    p_relationships :=
      [{ p_name := "parts", p_type := "Second", p_cardinality := cardinality_t.zero_or_many,
         p_is_aggregation := true, p_description := "" },
       { p_name := "peer", p_type := "Dummy", p_cardinality := cardinality_t.zero_or_one,
         p_is_aggregation := false, p_description := "" }] }

/-- A value of the exported data: a leaf, or an array of leaves. -/
inductive DataValue where
  | value (v : String)
  | array (items : List String)
  deriving DecidableEq, Repr

/-- The node of one object in the exported data: attribute and relationship names with
their values. -/
abbrev ObjectData := List (String × DataValue)

/-- The typed reads of `ConfigObject` (declared in the absent `config/ConfigObject.h`),
given by their outcomes: `get_value` and `get_values` read an attribute at the C++ type
the `switch` of `export_data` chooses from `p_type`, the value printed as `ptree::put`
stores it; `get_object` and `get_objects` read a relationship and give the `full_name()`
of each object read, `none` for a null object. -/
structure ObjectReads where
  get_value : Ptr → attribute_t → Except ConfigError String
  get_values : Ptr → attribute_t → Except ConfigError (List String)
  get_object : Ptr → String → Except ConfigError (Option String)
  get_objects : Ptr → String → Except ConfigError (List String)

/-- The array `add_data` builds from the values read (`Configuration.cpp:954-960`). -/
def array_items (values : List String) (empty_array_item : String) : List String :=
  if !values.isEmpty then values
  else if !empty_array_item.isEmpty then [empty_array_item]
  else []

/-- Embedding of `add_data<T>` for an attribute (`Configuration.cpp:937-964`). -/
def add_data_attribute (reads : ObjectReads) (pt : ObjectData) (obj : Ptr)
    (attr : attribute_t) (empty_array_item : String) : Except ConfigError ObjectData :=
  if !attr.p_is_multi_value then
    match reads.get_value obj attr with
    | .error e => .error e
    | .ok val => .ok (assign pt attr.p_name (.value val))
  else
    match reads.get_values obj attr with
    | .error e => .error e
    | .ok values =>
        .ok (pt ++ [(attr.p_name, .array (array_items values empty_array_item))])

/-- Embedding of `add_data` for a relationship (`Configuration.cpp:966-991`). -/
def add_data_relationship (reads : ObjectReads) (pt : ObjectData) (obj : Ptr)
    (relationship : relationship_t) (empty_array_item : String) :
    Except ConfigError ObjectData :=
  if relationship.p_cardinality = cardinality_t.zero_or_many
      ∨ relationship.p_cardinality = cardinality_t.one_or_many then
    match reads.get_objects obj relationship.p_name with
    | .error e => .error e
    | .ok values =>
        .ok (pt ++ [(relationship.p_name, .array (array_items values empty_array_item))])
  else
    match reads.get_object obj relationship.p_name with
    | .error e => .error e
    | .ok val =>
        .ok (assign pt relationship.p_name
          (.value (match val with
                   | some full_name => full_name
                   | none => "")))

/-- The node `export_data` builds for one object (`Configuration.cpp:1029-1085`): the
attributes of the descriptor in order, then its relationships. -/
def export_object (reads : ObjectReads) (info : class_t) (x : Ptr)
    (empty_array_item : String) : Except ConfigError ObjectData :=
  match try_fold (fun data a => add_data_attribute reads data x a empty_array_item)
      info.p_attributes [] with
  | .error e => .error e
  | .ok data =>
      try_fold (fun data r => add_data_relationship reads data x r empty_array_item)
        info.p_relationships data

/-- The set `sorted_objects` of `export_data` (`Configuration.cpp:1017-1024`);
`contained_in` gives the file of each object. -/
def sorted_objects (objs : Objs) (contained_in : Ptr → String) (objects : List Ptr)
    (c : String) (objects_selects files_selects : String → Bool) : List Ptr :=
  objects.foldl
    (fun acc x =>
      if objects_selects (ConfigObject.UID objs x) then
        if ConfigObject.class_name objs x = some c then
          if files_selects (contained_in x) then
            sorted_insert_by (ConfigObject.UID objs) x acc
          else acc
        else acc
      else acc) []

/-- The exported data: class names with the nodes of their objects by UID. -/
abbrev DataTree := List (String × List (String × ObjectData))

/-- The body of the loop of `export_data` over the classes
(`Configuration.cpp:1008-1091`) for the class `c`; `backend_objects` is the outcome of
`m_impl->get(class_name, objects, ...)` under `Configuration::get`
(`Configuration.cpp:250-267`). -/
def export_class (self : Configuration) (objs : Objs) (contained_in : Ptr → String)
    (reads : ObjectReads) (backend_get : String → Bool → Except ConfigError class_t)
    (backend_objects : String → Except ConfigError (List Ptr))
    (objects_selects files_selects : String → Bool) (empty_array_item : String)
    (pt : DataTree) (c : String) : Except ConfigError DataTree :=
  match get_class_info self c false backend_get with
  | .error e => .error e
  | .ok (info, _) =>
      match catch_generic ("failed to get objects of class \x27" ++ c ++ "\x27")
          (backend_objects c) with
      | .error e => .error e
      | .ok objects =>
          let sorted := sorted_objects objs contained_in objects c objects_selects files_selects
          if !sorted.isEmpty then
            match try_fold
                (fun pt_objects x =>
                  match export_object reads info x empty_array_item with
                  | .error e => .error e
                  | .ok data => .ok (pt_objects ++ [(ConfigObject.UID objs x, data)]))
                sorted [] with
            | .error e => .error e
            | .ok pt_objects => .ok (assign pt c pt_objects)
          else .ok pt

/-- Embedding of `Configuration::export_data` (`Configuration.cpp:993-1093`); the objects
are the implementation objects of the handles read, `put_child` is given a class name
without dots, and the descriptors are read as in `export_schema`. -/
def export_data (self : Configuration) (objs : Objs) (contained_in : Ptr → String)
    (reads : ObjectReads) (compile : String → Except String Regex)
    (backend_get : String → Bool → Except ConfigError class_t)
    (backend_objects : String → Except ConfigError (List Ptr))
    (classes_str objects_str files_str empty_array_item : String) :
    Except ConfigError DataTree :=
  match init_regex compile classes_str "classes" with
  | .error e => .error e
  | .ok classes_regex =>
      match init_regex compile objects_str "objects" with
      | .error e => .error e
      | .ok objects_regex =>
          match init_regex compile files_str "files" with
          | .error e => .error e
          | .ok files_regex =>
              try_fold
                (fun pt c =>
                  if regex_selects classes_str classes_regex c then
                    export_class self objs contained_in reads backend_get backend_objects
                      (regex_selects objects_str objects_regex)
                      (regex_selects files_str files_regex) empty_array_item pt c
                  else .ok pt)
                (sorted_classes self.p_superclasses (regex_selects classes_str classes_regex))
                []

/-- The schema with the one class `Dummy`, no descriptor memoised. -/
def onlyDummy : Configuration :=
  { p_superclasses := [("Dummy", [])], p_subclasses := [] }

/-- Two objects of class `Dummy` at addresses 1 and 2, with UIDs `a` and `b`. -/
def twoDummyObjects : Objs := fun p =>
  { m_state := ObjectState.Valid, m_id := if p = 1 then "a" else "b",
    m_class_name := some "Dummy", fields := [], calls := [] }

/-- Reads that raise on the attribute `flag` of the object at address 1 and succeed
everywhere else. -/
def flagOfOneRaises : ObjectReads :=
  { get_value := fun x a =>
      if x = 1 ∧ a.p_name = "flag" then .error (.Generic "read failed") else .ok "true"
    get_values := fun _ _ => .ok ["s"]
    get_object := fun _ _ => .ok none
    get_objects := fun _ _ => .ok [] }

/-- Reads that all succeed. -/
def allReadsSucceed : ObjectReads :=
  { get_value := fun _ _ => .ok "true"
    get_values := fun _ _ => .ok ["s"]
    get_object := fun _ _ => .ok none
    get_objects := fun _ _ => .ok [] }

/-- The record `i` neither creates nor modifies object `p`: it lists as created or as
modified no UID under which `p` is cached in the bucket of the class of `i`, of one of
its superclasses or of one of its subclasses. -/
def spares (self : Configuration) (cache : List (ClassName × Bucket))
    (i : ConfigurationChange) (p : Ptr) : Prop :=
  ∀ K y,
    (K = i.m_class_name ∨ K ∈ superclasses_of self i.m_class_name
        ∨ K ∈ subclasses_of self i.m_class_name) →
    bucket_entry cache K y = some p → y ∉ i.m_created ∧ y ∉ i.m_modified

/-- A batch reporting `x` created in `Dummy`, then removed in `Dummy`, then created in
the unrelated class `Other`. -/
def createdRemovedElsewhere : List ConfigurationChange :=
  [ { m_class_name := "Dummy", m_modified := [], m_created := ["x"], m_removed := [] },
    { m_class_name := "Dummy", m_modified := [], m_created := [], m_removed := ["x"] },
    { m_class_name := "Other", m_modified := ["x"], m_created := ["x"], m_removed := [] } ]

/-- What the created loop does with the object found under a UID: `reset()`. -/
def created_action (reset : ConfigObjectImpl → ConfigObjectImpl) (objs : Objs) (q : Ptr) :
    Objs :=
  setObj objs q (call_reset reset (objs q))

/-- What the modified loop does with the object found under a UID: `clear()` when its
state is Valid, `reset()` otherwise. -/
def modified_action (reset : ConfigObjectImpl → ConfigObjectImpl) (objs : Objs) (q : Ptr) :
    Objs :=
  if (objs q).m_state = ObjectState.Valid then setObj objs q (call_clear (objs q))
  else setObj objs q (call_reset reset (objs q))

/-- Look up each UID in the bucket of `K` and, if present, act on the object found. -/
def for_each_present (cache : List (ClassName × Bucket)) (K : ClassName)
    (act : Objs → Ptr → Objs) (uids : List String) (objs : Objs) : Objs :=
  uids.foldl
    (fun o y =>
      match bucket_entry cache K y with
      | some q => act o q
      | none => o)
    objs

/-- A record for `Second` listing `y` and `x` as modified, `z` as created and `w` as
removed. -/
def severalNotices : ConfigurationChange :=
  { m_class_name := "Second", m_modified := ["y", "x"], m_created := ["z"],
    m_removed := ["w"] }

/-- The first error in a sequence of steps, each given by the error it raises if it
raises. -/
def first_error {α : Type} (err : α → Option ConfigError) : List α → Option ConfigError
  | [] => none
  | a :: rest =>
      match err a with
      | some e => some e
      | none => first_error err rest

/-- The error the typed read of the attribute raises, if it raises. -/
def attribute_read_error (reads : ObjectReads) (x : Ptr) (a : attribute_t) :
    Option ConfigError :=
  if !a.p_is_multi_value then
    match reads.get_value x a with
    | .error e => some e
    | .ok _ => none
  else
    match reads.get_values x a with
    | .error e => some e
    | .ok _ => none

/-- The error the read of the relationship raises, if it raises. -/
def relationship_read_error (reads : ObjectReads) (x : Ptr) (r : relationship_t) :
    Option ConfigError :=
  if r.p_cardinality = cardinality_t.zero_or_many
      ∨ r.p_cardinality = cardinality_t.one_or_many then
    match reads.get_objects x r.p_name with
    | .error e => some e
    | .ok _ => none
  else
    match reads.get_object x r.p_name with
    | .error e => some e
    | .ok _ => none

/-- The first error among the reads of one object: the attributes of the descriptor in
order, then its relationships. -/
def object_first_error (reads : ObjectReads) (info : class_t) (x : Ptr) :
    Option ConfigError :=
  match first_error (attribute_read_error reads x) info.p_attributes with
  | some e => some e
  | none => first_error (relationship_read_error reads x) info.p_relationships

/-- The first error among the reads made for one class: its descriptor, the list of its
objects, then the selected objects in order of UID. -/
def class_first_error (self : Configuration) (objs : Objs) (contained_in : Ptr → String)
    (reads : ObjectReads) (backend_get : String → Bool → Except ConfigError class_t)
    (backend_objects : String → Except ConfigError (List Ptr))
    (objects_selects files_selects : String → Bool) (c : String) : Option ConfigError :=
  match get_class_info self c false backend_get with
  | .error e => some e
  | .ok (info, _) =>
      match catch_generic ("failed to get objects of class \x27" ++ c ++ "\x27")
          (backend_objects c) with
      | .error e => some e
      | .ok objects =>
          first_error (object_first_error reads info)
            (sorted_objects objs contained_in objects c objects_selects files_selects)

/-- The first error among the steps of an export of data: the three filters, then the
selected classes in order of name. -/
def export_first_error (self : Configuration) (objs : Objs) (contained_in : Ptr → String)
    (reads : ObjectReads) (compile : String → Except String Regex)
    (backend_get : String → Bool → Except ConfigError class_t)
    (backend_objects : String → Except ConfigError (List Ptr))
    (classes_str objects_str files_str : String) : Option ConfigError :=
  match init_regex compile classes_str "classes" with
  | .error e => some e
  | .ok classes_regex =>
      match init_regex compile objects_str "objects" with
      | .error e => some e
      | .ok objects_regex =>
          match init_regex compile files_str "files" with
          | .error e => some e
          | .ok files_regex =>
              first_error
                (class_first_error self objs contained_in reads backend_get backend_objects
                  (regex_selects objects_str objects_regex)
                  (regex_selects files_str files_regex))
                (sorted_classes self.p_superclasses
                  (regex_selects classes_str classes_regex))

/-- Reads that raise on the relationship `peer` of the object at address 2 and succeed
everywhere else. -/
def peerOfTwoRaises : ObjectReads :=
  { get_value := fun _ _ => .ok "true"
    get_values := fun _ _ => .ok ["s"]
    get_object := fun x r =>
      if x = 2 ∧ r = "peer" then .error (.NotFound "relationship" "peer") else .ok none
    get_objects := fun _ _ => .ok [] }

/-! ## Lemmas on the containers -/

section MapLemmas

variable {K V : Type} [DecidableEq K]

theorem find_key_eq {m : List (K × V)} {k k' : K} {v : V}
    (h : find m k = some (k', v)) : k' = k := by
  induction m with
  | nil => simp [find] at h
  | cons e rest ih =>
      obtain ⟨a, b⟩ := e
      by_cases hk : a = k
      · simp [find, hk] at h
        exact h.1.symm
      · simp [find, hk] at h
        exact ih h

theorem find_assign_same (m : List (K × V)) (k : K) (v : V) :
    find (assign m k v) k = some (k, v) := by
  induction m with
  | nil => simp [assign, find]
  | cons e rest ih =>
      obtain ⟨a, b⟩ := e
      by_cases hk : a = k
      · simp [assign, find, hk]
      · simp [assign, find, hk, ih]

theorem find_assign_ne (m : List (K × V)) {k k' : K} (v : V) (h : k' ≠ k) :
    find (assign m k v) k' = find m k' := by
  induction m with
  | nil =>
      have h' : ¬ k = k' := fun e => h e.symm
      simp [assign, find, h']
  | cons e rest ih =>
      obtain ⟨a, b⟩ := e
      by_cases hk : a = k
      · have h' : ¬ a = k' := fun e => h (e.symm.trans hk)
        have h'' : ¬ k = k' := fun e => h e.symm
        simp [assign, find, hk, h', h'']
      · by_cases hk' : a = k'
        · subst hk'
          simp [assign, find, hk]
        · simp [assign, find, hk, hk', ih]

theorem find_erase_same (m : List (K × V)) (k : K) : find (erase m k) k = none := by
  induction m with
  | nil => simp [erase, find]
  | cons e rest ih =>
      obtain ⟨a, b⟩ := e
      unfold erase at ih ⊢
      by_cases hk : a = k
      · rw [List.filter_cons_of_neg (by simp [hk])]
        exact ih
      · rw [List.filter_cons_of_pos (by simp [hk])]
        simp only [find, hk, if_false]
        exact ih

theorem find_erase_ne (m : List (K × V)) {k k' : K} (h : k' ≠ k) :
    find (erase m k) k' = find m k' := by
  induction m with
  | nil => simp [erase, find]
  | cons e rest ih =>
      obtain ⟨a, b⟩ := e
      unfold erase at ih ⊢
      by_cases hk : a = k
      · have h' : ¬ a = k' := fun e => h (e.symm.trans hk)
        rw [List.filter_cons_of_neg (by simp [hk])]
        simp only [find, h', if_false]
        exact ih
      · rw [List.filter_cons_of_pos (by simp [hk])]
        by_cases hk' : a = k'
        · simp only [find, hk', if_true]
        · simp only [find, hk', if_false]
          exact ih

end MapLemmas

/-- What `put_impl_object` leaves in the bucket of `name`: the entry of `id` is `obj`. -/
theorem put_impl_object_bucket (self : ConfigurationImpl) (name id : String) (obj : Ptr) :
    ∃ bucket, find (put_impl_object self name id obj).m_impl_objects name = some (name, bucket)
      ∧ find bucket id = some (id, obj) := by
  unfold put_impl_object
  cases hf : find self.m_impl_objects name with
  | none =>
      refine ⟨assign [] id obj, ?_, find_assign_same _ _ _⟩
      simp [hf, get_known_class_name_ref, find_assign_same]
  | some e =>
      obtain ⟨key, bucket⟩ := e
      have hk : key = name := find_key_eq hf
      subst hk
      refine ⟨assign bucket id obj, ?_, find_assign_same _ _ _⟩
      simp [hf, find_assign_same]

/-- Buckets of other classes are untouched by `put_impl_object`. -/
theorem put_impl_object_other (self : ConfigurationImpl) (name id : String) (obj : Ptr)
    {k : ClassName} (hk : k ≠ name) :
    find (put_impl_object self name id obj).m_impl_objects k = find self.m_impl_objects k := by
  unfold put_impl_object
  cases hf : find self.m_impl_objects name with
  | none => simp [hf, get_known_class_name_ref, find_assign_ne _ _ hk]
  | some e =>
      obtain ⟨key, bucket⟩ := e
      have hkey : key = name := find_key_eq hf
      subst hkey
      simp [hf, find_assign_ne _ _ hk]

theorem put_impl_object_m_conf (self : ConfigurationImpl) (name id : String) (obj : Ptr) :
    (put_impl_object self name id obj).m_conf = self.m_conf := by
  unfold put_impl_object
  cases hf : find self.m_impl_objects name with
  | none => simp [hf]
  | some e => obtain ⟨key, bucket⟩ := e; simp [hf]

/-- A hit in the own bucket is what `get_impl_object` returns. -/
theorem get_impl_object_own (self : ConfigurationImpl) (name id : String)
    {key : ClassName} {bucket : Bucket} {k : String} {p : Ptr}
    (hb : find self.m_impl_objects name = some (key, bucket))
    (hp : find bucket id = some (k, p)) :
    (get_impl_object self name id).1 = some p := by
  simp [get_impl_object, hb, hp]

/-- C1: after `put_impl_object(C, id, o)`, `get_impl_object(C, id)` returns `o`, and the
class name recorded on `o` is the interned name `C`. -/
theorem put_then_get_same_class (self : ConfigurationImpl) (C id : String) (o : Ptr) :
    (get_impl_object (put_impl_object self C id o) C id).1 = some o
      ∧ ((put_impl_object self C id o).objs o).m_class_name
          = some (get_known_class_name_ref C) := by
  constructor
  · obtain ⟨bucket, hb, hp⟩ := put_impl_object_bucket self C id o
    exact get_impl_object_own _ C id hb hp
  · unfold put_impl_object
    cases hf : find self.m_impl_objects C with
    | none => simp [hf, setObj, get_known_class_name_ref]
    | some e =>
        obtain ⟨key, bucket⟩ := e
        have hk : key = C := find_key_eq hf
        subst hk
        simp [hf, setObj, get_known_class_name_ref]

/-! ## Lookup with subclass fallback -/

theorem probe_subclasses_cons (cache : List (ClassName × Bucket)) (id : String)
    (k : ClassName) (rest : List ClassName) :
    probe_subclasses cache id (k :: rest)
      = match bucket_entry cache k id with
        | some p => some p
        | none => probe_subclasses cache id rest := by
  unfold bucket_entry
  rw [probe_subclasses]
  cases hf : find cache k with
  | none => simp
  | some e =>
      obtain ⟨key, bucket⟩ := e
      cases hb : find bucket id with
      | none => simp [hb]
      | some e' => simp [hb]

theorem probe_subclasses_none_iff (cache : List (ClassName × Bucket)) (id : String)
    (subs : List ClassName) :
    probe_subclasses cache id subs = none ↔ ∀ D ∈ subs, bucket_entry cache D id = none := by
  induction subs with
  | nil => simp [probe_subclasses]
  | cons k rest ih =>
      rw [probe_subclasses_cons]
      cases hk : bucket_entry cache k id with
      | none => simp [ih, hk]
      | some p => simp [hk]

theorem probe_subclasses_some (cache : List (ClassName × Bucket)) (id : String)
    (subs : List ClassName) (p : Ptr) (h : probe_subclasses cache id subs = some p) :
    ∃ D ∈ subs, bucket_entry cache D id = some p := by
  induction subs with
  | nil => simp [probe_subclasses] at h
  | cons k rest ih =>
      rw [probe_subclasses_cons] at h
      cases hk : bucket_entry cache k id with
      | none =>
          rw [hk] at h
          obtain ⟨D, hD, hp⟩ := ih h
          exact ⟨D, List.mem_cons_of_mem _ hD, hp⟩
      | some q =>
          rw [hk] at h
          simp at h
          subst h
          exact ⟨k, List.mem_cons_self _ _, hk⟩

theorem probe_subclasses_congr (c c' : List (ClassName × Bucket)) (id : String)
    (subs : List ClassName)
    (h : ∀ D ∈ subs, bucket_entry c' D id = bucket_entry c D id) :
    probe_subclasses c' id subs = probe_subclasses c id subs := by
  induction subs with
  | nil => simp [probe_subclasses]
  | cons k rest ih =>
      rw [probe_subclasses_cons, probe_subclasses_cons, h k (List.mem_cons_self _ _),
        ih (fun D hD => h D (List.mem_cons_of_mem _ hD))]

/-- The pointer `get_impl_object` returns, in terms of the bucket entries. -/
theorem get_impl_object_eq (self : ConfigurationImpl) (C id : String) :
    (get_impl_object self C id).1
      = match bucket_entry self.m_impl_objects C id with
        | some p => some p
        | none => probe_subclasses self.m_impl_objects id (subclasses_consulted self C) := by
  unfold get_impl_object bucket_entry subclasses_consulted
  cases hf : find self.m_impl_objects C with
  | none =>
      simp only [get_known_class_name_ref]
      cases hc : self.m_conf with
      | none => simp [probe_subclasses]
      | some conf =>
          cases hs : find conf.p_subclasses C with
          | none => simp [hs, probe_subclasses]
          | some e =>
              obtain ⟨k, subs⟩ := e
              cases hp : probe_subclasses self.m_impl_objects id subs <;> simp [hs, hp]
  | some e =>
      obtain ⟨key, bucket⟩ := e
      have hk : key = C := find_key_eq hf
      subst hk
      cases hb : find bucket id with
      | some e' => simp [hb]
      | none =>
          cases hc : self.m_conf with
          | none => simp [hb, probe_subclasses]
          | some conf =>
              cases hs : find conf.p_subclasses key with
              | none => simp [hb, hs, probe_subclasses]
              | some e =>
                  obtain ⟨k, subs⟩ := e
                  cases hp : probe_subclasses self.m_impl_objects id subs <;>
                    simp [hb, hs, hp]

theorem put_impl_object_entry (self : ConfigurationImpl) (C id : String) (o : Ptr) :
    bucket_entry (put_impl_object self C id o).m_impl_objects C id = some o := by
  obtain ⟨bucket, hb, hp⟩ := put_impl_object_bucket self C id o
  simp [bucket_entry, hb, hp]

theorem put_impl_object_entry_other (self : ConfigurationImpl) (C id : String) (o : Ptr)
    {D : ClassName} (hD : D ≠ C) (x : String) :
    bucket_entry (put_impl_object self C id o).m_impl_objects D x
      = bucket_entry self.m_impl_objects D x := by
  simp [bucket_entry, put_impl_object_other self C id o hD]

/-- C2 (as amended): with the implementation attached to a `Configuration` whose subclass
index is the inversion of its superclass map, and `C'` a superclass of `C`: after
`put_impl_object(C, id, o)`, `get_impl_object(C', id)` returns a non-null object; that
object is `o` when neither the bucket of `C'` nor the bucket of another subclass of
`C'` holds `id` beforehand. -/
theorem put_then_get_superclass (self : ConfigurationImpl) (conf : Configuration)
    (C C' id : String) (o : Ptr)
    (hconf : self.m_conf = some conf)
    (hinv : ∀ X D, D ∈ subclasses_of conf X ↔ X ∈ superclasses_of conf D)
    (hsup : C' ∈ superclasses_of conf C) :
    (∃ p, (get_impl_object (put_impl_object self C id o) C' id).1 = some p)
      ∧ ((bucket_entry self.m_impl_objects C' id = none ∨ C' = C) →
          (∀ D ∈ subclasses_of conf C', D ≠ C → bucket_entry self.m_impl_objects D id = none) →
          (get_impl_object (put_impl_object self C id o) C' id).1 = some o) := by
  have hsub : C ∈ subclasses_of conf C' := (hinv C' C).2 hsup
  have hcons : subclasses_consulted (put_impl_object self C id o) C' = subclasses_of conf C' := by
    simp [subclasses_consulted, subclasses_of, members, put_impl_object_m_conf, hconf]
  have hC := put_impl_object_entry self C id o
  constructor
  · rw [get_impl_object_eq]
    cases ho : bucket_entry (put_impl_object self C id o).m_impl_objects C' id with
    | some p => exact ⟨p, rfl⟩
    | none =>
        cases hp : probe_subclasses (put_impl_object self C id o).m_impl_objects id
            (subclasses_consulted (put_impl_object self C id o) C') with
        | some p => exact ⟨p, by simp [hp]⟩
        | none =>
            have := (probe_subclasses_none_iff _ _ _).1 hp C (by rw [hcons]; exact hsub)
            rw [hC] at this
            cases this
  · intro hown hothers
    rw [get_impl_object_eq]
    by_cases hCC : C' = C
    · subst hCC
      simp [hC]
    · have hown' : bucket_entry (put_impl_object self C id o).m_impl_objects C' id = none := by
        rw [put_impl_object_entry_other self C id o hCC]
        rcases hown with h | h
        · exact h
        · exact absurd h hCC
      rw [hown']
      cases hp : probe_subclasses (put_impl_object self C id o).m_impl_objects id
          (subclasses_consulted (put_impl_object self C id o) C') with
      | none =>
          have := (probe_subclasses_none_iff _ _ _).1 hp C (by rw [hcons]; exact hsub)
          rw [hC] at this
          cases this
      | some p =>
          obtain ⟨D, hD, hDp⟩ := probe_subclasses_some _ _ _ _ hp
          rw [hcons] at hD
          by_cases hDC : D = C
          · subst hDC
            rw [hC] at hDp
            simpa using hDp.symm
          · rw [put_impl_object_entry_other self C id o hDC, hothers D hD hDC] at hDp
            cases hDp

theorem dummySecond_inverted :
    ∀ X D, D ∈ subclasses_of dummySecond X ↔ X ∈ superclasses_of dummySecond D := by
  intro X D
  by_cases hX : "Dummy" = X
  · by_cases hD : "Second" = D
    · subst hX; subst hD; decide
    · subst hX
      by_cases hD' : "Dummy" = D
      · subst hD'; decide
      · have h1 : D ≠ "Second" := fun e => hD e.symm
        simp [subclasses_of, superclasses_of, members, dummySecond, find, hD, hD', h1]
  · by_cases hD : "Second" = D
    · subst hD
      have h1 : X ≠ "Dummy" := fun e => hX e.symm
      simp [subclasses_of, superclasses_of, members, dummySecond, find, hX, h1]
    · by_cases hD' : "Dummy" = D
      · subst hD'
        simp [subclasses_of, superclasses_of, members, dummySecond, find, hX]
      · simp [subclasses_of, superclasses_of, members, dummySecond, find, hX, hD, hD']

/-- C2 witness: in the schema `Second ⊂ Dummy` with an empty `Dummy` bucket,
`put_impl_object(Second, #7, 2)` makes `get_impl_object(Dummy, #7)` return object 2. -/
theorem put_then_get_superclass_witness :
    (get_impl_object (put_impl_object { staleDummy7 with m_impl_objects := [] }
        "Second" "#7" 2) "Dummy" "#7").1 = some 2 :=
  (put_then_get_superclass { staleDummy7 with m_impl_objects := [] } dummySecond
      "Second" "Dummy" "#7" 2 rfl dummySecond_inverted (by decide)).2
    (Or.inl (by decide)) (fun D _ _ => by simp [bucket_entry, find])

/-- C2 counterexample: `Dummy` already caches object 1 under `#7`; after
`put_impl_object(Second, #7, 2)` the lookup `get_impl_object(Dummy, #7)` still returns
object 1, although `Dummy` is a superclass of `Second`, the index is the inversion of
the superclass map and the implementation is attached. -/
theorem put_then_get_superclass_shadowed :
    staleDummy7.m_conf = some dummySecond
      ∧ (∀ X D, D ∈ subclasses_of dummySecond X ↔ X ∈ superclasses_of dummySecond D)
      ∧ "Dummy" ∈ superclasses_of dummySecond "Second"
      ∧ (get_impl_object (put_impl_object staleDummy7 "Second" "#7" 2) "Dummy" "#7").1
          = some 1
      ∧ (get_impl_object (put_impl_object staleDummy7 "Second" "#7" 2) "Dummy" "#7").1
          ≠ some 2 :=
  ⟨rfl, dummySecond_inverted, by decide, by decide, by decide⟩

/-- C3: `get_impl_object(C, id)` returns the entry of `id` in the bucket of `C` whenever
there is one; otherwise an entry of `id` in the bucket of a class of `subclasses(C)`;
it returns null exactly when none of these buckets holds `id`; and its result is the
same in any cache that agrees on the entries of `id` in the buckets of `C` and of the
classes of `subclasses(C)`. -/
theorem get_impl_object_spec (self : ConfigurationImpl) (C id : String) :
    (∀ p, bucket_entry self.m_impl_objects C id = some p →
        (get_impl_object self C id).1 = some p)
      ∧ (bucket_entry self.m_impl_objects C id = none →
          ∀ p, (get_impl_object self C id).1 = some p →
            ∃ D ∈ subclasses_consulted self C, bucket_entry self.m_impl_objects D id = some p)
      ∧ ((get_impl_object self C id).1 = none ↔
          (bucket_entry self.m_impl_objects C id = none
            ∧ ∀ D ∈ subclasses_consulted self C, bucket_entry self.m_impl_objects D id = none))
      ∧ (∀ other : ConfigurationImpl, other.m_conf = self.m_conf →
          bucket_entry other.m_impl_objects C id = bucket_entry self.m_impl_objects C id →
          (∀ D ∈ subclasses_consulted self C,
            bucket_entry other.m_impl_objects D id = bucket_entry self.m_impl_objects D id) →
          (get_impl_object other C id).1 = (get_impl_object self C id).1) := by
  refine ⟨?_, ?_, ?_, ?_⟩
  · intro p hp
    rw [get_impl_object_eq, hp]
  · intro hown p hp
    rw [get_impl_object_eq, hown] at hp
    exact probe_subclasses_some _ _ _ _ hp
  · rw [get_impl_object_eq]
    cases hown : bucket_entry self.m_impl_objects C id with
    | some p => simp
    | none => simp [probe_subclasses_none_iff]
  · intro other hconf hown hsubs
    have hcons : subclasses_consulted other C = subclasses_consulted self C := by
      simp [subclasses_consulted, hconf]
    rw [get_impl_object_eq, get_impl_object_eq, hown, hcons,
      probe_subclasses_congr self.m_impl_objects other.m_impl_objects id _ hsubs]

/-! ## Rename -/

theorem bucket_entry_some {cache : List (ClassName × Bucket)} {C : ClassName} {id : String}
    {p : Ptr} (h : bucket_entry cache C id = some p) :
    ∃ bucket, find cache C = some (C, bucket) ∧ find bucket id = some (id, p) := by
  unfold bucket_entry at h
  cases hf : find cache C with
  | none => simp [hf] at h
  | some e =>
      obtain ⟨key, bucket⟩ := e
      have hk : key = C := find_key_eq hf
      subst hk
      cases hb : find bucket id with
      | none => simp [hf, hb] at h
      | some e' =>
          obtain ⟨k, q⟩ := e'
          have hk' : k = id := find_key_eq hb
          subst hk'
          simp [hf, hb] at h
          subst h
          exact ⟨bucket, rfl, hb⟩

/-- The state `rename_impl_object` produces when the bucket of `C` holds `old_id`. -/
theorem rename_impl_object_eq (self : ConfigurationImpl) (C : ClassName) (old_id new_id : String)
    {bucket : Bucket} {p : Ptr}
    (hb : find self.m_impl_objects C = some (C, bucket))
    (ho : find bucket old_id = some (old_id, p)) :
    (rename_impl_object self C old_id new_id).m_impl_objects
        = assign self.m_impl_objects C (erase (assign bucket new_id p) old_id)
      ∧ (rename_impl_object self C old_id new_id).m_conf = self.m_conf := by
  unfold rename_impl_object
  cases hn : find bucket new_id with
  | none => simp [hb, ho, hn]
  | some e => obtain ⟨k, q⟩ := e; simp [hb, ho, hn]

/-- C4 (as amended): when the bucket of `C` holds `old` (object `p`) and `new ≠ old`,
after `rename_impl_object(C, old, new)` the lookup `get_impl_object(C, new)` returns
`p`, the bucket of `C` no longer holds `old`, and `get_impl_object(C, old)` is null
provided no bucket of another class of `subclasses(C)` holds `old`. -/
theorem rename_then_get (self : ConfigurationImpl) (C : ClassName) (old new : String) (p : Ptr)
    (hold : bucket_entry self.m_impl_objects C old = some p) (hne : new ≠ old) :
    (get_impl_object (rename_impl_object self C old new) C new).1 = some p
      ∧ bucket_entry (rename_impl_object self C old new).m_impl_objects C old = none
      ∧ ((∀ D ∈ subclasses_consulted self C, D ≠ C →
            bucket_entry self.m_impl_objects D old = none) →
          (get_impl_object (rename_impl_object self C old new) C old).1 = none) := by
  obtain ⟨bucket, hb, ho⟩ := bucket_entry_some hold
  obtain ⟨hcache, hconf⟩ := rename_impl_object_eq self C old new hb ho
  have hnew : bucket_entry (rename_impl_object self C old new).m_impl_objects C new = some p := by
    simp [bucket_entry, hcache, find_assign_same, find_erase_ne _ hne]
  have hgone : bucket_entry (rename_impl_object self C old new).m_impl_objects C old = none := by
    simp [bucket_entry, hcache, find_assign_same, find_erase_same]
  refine ⟨?_, hgone, ?_⟩
  · rw [get_impl_object_eq, hnew]
  · intro hsubs
    rw [get_impl_object_eq, hgone]
    simp only
    rw [probe_subclasses_none_iff]
    intro D hD
    have hD' : D ∈ subclasses_consulted self C := by
      simpa [subclasses_consulted, hconf] using hD
    by_cases hDC : D = C
    · subst hDC; exact hgone
    · have := hsubs D hD' hDC
      simpa [bucket_entry, hcache, find_assign_ne _ _ hDC] using this

/-- C4 witness: renaming `Dummy#A` to `#B` in a cache holding only `Dummy#A`. -/
theorem rename_then_get_witness :
    (get_impl_object (rename_impl_object onlyDummyA "Dummy" "#A" "#B") "Dummy" "#B").1 = some 1
      ∧ bucket_entry (rename_impl_object onlyDummyA "Dummy" "#A" "#B").m_impl_objects
          "Dummy" "#A" = none
      ∧ ((∀ D ∈ subclasses_consulted onlyDummyA "Dummy", D ≠ "Dummy" →
            bucket_entry onlyDummyA.m_impl_objects D "#A" = none) →
          (get_impl_object (rename_impl_object onlyDummyA "Dummy" "#A" "#B") "Dummy" "#A").1
            = none) :=
  rename_then_get onlyDummyA "Dummy" "#A" "#B" 1 (by decide) (by decide)

/-- C4 counterexample: (i) renaming `Dummy#A` to its own UID `#A` leaves
`get_impl_object(Dummy, #A)` null instead of the renamed object 1; (ii) with `Second#A`
cached in a subclass bucket, after renaming `Dummy#A` to `#B` the lookup
`get_impl_object(Dummy, #A)` returns object 2 instead of null. -/
theorem rename_then_get_fails :
    (bucket_entry onlyDummyA.m_impl_objects "Dummy" "#A" = some 1
        ∧ (get_impl_object (rename_impl_object onlyDummyA "Dummy" "#A" "#A") "Dummy" "#A").1
            ≠ some 1)
      ∧ (bucket_entry dummyAsecondA.m_impl_objects "Dummy" "#A" = some 1
        ∧ (get_impl_object (rename_impl_object dummyAsecondA "Dummy" "#A" "#B") "Dummy" "#A").1
            ≠ none) := by
  decide

/-- C5: when the bucket of `C` holds both `old` and `new`, `rename_impl_object(C, old, new)`
appends the object previously stored at `(C, new)` to the tangled list, leaving the
earlier elements in place, and that object is kept with its state set to Unknown, every
other object being untouched; when the bucket of `C` does not hold `new`, the tangled
list and all objects are unchanged. -/
theorem rename_collision_tangles (self : ConfigurationImpl) (C : ClassName) (old new : String) :
    (∀ po pn, bucket_entry self.m_impl_objects C old = some po →
        bucket_entry self.m_impl_objects C new = some pn →
        (rename_impl_object self C old new).m_tangled_objects = self.m_tangled_objects ++ [pn]
          ∧ (rename_impl_object self C old new).objs pn
              = { self.objs pn with m_state := ObjectState.Unknown }
          ∧ ((rename_impl_object self C old new).objs pn).m_state = ObjectState.Unknown
          ∧ ∀ q, q ≠ pn → (rename_impl_object self C old new).objs q = self.objs q)
      ∧ (bucket_entry self.m_impl_objects C new = none →
          (rename_impl_object self C old new).m_tangled_objects = self.m_tangled_objects
            ∧ (rename_impl_object self C old new).objs = self.objs) := by
  constructor
  · intro po pn ho hn
    obtain ⟨bucket, hb, ho'⟩ := bucket_entry_some ho
    obtain ⟨bucket', hb', hn'⟩ := bucket_entry_some hn
    rw [hb] at hb'
    simp at hb'
    subst hb'
    have hT : (rename_impl_object self C old new).m_tangled_objects
        = self.m_tangled_objects ++ [pn] := by
      simp [rename_impl_object, hb, ho', hn']
    have hO : (rename_impl_object self C old new).objs
        = setObj self.objs pn { self.objs pn with m_state := ObjectState.Unknown } := by
      simp [rename_impl_object, hb, ho', hn']
    refine ⟨hT, ?_, ?_, ?_⟩
    · rw [hO]; simp [setObj]
    · rw [hO]; simp [setObj]
    · intro q hq
      rw [hO]; simp [setObj, hq]
  · intro hn
    unfold rename_impl_object
    cases hb : find self.m_impl_objects C with
    | none => simp
    | some e =>
        obtain ⟨key, bucket⟩ := e
        have hk : key = C := find_key_eq hb
        subst hk
        cases ho : find bucket old with
        | none => simp [ho]
        | some e' =>
            obtain ⟨k, po⟩ := e'
            cases hn' : find bucket new with
            | none => simp [ho, hn']
            | some e'' =>
                obtain ⟨k', pn⟩ := e''
                simp [bucket_entry, hb, hn'] at hn

/-! ## Inheritance index -/

theorem mem_fset_insert {K : Type} [DecidableEq K] (s : List K) (i D : K) :
    D ∈ fset_insert s i ↔ D ∈ s ∨ D = i := by
  unfold fset_insert
  by_cases h : i ∈ s
  · simp only [h, if_true]
    constructor
    · exact Or.inl
    · rintro (h' | h')
      · exact h'
      · subst h'; exact h
  · simp [h]

theorem members_assign_same (m : ClassMap) (k : ClassName) (v : List ClassName) :
    members (assign m k v) k = v := by
  simp [members, find_assign_same]

theorem members_assign_ne (m : ClassMap) {k C : ClassName} (v : List ClassName) (h : C ≠ k) :
    members (assign m k v) C = members m C := by
  simp [members, find_assign_ne _ _ h]

theorem members_subclasses_add (m : ClassMap) (j i C D : ClassName) :
    D ∈ members (subclasses_add m j i) C ↔ D ∈ members m C ∨ (C = j ∧ D = i) := by
  by_cases hC : C = j
  · subst hC
    unfold subclasses_add
    cases hf : find m C with
    | none =>
        simp only [members_assign_same, mem_fset_insert]
        simp [members, hf]
    | some e =>
        obtain ⟨k, s⟩ := e
        simp only [members_assign_same, mem_fset_insert]
        simp [members, hf]
  · unfold subclasses_add
    cases hf : find m j with
    | none => simp [members_assign_ne _ _ hC, hC]
    | some e =>
        obtain ⟨k, s⟩ := e
        simp [members_assign_ne _ _ hC, hC]

theorem members_inner_fold (S : List ClassName) (i : ClassName) (m : ClassMap)
    (C D : ClassName) :
    D ∈ members (S.foldl (fun acc j => subclasses_add acc j i) m) C
      ↔ D ∈ members m C ∨ (C ∈ S ∧ D = i) := by
  induction S generalizing m with
  | nil => simp
  | cons j rest ih =>
      simp only [List.foldl_cons, ih, members_subclasses_add, List.mem_cons]
      constructor
      · rintro ((h | ⟨h1, h2⟩) | ⟨h1, h2⟩)
        · exact Or.inl h
        · exact Or.inr ⟨Or.inl h1, h2⟩
        · exact Or.inr ⟨Or.inr h1, h2⟩
      · rintro (h | ⟨h1 | h1, h2⟩)
        · exact Or.inl (Or.inl h)
        · exact Or.inl (Or.inr ⟨h1, h2⟩)
        · exact Or.inr ⟨h1, h2⟩

theorem members_outer_fold (entries : ClassMap) (m : ClassMap) (C D : ClassName) :
    D ∈ members
        (entries.foldl
          (fun acc i => i.2.foldl (fun acc' j => subclasses_add acc' j i.1) acc) m) C
      ↔ D ∈ members m C ∨ ∃ e ∈ entries, e.1 = D ∧ C ∈ e.2 := by
  induction entries generalizing m with
  | nil => simp
  | cons e rest ih =>
      simp only [List.foldl_cons, ih, members_inner_fold, List.mem_cons]
      constructor
      · rintro ((h | ⟨h1, h2⟩) | ⟨e', he', h1, h2⟩)
        · exact Or.inl h
        · exact Or.inr ⟨e, Or.inl rfl, h2.symm, h1⟩
        · exact Or.inr ⟨e', Or.inr he', h1, h2⟩
      · rintro (h | ⟨e', he' | he', h1, h2⟩)
        · exact Or.inl (Or.inl h)
        · subst he'; exact Or.inl (Or.inr ⟨h2, h1.symm⟩)
        · exact Or.inr ⟨e', he', h1, h2⟩

theorem find_mem {K V : Type} [DecidableEq K] {m : List (K × V)} {k k' : K} {v : V}
    (h : find m k = some (k', v)) : (k', v) ∈ m := by
  induction m with
  | nil => simp [find] at h
  | cons e rest ih =>
      obtain ⟨a, b⟩ := e
      by_cases hk : a = k
      · simp [find, hk] at h
        obtain ⟨h1, h2⟩ := h
        subst h1; subst h2; subst hk
        exact List.mem_cons_self _ _
      · simp [find, hk] at h
        exact List.mem_cons_of_mem _ (ih h)

theorem find_of_mem_nodup {K V : Type} [DecidableEq K] {m : List (K × V)} {k : K} {v : V}
    (hnd : (m.map Prod.fst).Nodup) (h : (k, v) ∈ m) : find m k = some (k, v) := by
  induction m with
  | nil => simp at h
  | cons e rest ih =>
      obtain ⟨a, b⟩ := e
      simp only [List.map_cons, List.nodup_cons] at hnd
      rcases List.mem_cons.1 h with h' | h'
      · cases h'
        simp [find]
      · have hne : a ≠ k := by
          intro hak
          apply hnd.1
          subst hak
          exact List.mem_map.2 ⟨(a, v), h', rfl⟩
        simp only [find, hne, if_false]
        exact ih hnd.2 h'

/-- Membership in the rebuilt index, by entries of the superclass map. -/
theorem set_subclasses_mem (self : Configuration) (C D : ClassName) :
    D ∈ subclasses_of (set_subclasses self) C
      ↔ ∃ e ∈ self.p_superclasses, e.1 = D ∧ C ∈ e.2 := by
  unfold subclasses_of set_subclasses
  simp only [members_outer_fold]
  simp [members, find]

/-- Membership in the rebuilt index, by lookups in a superclass map with unique keys. -/
theorem set_subclasses_mem_find (self : Configuration)
    (hkeys : (self.p_superclasses.map Prod.fst).Nodup) (C D : ClassName) :
    D ∈ subclasses_of (set_subclasses self) C
      ↔ ∃ S, find self.p_superclasses D = some (D, S) ∧ C ∈ S := by
  rw [set_subclasses_mem]
  constructor
  · rintro ⟨⟨k, S⟩, he, h1, h2⟩
    simp only at h1 h2
    subst h1
    exact ⟨S, find_of_mem_nodup hkeys he, h2⟩
  · rintro ⟨S, hf, hC⟩
    exact ⟨(D, S), find_mem hf, rfl, hC⟩

theorem mem_members_iff (m : ClassMap) (C D : ClassName) :
    C ∈ members m D ↔ ∃ S, find m D = some (D, S) ∧ C ∈ S := by
  unfold members
  cases hf : find m D with
  | none => simp
  | some e =>
      obtain ⟨k, S⟩ := e
      have hk : k = D := find_key_eq hf
      subst hk
      simp

/-- C6: for a superclass map (its keys unique, as in any hash map), after
`set_subclasses()` a class `D` is in `subclasses(C)` exactly when `D` is a key of the
superclass map and `C` is in `superclasses(D)`; the rebuilt index does not depend on
the index held before. -/
theorem set_subclasses_inverts (self : Configuration)
    (hkeys : (self.p_superclasses.map Prod.fst).Nodup) :
    (∀ C D, D ∈ subclasses_of (set_subclasses self) C
        ↔ ∃ S, find self.p_superclasses D = some (D, S) ∧ C ∈ S)
      ∧ (∀ C D, D ∈ subclasses_of (set_subclasses self) C
        ↔ C ∈ superclasses_of (set_subclasses self) D)
      ∧ (∀ old : ClassMap,
          (set_subclasses { self with p_subclasses := old }).p_subclasses
            = (set_subclasses self).p_subclasses) := by
  refine ⟨set_subclasses_mem_find self hkeys, ?_, ?_⟩
  · intro C D
    rw [set_subclasses_mem_find self hkeys]
    exact (mem_members_iff self.p_superclasses C D).symm
  · intro old
    rfl

/-- C6 witness: rebuilding over the scenario superclass map while a stale index is held. -/
theorem set_subclasses_inverts_witness :
    (∀ C D, D ∈ subclasses_of (set_subclasses staleIndex) C
        ↔ ∃ S, find staleIndex.p_superclasses D = some (D, S) ∧ C ∈ S)
      ∧ (∀ C D, D ∈ subclasses_of (set_subclasses staleIndex) C
        ↔ C ∈ superclasses_of (set_subclasses staleIndex) D)
      ∧ (∀ old : ClassMap,
          (set_subclasses { staleIndex with p_subclasses := old }).p_subclasses
            = (set_subclasses staleIndex).p_subclasses) :=
  set_subclasses_inverts staleIndex (by decide)

/-- The index is the inversion of the superclass map after every operation that ends
with `get_superclasses` followed by `set_subclasses`. -/
theorem rebuild_inverts (self : Configuration) (get_superclasses : ClassMap → ClassMap)
    (hkeys : ((get_superclasses self.p_superclasses).map Prod.fst).Nodup) (C D : ClassName) :
    D ∈ subclasses_of
          (set_subclasses { self with p_superclasses := get_superclasses self.p_superclasses }) C
      ↔ C ∈ superclasses_of
          (set_subclasses { self with p_superclasses := get_superclasses self.p_superclasses }) D := by
  rw [set_subclasses_mem_find _ hkeys]
  exact (mem_members_iff _ C D).symm

/-- C7, at the failing input: in the schema `Second ⊂ Dummy`, whose index is the
inversion of its superclass map, a successful `unload()` empties the superclass map and
leaves the index as it was: `Second` is still in `subclasses(Dummy)` while `Dummy` is
no longer in `superclasses(Second)`. -/
theorem unload_keeps_stale_subclasses :
    (∀ X D, D ∈ subclasses_of dummySecond X ↔ X ∈ superclasses_of dummySecond D)
      ∧ ∃ after, unload dummySecond true (.ok ()) (.ok ()) = .ok after
          ∧ "Second" ∈ subclasses_of after "Dummy"
          ∧ "Dummy" ∉ superclasses_of after "Second" :=
  ⟨dummySecond_inverted,
    { p_superclasses := [], p_subclasses := [("Dummy", ["Second"])] }, rfl,
    by decide, by decide⟩

/-- C8: `try_cast(T, S)` is true exactly when `T = S` or `T` is in `superclasses(S)`;
when `S` is not a key of the superclass map and `T ≠ S` it is false. -/
theorem try_cast_iff (self : Configuration) (T S : String) :
    (try_cast self T S = true ↔ (T = S ∨ T ∈ superclasses_of self S))
      ∧ (find self.p_superclasses S = none → T ≠ S → try_cast self T S = false) := by
  unfold try_cast try_cast_ptr get_known_class_name_ref superclasses_of members
  constructor
  · by_cases hTS : T = S
    · simp [hTS]
    · cases hf : find self.p_superclasses S with
      | none => simp [hTS]
      | some e =>
          obtain ⟨k, s⟩ := e
          by_cases hm : T ∈ s <;> simp [hTS, hm]
  · intro hf hTS
    simp [hTS, hf]

/-! ## Cache coherence -/

theorem setObj_same (objs : Objs) (p : Ptr) (o : ConfigObjectImpl) : setObj objs p o p = o := by
  simp [setObj]

theorem setObj_other (objs : Objs) {p q : Ptr} (o : ConfigObjectImpl) (h : q ≠ p) :
    setObj objs p o q = objs q := by
  simp [setObj, h]

theorem removed_step_keeps (bucket : Bucket) (objs : Objs) (y : String) (p : Ptr)
    (h : deleted_and_cleared (objs p)) : deleted_and_cleared (removed_step bucket objs y p) := by
  unfold removed_step
  cases hf : find bucket y with
  | none => simpa using h
  | some e =>
      obtain ⟨k, q⟩ := e
      by_cases hpq : p = q
      · subst hpq
        simp [setObj_same, deleted_and_cleared, call_clear]
      · simpa [setObj_other _ _ hpq] using h

theorem removed_step_hits (bucket : Bucket) (objs : Objs) (x k : String) (p : Ptr)
    (hf : find bucket x = some (k, p)) : deleted_and_cleared (removed_step bucket objs x p) := by
  unfold removed_step
  simp [hf, setObj_same, deleted_and_cleared, call_clear]

theorem removed_fold_keeps (bucket : Bucket) (uids : List String) (objs : Objs) (p : Ptr)
    (h : deleted_and_cleared (objs p)) :
    deleted_and_cleared (uids.foldl (removed_step bucket) objs p) := by
  induction uids generalizing objs with
  | nil => simpa using h
  | cons y rest ih =>
      simp only [List.foldl_cons]
      exact ih _ (removed_step_keeps bucket objs y p h)

theorem removed_fold_hits (bucket : Bucket) (uids : List String) (objs : Objs)
    (x k : String) (p : Ptr) (hx : x ∈ uids) (hf : find bucket x = some (k, p)) :
    deleted_and_cleared (uids.foldl (removed_step bucket) objs p) := by
  induction uids generalizing objs with
  | nil => simp at hx
  | cons y rest ih =>
      simp only [List.foldl_cons]
      by_cases hyx : y = x
      · subst hyx
        exact removed_fold_keeps bucket rest _ p (removed_step_hits bucket objs y k p hf)
      · rcases List.mem_cons.1 hx with h | h
        · exact absurd h.symm hyx
        · exact ih _ h

theorem for_each_removed_keeps (cache : List (ClassName × Bucket)) (K : ClassName)
    (uids : List String) (objs : Objs) (p : Ptr) (h : deleted_and_cleared (objs p)) :
    deleted_and_cleared (for_each_uid cache K uids removed_step objs p) := by
  unfold for_each_uid
  by_cases he : uids.isEmpty = false
  · rw [if_pos he]
    cases hb : find cache K with
    | none => exact h
    | some e =>
        obtain ⟨key, bucket⟩ := e
        exact removed_fold_keeps bucket uids objs p h
  · rw [if_neg he]; exact h

theorem for_each_removed_hits (cache : List (ClassName × Bucket)) (K : ClassName)
    (uids : List String) (objs : Objs) (x : String) (p : Ptr)
    (hx : x ∈ uids) (hp : bucket_entry cache K x = some p) :
    deleted_and_cleared (for_each_uid cache K uids removed_step objs p) := by
  obtain ⟨bucket, hb, hf⟩ := bucket_entry_some hp
  have hne : uids.isEmpty = false := by
    cases uids with
    | nil => simp at hx
    | cons a l => rfl
  unfold for_each_uid
  rw [if_pos hne]
  simp only [hb]
  exact removed_fold_hits bucket uids objs x x p hx hf

/-- C9 counterexample: the record for `Second` lists `x` as removed and neither as
created nor as modified, a later record for the superclass `Dummy` lists `x` as
created; with a backend whose `reset()` finds the object alive, the object cached at
`(Second, x)` ends with state Valid, not Deleted. -/
theorem update_cache_removed_fails :
    bucket_entry secondX.m_impl_objects "Second" "x" = some 1
      ∧ ({ m_class_name := "Second", m_modified := [], m_created := [], m_removed := ["x"] }
          : ConfigurationChange) ∈ removedThenCreated
      ∧ ((update_cache reset_valid dummySecond secondX removedThenCreated).objs 1).m_state
          = ObjectState.Valid
      ∧ ((update_cache reset_valid dummySecond secondX removedThenCreated).objs 1).m_state
          ≠ ObjectState.Deleted := by
  decide

/-! ### Traces of virtual calls -/

theorem removed_step_trace (bucket : Bucket) (objs : Objs) (y : String) (p : Ptr) :
    ∃ suf, (removed_step bucket objs y p).calls = (objs p).calls ++ suf := by
  unfold removed_step
  cases hf : find bucket y with
  | none => exact ⟨[], by simp⟩
  | some e =>
      obtain ⟨k, q⟩ := e
      by_cases hpq : p = q
      · subst hpq
        exact ⟨[VCall.clear], by simp [setObj_same, call_clear]⟩
      · exact ⟨[], by simp [setObj_other _ _ hpq]⟩

theorem created_step_trace (reset : ConfigObjectImpl → ConfigObjectImpl) (bucket : Bucket)
    (objs : Objs) (y : String) (p : Ptr) :
    ∃ suf, (created_step reset bucket objs y p).calls = (objs p).calls ++ suf := by
  unfold created_step
  cases hf : find bucket y with
  | none => exact ⟨[], by simp⟩
  | some e =>
      obtain ⟨k, q⟩ := e
      by_cases hpq : p = q
      · subst hpq
        exact ⟨[VCall.reset], by simp [setObj_same, call_reset]⟩
      · exact ⟨[], by simp [setObj_other _ _ hpq]⟩

theorem modified_step_trace (reset : ConfigObjectImpl → ConfigObjectImpl) (bucket : Bucket)
    (objs : Objs) (y : String) (p : Ptr) :
    ∃ suf, (modified_step reset bucket objs y p).calls = (objs p).calls ++ suf := by
  unfold modified_step
  cases hf : find bucket y with
  | none => exact ⟨[], by simp⟩
  | some e =>
      obtain ⟨k, q⟩ := e
      by_cases hv : (objs q).m_state = ObjectState.Valid
      · by_cases hpq : p = q
        · subst hpq
          exact ⟨[VCall.clear], by simp [hv, setObj_same, call_clear]⟩
        · exact ⟨[], by simp [hv, setObj_other _ _ hpq]⟩
      · by_cases hpq : p = q
        · subst hpq
          exact ⟨[VCall.reset], by simp [hv, setObj_same, call_reset]⟩
        · exact ⟨[], by simp [hv, setObj_other _ _ hpq]⟩

theorem fold_trace (step : Objs → String → Objs) (p : Ptr)
    (hstep : ∀ objs y, ∃ suf, (step objs y p).calls = (objs p).calls ++ suf)
    (uids : List String) (objs : Objs) :
    ∃ suf, (uids.foldl step objs p).calls = (objs p).calls ++ suf := by
  induction uids generalizing objs with
  | nil => exact ⟨[], by simp⟩
  | cons y rest ih =>
      simp only [List.foldl_cons]
      obtain ⟨s1, h1⟩ := hstep objs y
      obtain ⟨s2, h2⟩ := ih (step objs y)
      exact ⟨s1 ++ s2, by rw [h2, h1, List.append_assoc]⟩

theorem for_each_uid_trace (cache : List (ClassName × Bucket)) (K : ClassName)
    (step : Bucket → Objs → String → Objs) (p : Ptr)
    (hstep : ∀ bucket objs y, ∃ suf, (step bucket objs y p).calls = (objs p).calls ++ suf)
    (uids : List String) (objs : Objs) :
    ∃ suf, (for_each_uid cache K uids step objs p).calls = (objs p).calls ++ suf := by
  unfold for_each_uid
  by_cases he : uids.isEmpty = false
  · rw [if_pos he]
    cases hb : find cache K with
    | none => exact ⟨[], by simp⟩
    | some e => exact fold_trace (step e.2) p (hstep e.2) uids objs
  · rw [if_neg he]; exact ⟨[], by simp⟩

theorem for_each_uid_eq_fold (cache : List (ClassName × Bucket)) (K key : ClassName)
    (bucket : Bucket) (step : Bucket → Objs → String → Objs) (uids : List String) (objs : Objs)
    (hne : uids.isEmpty = false) (hb : find cache K = some (key, bucket)) :
    for_each_uid cache K uids step objs = uids.foldl (step bucket) objs := by
  unfold for_each_uid
  rw [if_pos hne]
  simp only [hb]

theorem created_fold_resets (reset : ConfigObjectImpl → ConfigObjectImpl) (bucket : Bucket)
    (x k : String) (p : Ptr) (hf : find bucket x = some (k, p))
    (uids : List String) (hx : x ∈ uids) (objs : Objs) :
    ∃ suf, (uids.foldl (created_step reset bucket) objs p).calls = (objs p).calls ++ suf
      ∧ VCall.reset ∈ suf := by
  induction uids generalizing objs with
  | nil => simp at hx
  | cons y rest ih =>
      simp only [List.foldl_cons]
      by_cases hyx : y = x
      · subst hyx
        obtain ⟨s2, h2⟩ := fold_trace (created_step reset bucket) p
          (created_step_trace reset bucket · · p) rest (created_step reset bucket objs y)
        refine ⟨[VCall.reset] ++ s2, ?_, by simp⟩
        rw [h2]
        simp [created_step, hf, setObj_same, call_reset]
      · rcases List.mem_cons.1 hx with h | h
        · exact absurd h.symm hyx
        · obtain ⟨s1, h1⟩ := created_step_trace reset bucket objs y p
          obtain ⟨s2, h2, h3⟩ := ih h (created_step reset bucket objs y)
          exact ⟨s1 ++ s2, by rw [h2, h1, List.append_assoc], by simp [h3]⟩

/-- The state `update_impl_objects` produces for a single created notice. -/
theorem update_impl_objects_created (reset : ConfigObjectImpl → ConfigObjectImpl)
    (cache : List (ClassName × Bucket)) (objs : Objs) (n : String) (C : ClassName)
    (x : String) (p : Ptr) (hp : bucket_entry cache C x = some p) :
    update_impl_objects reset cache objs (createdNotice n x) C
      = setObj objs p (call_reset reset (objs p)) := by
  obtain ⟨bucket, hb, hf⟩ := bucket_entry_some hp
  simp [update_impl_objects, for_each_uid, createdNotice, hb, created_step, hf]

/-- The state `update_impl_objects` produces for a single modified notice. -/
theorem update_impl_objects_modified (reset : ConfigObjectImpl → ConfigObjectImpl)
    (cache : List (ClassName × Bucket)) (objs : Objs) (n : String) (C : ClassName)
    (x : String) (p : Ptr) (hp : bucket_entry cache C x = some p) :
    update_impl_objects reset cache objs (modifiedNotice n x) C
      = if (objs p).m_state ≠ ObjectState.Valid then setObj objs p (call_reset reset (objs p))
        else setObj objs p (call_clear (objs p)) := by
  obtain ⟨bucket, hb, hf⟩ := bucket_entry_some hp
  simp [update_impl_objects, for_each_uid, modifiedNotice, hb, modified_step, hf]

/-! ## Abort -/

theorem unread_object_keeps (objs : Objs) (p q : Ptr)
    (h : unknown_and_cleared (objs p)) :
    unknown_and_cleared (unread_object ObjectState.Unknown objs q p) := by
  unfold unread_object
  by_cases hpq : p = q
  · subst hpq
    simp [setObj_same, unknown_and_cleared, call_clear]
  · simpa [setObj_other _ _ hpq] using h

theorem unread_object_hits (objs : Objs) (p : Ptr) :
    unknown_and_cleared (unread_object ObjectState.Unknown objs p p) := by
  unfold unread_object
  simp [setObj_same, unknown_and_cleared, call_clear]

theorem unread_fold_keeps {α : Type} (f : α → Ptr) (l : List α) (objs : Objs) (p : Ptr)
    (h : unknown_and_cleared (objs p)) :
    unknown_and_cleared
      (l.foldl (fun o a => unread_object ObjectState.Unknown o (f a)) objs p) := by
  induction l generalizing objs with
  | nil => simpa using h
  | cons a rest ih =>
      simp only [List.foldl_cons]
      exact ih _ (unread_object_keeps objs p (f a) h)

theorem unread_fold_hits {α : Type} (f : α → Ptr) (l : List α) (objs : Objs) (a : α)
    (ha : a ∈ l) :
    unknown_and_cleared
      (l.foldl (fun o b => unread_object ObjectState.Unknown o (f b)) objs (f a)) := by
  induction l generalizing objs with
  | nil => simp at ha
  | cons b rest ih =>
      simp only [List.foldl_cons]
      rcases List.mem_cons.1 ha with h | h
      · subst h
        exact unread_fold_keeps f rest _ (f a) (unread_object_hits objs (f a))
      · exact ih _ h

theorem unread_buckets_keeps (cache : List (ClassName × Bucket)) (objs : Objs) (p : Ptr)
    (h : unknown_and_cleared (objs p)) :
    unknown_and_cleared
      (cache.foldl
        (fun o i => i.2.foldl (fun o' j => unread_object ObjectState.Unknown o' j.2) o)
        objs p) := by
  induction cache generalizing objs with
  | nil => simpa using h
  | cons i rest ih =>
      simp only [List.foldl_cons]
      exact ih _ (unread_fold_keeps (fun j : String × Ptr => j.2) i.2 objs p h)

theorem unread_buckets_hits (cache : List (ClassName × Bucket)) (objs : Objs)
    (e : ClassName × Bucket) (he : e ∈ cache) (j : String × Ptr) (hj : j ∈ e.2) :
    unknown_and_cleared
      (cache.foldl
        (fun o i => i.2.foldl (fun o' j => unread_object ObjectState.Unknown o' j.2) o)
        objs j.2) := by
  induction cache generalizing objs with
  | nil => simp at he
  | cons i rest ih =>
      simp only [List.foldl_cons]
      rcases List.mem_cons.1 he with h | h
      · subst h
        exact unread_buckets_keeps rest _ j.2
          (unread_fold_hits (fun j : String × Ptr => j.2) e.2 objs j hj)
      · exact ih _ h

/-- What `_unread_implementation_objects(Unknown)` leaves: every object of every bucket
and every tangled object is Unknown and cleared; the cache and the tangled list are
the same. -/
theorem unread_implementation_objects_spec (impl : ConfigurationImpl) :
    (_unread_implementation_objects impl ObjectState.Unknown).m_impl_objects
        = impl.m_impl_objects
      ∧ (_unread_implementation_objects impl ObjectState.Unknown).m_tangled_objects
        = impl.m_tangled_objects
      ∧ (∀ e ∈ impl.m_impl_objects, ∀ j ∈ e.2,
          unknown_and_cleared
            ((_unread_implementation_objects impl ObjectState.Unknown).objs j.2))
      ∧ (∀ x ∈ impl.m_tangled_objects,
          unknown_and_cleared
            ((_unread_implementation_objects impl ObjectState.Unknown).objs x)) := by
  refine ⟨rfl, rfl, ?_, ?_⟩
  · intro e he j hj
    unfold _unread_implementation_objects
    exact unread_fold_keeps (fun x : Ptr => x) impl.m_tangled_objects _ j.2
      (unread_buckets_hits impl.m_impl_objects impl.objs e he j hj)
  · intro x hx
    unfold _unread_implementation_objects
    exact unread_fold_hits (fun x : Ptr => x) impl.m_tangled_objects _ x hx

/-- C11: after a successful `abort()`, every implementation object of every bucket of
the cache and every object of the tangled list has state Unknown and no field values;
the cache and the tangled list hold the same pointers as before. -/
theorem abort_unreads (self self' : Configuration) (m_impl : Option ConfigurationImpl)
    (impl' : ConfigurationImpl) (backend_abort : Except ConfigError Unit)
    (get_superclasses : ClassMap → ClassMap)
    (h : abort self m_impl backend_abort get_superclasses = .ok (self', impl')) :
    ∃ impl, m_impl = some impl
      ∧ impl'.m_impl_objects = impl.m_impl_objects
      ∧ impl'.m_tangled_objects = impl.m_tangled_objects
      ∧ (∀ e ∈ impl'.m_impl_objects, ∀ j ∈ e.2, unknown_and_cleared (impl'.objs j.2))
      ∧ (∀ x ∈ impl'.m_tangled_objects, unknown_and_cleared (impl'.objs x)) := by
  unfold abort at h
  cases m_impl with
  | none => simp at h
  | some impl =>
      cases backend_abort with
      | error e => cases e <;> simp [catch_generic] at h
      | ok u =>
          simp only [catch_generic] at h
          injection h with h
          injection h with h1 h2
          subst h2
          obtain ⟨hc, ht, hb, hx⟩ := unread_implementation_objects_spec impl
          exact ⟨impl, rfl, hc, ht, hb, hx⟩

/-- C11 witness: `abort()` on the cache holding `Dummy#A`, `Dummy#B` and a tangled
object. -/
theorem abort_unreads_witness :
    ∃ impl, some dummyAB = some impl
      ∧ (∀ e ∈ impl.m_impl_objects, ∀ j ∈ e.2,
          unknown_and_cleared ((_unread_implementation_objects dummyAB ObjectState.Unknown).objs j.2))
      ∧ (∀ x ∈ impl.m_tangled_objects,
          unknown_and_cleared ((_unread_implementation_objects dummyAB ObjectState.Unknown).objs x)) := by
  obtain ⟨impl, h1, h2, h3, h4, h5⟩ :=
    abort_unreads dummySecond _ (some dummyAB) _ (.ok ()) id rfl
  refine ⟨impl, h1, ?_, ?_⟩
  · intro e he j hj
    exact h4 e (by rw [h2]; exact he) j hj
  · intro x hx
    exact h5 x (by rw [h3]; exact hx)

/-! ## Notification dispatcher -/

theorem guarded_call_spec (j : CallbackSubscription) (batch : List ConfigurationChange)
    (d : Dispatch) :
    (guarded_call j batch d).invoked = d.invoked ++ [(j.m_param, batch)]
      ∧ (guarded_call j batch d).reported
          = d.reported ++ (failure_message (j.m_cb batch)).toList
      ∧ (guarded_call j batch d).escaped = d.escaped := by
  unfold guarded_call
  cases j.m_cb batch <;> simp [failure_message]

theorem dispatch_one_spec (changes : List ConfigurationChange) (d : Dispatch)
    (j : CallbackSubscription) :
    (dispatch_one changes d j).invoked = d.invoked ++ (invocation_of changes j).toList
      ∧ (dispatch_one changes d j).reported
          = d.reported
              ++ ((batch_for j changes).bind (fun b => failure_message (j.m_cb b))).toList
      ∧ (dispatch_one changes d j).escaped = d.escaped := by
  unfold dispatch_one invocation_of
  cases hb : batch_for j changes with
  | none => simp
  | some b =>
      obtain ⟨h1, h2, h3⟩ := guarded_call_spec j b d
      simp [h1, h2, h3]

theorem dispatch_fold_spec (changes : List ConfigurationChange)
    (cbs : List CallbackSubscription) (d : Dispatch) :
    (cbs.foldl (dispatch_one changes) d).invoked
        = d.invoked ++ cbs.filterMap (invocation_of changes)
      ∧ (cbs.foldl (dispatch_one changes) d).reported
        = d.reported
            ++ cbs.filterMap
                (fun j => (batch_for j changes).bind (fun b => failure_message (j.m_cb b)))
      ∧ (cbs.foldl (dispatch_one changes) d).escaped = d.escaped := by
  induction cbs generalizing d with
  | nil => simp
  | cons j rest ih =>
      obtain ⟨h1, h2, h3⟩ := dispatch_one_spec changes d j
      obtain ⟨i1, i2, i3⟩ := ih (dispatch_one changes d j)
      simp only [List.foldl_cons]
      refine ⟨?_, ?_, ?_⟩
      · rw [i1, h1, List.append_assoc]
        congr 1
        cases hinv : invocation_of changes j <;> simp [List.filterMap_cons, hinv]
      · rw [i2, h2, List.append_assoc]
        congr 1
        cases hrep : (batch_for j changes).bind (fun b => failure_message (j.m_cb b)) <;>
          simp [List.filterMap_cons, hrep]
      · rw [i3, h3]

/-- With two subscribers or more, `system_cb` runs the loop over the subscribers. -/
theorem system_cb_callbacks_several (cbs : List CallbackSubscription)
    (changes : List ConfigurationChange) (h : 2 ≤ cbs.length) :
    (system_cb_callbacks cbs changes).invoked = cbs.filterMap (invocation_of changes)
      ∧ (system_cb_callbacks cbs changes).reported
        = cbs.filterMap
            (fun j => (batch_for j changes).bind (fun b => failure_message (j.m_cb b)))
      ∧ (system_cb_callbacks cbs changes).escaped = none := by
  match cbs, h with
  | a :: b :: rest, _ =>
      have hdef : system_cb_callbacks (a :: b :: rest) changes
          = (a :: b :: rest).foldl (dispatch_one changes)
              { invoked := [], reported := [], escaped := none } := rfl
      rw [hdef]
      obtain ⟨h1, h2, h3⟩ := dispatch_fold_spec changes (a :: b :: rest)
        { invoked := [], reported := [], escaped := none }
      exact ⟨by simpa using h1, by simpa using h2, h3⟩

theorem mem_filterMap_invocation (changes : List ConfigurationChange)
    (cbs : List CallbackSubscription) (pre post : List CallbackSubscription)
    (j : CallbackSubscription) (h : cbs = pre ++ j :: post) :
    cbs.filterMap (invocation_of changes)
      = pre.filterMap (invocation_of changes) ++ (invocation_of changes j).toList
          ++ post.filterMap (invocation_of changes) := by
  subst h
  rw [List.filterMap_append, List.filterMap_cons]
  cases invocation_of changes j <;> simp

/-- C15: in a dispatch with two subscribers or more, whatever the callbacks do (return or
throw an ers issue, a std exception or anything else), every subscriber that has a batch
is invoked once with that batch, in turn: the invocations are those of the subscribers
before it, its own, and those of the subscribers after it; no failure leaves
`system_cb`, and each failure is reported. -/
theorem callback_isolation (cbs : List CallbackSubscription)
    (changes : List ConfigurationChange) (h : 2 ≤ cbs.length) :
    (system_cb_callbacks cbs changes).invoked = cbs.filterMap (invocation_of changes)
      ∧ (∀ pre post j, cbs = pre ++ j :: post →
          (system_cb_callbacks cbs changes).invoked
            = pre.filterMap (invocation_of changes) ++ (invocation_of changes j).toList
                ++ post.filterMap (invocation_of changes))
      ∧ (system_cb_callbacks cbs changes).escaped = none
      ∧ (system_cb_callbacks cbs changes).reported
          = cbs.filterMap
              (fun j => (batch_for j changes).bind (fun b => failure_message (j.m_cb b))) := by
  obtain ⟨h1, h2, h3⟩ := system_cb_callbacks_several cbs changes h
  refine ⟨h1, ?_, h3, h2⟩
  intro pre post j hcbs
  rw [h1]
  exact mem_filterMap_invocation changes cbs pre post j hcbs

/-- C15 witness: the first subscriber throws, the class subscriber after it is still
called with its batch. -/
theorem callback_isolation_witness :
    (system_cb_callbacks [subscriberThrows, subscriberA] scenarioBatch).invoked
        = [subscriberThrows, subscriberA].filterMap (invocation_of scenarioBatch)
      ∧ (system_cb_callbacks [subscriberThrows, subscriberA] scenarioBatch).invoked
        = [(4, scenarioBatch), (1, scenarioBatch)]
      ∧ (system_cb_callbacks [subscriberThrows, subscriberA] scenarioBatch).escaped = none :=
  have h := callback_isolation [subscriberThrows, subscriberA] scenarioBatch (by decide)
  ⟨h.1, by decide, h.2.2.1⟩

/-! ### Filtering -/

theorem copy_class_name (found : Bool) (p : Option (String × List String))
    (i c : ConfigurationChange) :
    (copy_listed p i (copy_all found i c)).m_class_name = c.m_class_name := by
  unfold copy_listed copy_all
  cases p with
  | none => cases found <;> simp
  | some e => cases found <;> simp

theorem filter_record_some (criteria : ConfigurationSubscriptionCriteria)
    (i r : ConfigurationChange) (h : filter_record criteria i = some r) :
    r.m_class_name = i.m_class_name ∧ lists_some_uid r := by
  simp only [filter_record] at h
  split_ifs at h with h1 h2
  injection h with h
  subst h
  refine ⟨copy_class_name _ _ _ _, ?_⟩
  unfold lists_some_uid
  by_contra hcon
  push_neg at hcon
  apply h2
  simp [hcon.1, hcon.2.1, hcon.2.2]

theorem filter_record_objects_only (criteria : ConfigurationSubscriptionCriteria)
    (i r : ConfigurationChange) (k : String) (ids : List String)
    (hcls : criteria.m_classes_subscription = [])
    (hobj : find criteria.m_objects_subscription i.m_class_name = some (k, ids))
    (h : filter_record criteria i = some r) :
    r.m_created = []
      ∧ r.m_modified = i.m_modified.filter (fun u => decide (u ∈ ids))
      ∧ r.m_removed = i.m_removed.filter (fun u => decide (u ∈ ids)) := by
  simp only [filter_record, hcls, hobj] at h
  split_ifs at h with h1 h2
  injection h with h
  subst h
  simp [copy_listed, copy_all]

theorem filter_record_class_only (criteria : ConfigurationSubscriptionCriteria)
    (i r : ConfigurationChange)
    (hcls : i.m_class_name ∈ criteria.m_classes_subscription)
    (hobj : find criteria.m_objects_subscription i.m_class_name = none)
    (h : filter_record criteria i = some r) :
    r = i := by
  simp only [filter_record, hobj] at h
  split_ifs at h with h1 h2
  injection h with h
  subst h
  simp [copy_listed, copy_all, hcls]

theorem find_some_ne_nil {K V : Type} [DecidableEq K] {m : List (K × V)} {k : K}
    {e : K × V} (h : find m k = some e) : m ≠ [] := by
  intro hm
  subst hm
  simp [find] at h

theorem batch_for_filtered (j : CallbackSubscription) (changes : List ConfigurationChange)
    (hall : subscribes_all j.m_criteria = false) :
    batch_for j changes
      = if (filter_changes j.m_criteria changes).isEmpty = false then
          some (filter_changes j.m_criteria changes)
        else none := by
  simp [batch_for, hall]

/-- C13 (as amended): in a dispatch with two subscribers or more, a subscriber whose
class-set is empty and whose object-map holds the id-set `I` for class `C` is passed,
in every record for `C`, no created UID, and as modified and removed UIDs those of a
backend record for `C` that belong to `I`. -/
theorem object_subscription_filtered (cbs : List CallbackSubscription)
    (changes : List ConfigurationChange) (j : CallbackSubscription) (C : String)
    (I : List String) (h : 2 ≤ cbs.length) (hj : j ∈ cbs)
    (hcls : j.m_criteria.m_classes_subscription = [])
    (hobj : find j.m_criteria.m_objects_subscription C = some (C, I)) :
    (system_cb_callbacks cbs changes).invoked = cbs.filterMap (invocation_of changes)
      ∧ ∀ b, batch_for j changes = some b →
          (j.m_param, b) ∈ (system_cb_callbacks cbs changes).invoked
          ∧ ∀ r ∈ b, r.m_class_name = C →
            ∃ i ∈ changes, i.m_class_name = C
              ∧ r.m_created = []
              ∧ r.m_modified = i.m_modified.filter (fun u => decide (u ∈ I))
              ∧ r.m_removed = i.m_removed.filter (fun u => decide (u ∈ I))
              ∧ (∀ u ∈ r.m_modified, u ∈ I) ∧ (∀ u ∈ r.m_removed, u ∈ I) := by
  refine ⟨(system_cb_callbacks_several cbs changes h).1, ?_⟩
  intro b hb
  refine ⟨?_, ?_⟩
  · rw [(system_cb_callbacks_several cbs changes h).1]
    exact List.mem_filterMap.2 ⟨j, hj, by simp [invocation_of, hb]⟩
  intro r hr hrC
  have hall : subscribes_all j.m_criteria = false := by
    have hne := find_some_ne_nil hobj
    cases hm : j.m_criteria.m_objects_subscription with
    | nil => exact absurd hm hne
    | cons e l => simp [subscribes_all, hm]
  rw [batch_for_filtered j changes hall] at hb
  split_ifs at hb with hemp
  injection hb with hb
  subst hb
  unfold filter_changes at hr
  obtain ⟨i, hi, hir⟩ := List.mem_filterMap.1 hr
  have hname := (filter_record_some _ _ _ hir).1
  have hiC : i.m_class_name = C := by rw [← hname]; exact hrC
  have hobj' : find j.m_criteria.m_objects_subscription i.m_class_name = some (C, I) := by
    rw [hiC]; exact hobj
  obtain ⟨h1, h2, h3⟩ := filter_record_objects_only _ _ _ C I hcls hobj' hir
  refine ⟨i, hi, hiC, h1, h2, h3, ?_, ?_⟩
  · intro u hu
    rw [h2] at hu
    simpa using (List.mem_filter.1 hu).2
  · intro u hu
    rw [h3] at hu
    simpa using (List.mem_filter.1 hu).2

/-- C13 witness: scenario 6, subscriber B next to subscriber A. -/
theorem object_subscription_filtered_witness :
    (system_cb_callbacks [subscriberA, subscriberB] scenarioBatch).invoked
        = [subscriberA, subscriberB].filterMap (invocation_of scenarioBatch)
      ∧ batch_for subscriberB scenarioBatch
        = some [{ m_class_name := "Dummy", m_modified := ["#X"], m_created := [],
                  m_removed := [] }] :=
  ⟨(object_subscription_filtered [subscriberA, subscriberB] scenarioBatch subscriberB
      "Dummy" ["#X"] (by decide) (by simp) rfl (by decide)).1, by decide⟩

/-- C13 counterexample: subscriber B of scenario 6 (object subscription on `Dummy #X`,
empty class-set) as the only subscriber is called with the backend batch as received:
the created UIDs `#X`, `#Y` and the removed UID `#Z` reach it. -/
theorem object_subscription_single_unfiltered :
    subscriberB.m_criteria.m_classes_subscription = []
      ∧ find subscriberB.m_criteria.m_objects_subscription "Dummy" = some ("Dummy", ["#X"])
      ∧ (system_cb_callbacks [subscriberB] scenarioBatch).invoked
          = [(2, [{ m_class_name := "Dummy", m_modified := ["#X"], m_created := ["#X", "#Y"],
                    m_removed := ["#Z"] }])] := by
  decide

/-- C17 (as amended): in a dispatch with two subscribers or more, a subscriber with
non-empty criteria whose computed batch is empty is not invoked, and the batch such a
subscriber is invoked with is non-empty, each of its records listing at least one UID;
a subscribe-all subscriber is invoked with the backend batch as received, and so is the
only subscriber of a dispatch with one subscriber. -/
theorem empty_batch_skipped (cbs : List CallbackSubscription)
    (changes : List ConfigurationChange) (h : 2 ≤ cbs.length) :
    (system_cb_callbacks cbs changes).invoked = cbs.filterMap (invocation_of changes)
      ∧ (∀ j ∈ cbs, subscribes_all j.m_criteria = false →
          filter_changes j.m_criteria changes = [] → invocation_of changes j = none)
      ∧ (∀ j ∈ cbs, subscribes_all j.m_criteria = false →
          ∀ b, batch_for j changes = some b → b ≠ [] ∧ ∀ r ∈ b, lists_some_uid r)
      ∧ (∀ j ∈ cbs, subscribes_all j.m_criteria = true →
          invocation_of changes j = some (j.m_param, changes))
      ∧ (∀ j : CallbackSubscription,
          (system_cb_callbacks [j] changes).invoked = [(j.m_param, changes)]) := by
  refine ⟨(system_cb_callbacks_several cbs changes h).1, ?_, ?_, ?_, ?_⟩
  · intro j _ hall hemp
    simp [invocation_of, batch_for_filtered j changes hall, hemp]
  · intro j _ hall b hb
    rw [batch_for_filtered j changes hall] at hb
    split_ifs at hb with hemp
    injection hb with hb
    subst hb
    refine ⟨?_, ?_⟩
    · intro hnil
      rw [hnil] at hemp
      simp at hemp
    · intro r hr
      unfold filter_changes at hr
      obtain ⟨i, _, hir⟩ := List.mem_filterMap.1 hr
      exact (filter_record_some _ _ _ hir).2
  · intro j _ hall
    simp [invocation_of, batch_for, hall]
  · intro j
    simp only [system_cb_callbacks]
    cases hcb : j.m_cb changes <;> simp [hcb]

/-- C17 witness: the batch modifies `Dummy #X` only; a subscriber on another object has
an empty batch and is skipped. -/
theorem empty_batch_skipped_witness :
    (system_cb_callbacks
        [subscriberA,
          { subscriberB with
            m_criteria :=
              { m_classes_subscription := [], m_objects_subscription := [("Dummy", ["#Q"])] } }]
        modifiedX).invoked
      = [(1, modifiedX)] := by
  rw [(empty_batch_skipped
        [subscriberA,
          { subscriberB with
            m_criteria :=
              { m_classes_subscription := [], m_objects_subscription := [("Dummy", ["#Q"])] } }]
        modifiedX (by decide)).1]
  decide

/-- C17 counterexample: with an empty backend batch, the only subscriber of a dispatch
is invoked with the empty batch, and so is a subscribe-all subscriber next to another
subscriber. -/
theorem empty_batch_invoked :
    (system_cb_callbacks [subscriberB] []).invoked = [(2, [])]
      ∧ (system_cb_callbacks [subscriberAll, subscriberA] []).invoked = [(5, [])] := by
  decide

/-- C12, at the failing input: a subscriber holding both the class subscription `Dummy`
and the object subscription `Dummy #X`, next to another subscriber, is passed `#X` twice
in the modified list of the record for `Dummy`, the backend record listing it once. -/
theorem class_subscription_duplicates :
    "Dummy" ∈ subscriberAB.m_criteria.m_classes_subscription
      ∧ modifiedX
          = [{ m_class_name := "Dummy", m_modified := ["#X"], m_created := [], m_removed := [] }]
      ∧ (system_cb_callbacks [subscriberAB, subscriberB] modifiedX).invoked
          = [(3, [{ m_class_name := "Dummy", m_modified := ["#X", "#X"], m_created := [],
                    m_removed := [] }]),
             (2, modifiedX)] := by
  decide

/-- C16, at the failing input: the callback of the only subscriber throws a
`std::exception`, which leaves `system_cb` unreported; the first pre-change callback
throws, which leaves `system_pre_cb` unreported before the second one is called. -/
theorem single_subscriber_failure_escapes :
    system_cb_callbacks [subscriberThrows] modifiedX
        = { invoked := [(4, modifiedX)], reported := [],
            escaped := some CallbackOutcome.std_exception }
      ∧ system_pre_cb [preThrows, preReturns]
        = { invoked := [(6, [])], reported := [],
            escaped := some CallbackOutcome.ers_issue } := by
  decide

/-! ## Backend subscription -/

theorem mem_fold_fset_insert (l acc : List String) (c : String) :
    c ∈ l.foldl fset_insert acc ↔ c ∈ acc ∨ c ∈ l := by
  induction l generalizing acc with
  | nil => simp
  | cons x rest ih =>
      simp only [List.foldl_cons, ih, mem_fset_insert, List.mem_cons]
      constructor
      · rintro ((h | h) | h)
        · exact Or.inl h
        · exact Or.inr (Or.inl h)
        · exact Or.inr (Or.inr h)
      · rintro (h | h | h)
        · exact Or.inl (Or.inl h)
        · exact Or.inl (Or.inr h)
        · exact Or.inr h

theorem mem_class_fold (cbs : List CallbackSubscription) (init : List String) (c : String) :
    c ∈ cbs.foldl
          (fun acc i => i.m_criteria.m_classes_subscription.foldl fset_insert acc) init
      ↔ c ∈ init ∨ ∃ i ∈ cbs, c ∈ i.m_criteria.m_classes_subscription := by
  induction cbs generalizing init with
  | nil => simp
  | cons j rest ih =>
      simp only [List.foldl_cons, ih, mem_fold_fset_insert, List.mem_cons]
      constructor
      · rintro ((h | h) | ⟨i, hi, hc⟩)
        · exact Or.inl h
        · exact Or.inr ⟨j, Or.inl rfl, h⟩
        · exact Or.inr ⟨i, Or.inr hi, hc⟩
      · rintro (h | ⟨i, hi | hi, hc⟩)
        · exact Or.inl (Or.inl h)
        · subst hi; exact Or.inl (Or.inr hc)
        · exact Or.inr ⟨i, hi, hc⟩

theorem members_objects_add (m : List (String × List String)) (c k C id : String) :
    id ∈ members (objects_add m c k) C ↔ id ∈ members m C ∨ (C = c ∧ id = k) := by
  have h := members_subclasses_add m c k C id
  unfold subclasses_add at h
  unfold objects_add
  exact h

theorem members_ids_fold (ids : List String) (c : String) (m : List (String × List String))
    (C id : String) :
    id ∈ members (ids.foldl (fun a k => objects_add a c k) m) C
      ↔ id ∈ members m C ∨ (C = c ∧ id ∈ ids) := by
  induction ids generalizing m with
  | nil => simp
  | cons k rest ih =>
      simp only [List.foldl_cons, ih, members_objects_add, List.mem_cons]
      constructor
      · rintro ((h | ⟨h1, h2⟩) | ⟨h1, h2⟩)
        · exact Or.inl h
        · exact Or.inr ⟨h1, Or.inl h2⟩
        · exact Or.inr ⟨h1, Or.inr h2⟩
      · rintro (h | ⟨h1, h2 | h2⟩)
        · exact Or.inl (Or.inl h)
        · exact Or.inl (Or.inr ⟨h1, h2⟩)
        · exact Or.inr ⟨h1, h2⟩

theorem members_entries_fold (cs : List String) (entries : List (String × List String))
    (m : List (String × List String)) (C id : String) :
    id ∈ members
          (entries.foldl
            (fun acc' j =>
              if j.1 ∉ cs then j.2.foldl (fun a k => objects_add a j.1 k) acc' else acc')
            m) C
      ↔ id ∈ members m C ∨ (C ∉ cs ∧ ∃ e ∈ entries, e.1 = C ∧ id ∈ e.2) := by
  induction entries generalizing m with
  | nil => simp
  | cons j rest ih =>
      simp only [List.foldl_cons, ih, List.mem_cons]
      by_cases hj : j.1 ∉ cs
      · rw [if_pos hj, members_ids_fold]
        constructor
        · rintro ((h | ⟨h1, h2⟩) | ⟨h1, e, he, h3, h4⟩)
          · exact Or.inl h
          · exact Or.inr ⟨h1 ▸ hj, j, Or.inl rfl, h1.symm, h2⟩
          · exact Or.inr ⟨h1, e, Or.inr he, h3, h4⟩
        · rintro (h | ⟨h1, e, he | he, h3, h4⟩)
          · exact Or.inl (Or.inl h)
          · subst he; exact Or.inl (Or.inr ⟨h3.symm, h4⟩)
          · exact Or.inr ⟨h1, e, he, h3, h4⟩
      · rw [if_neg hj]
        constructor
        · rintro (h | ⟨h1, e, he, h3, h4⟩)
          · exact Or.inl h
          · exact Or.inr ⟨h1, e, Or.inr he, h3, h4⟩
        · rintro (h | ⟨h1, e, he | he, h3, h4⟩)
          · exact Or.inl h
          · subst he
            exact absurd (h3 ▸ h1) hj
          · exact Or.inr ⟨h1, e, he, h3, h4⟩

theorem members_subscribers_fold (cs : List String) (cbs : List CallbackSubscription)
    (m : List (String × List String)) (C id : String) :
    id ∈ members
          (cbs.foldl
            (fun acc i =>
              i.m_criteria.m_objects_subscription.foldl
                (fun acc' j =>
                  if j.1 ∉ cs then j.2.foldl (fun a k => objects_add a j.1 k) acc' else acc')
                acc)
            m) C
      ↔ id ∈ members m C
          ∨ (C ∉ cs ∧ ∃ i ∈ cbs, ∃ e ∈ i.m_criteria.m_objects_subscription, e.1 = C ∧ id ∈ e.2) := by
  induction cbs generalizing m with
  | nil => simp
  | cons j rest ih =>
      simp only [List.foldl_cons, ih, members_entries_fold, List.mem_cons]
      constructor
      · rintro ((h | ⟨h1, e, he, h3, h4⟩) | ⟨h1, i, hi, e, he, h3, h4⟩)
        · exact Or.inl h
        · exact Or.inr ⟨h1, j, Or.inl rfl, e, he, h3, h4⟩
        · exact Or.inr ⟨h1, i, Or.inr hi, e, he, h3, h4⟩
      · rintro (h | ⟨h1, i, hi | hi, e, he, h3, h4⟩)
        · exact Or.inl (Or.inl h)
        · subst hi; exact Or.inl (Or.inr ⟨h1, e, he, h3, h4⟩)
        · exact Or.inr ⟨h1, i, hi, e, he, h3, h4⟩

theorem any_subscribes_all (cbs : List CallbackSubscription) :
    cbs.any (fun i => subscribes_all i.m_criteria) = true
      ↔ ∃ i ∈ cbs, i.m_criteria.m_classes_subscription = []
          ∧ i.m_criteria.m_objects_subscription = [] := by
  simp [List.any_eq_true, subscribes_all, List.isEmpty_iff]

/-- C14: `reset_subscription` asks the backend to unsubscribe when there is no
subscriber; installs the empty pair (all changes) when some subscriber has empty
class-set and empty object-map; otherwise installs the class set made of the classes of
all subscribers, and the object map holding, for every class not in that class set, the
ids some subscriber lists for it. -/
theorem reset_subscription_spec (cbs : List CallbackSubscription) :
    (cbs = [] → reset_subscription cbs = BackendSubscription.unsubscribe)
      ∧ (cbs ≠ [] →
          (∃ i ∈ cbs, i.m_criteria.m_classes_subscription = []
              ∧ i.m_criteria.m_objects_subscription = []) →
          reset_subscription cbs = BackendSubscription.subscribe [] [])
      ∧ (cbs ≠ [] →
          (¬ ∃ i ∈ cbs, i.m_criteria.m_classes_subscription = []
              ∧ i.m_criteria.m_objects_subscription = []) →
          ∃ cs os, reset_subscription cbs = BackendSubscription.subscribe cs os
            ∧ (∀ c, c ∈ cs ↔ ∃ i ∈ cbs, c ∈ i.m_criteria.m_classes_subscription)
            ∧ (∀ c id, id ∈ members os c
                ↔ c ∉ cs
                  ∧ ∃ i ∈ cbs, ∃ e ∈ i.m_criteria.m_objects_subscription,
                      e.1 = c ∧ id ∈ e.2)) := by
  refine ⟨?_, ?_, ?_⟩
  · intro h
    subst h
    rfl
  · intro hne hall
    have hemp : cbs.isEmpty = false := by
      cases cbs with
      | nil => exact absurd rfl hne
      | cons a l => rfl
    have hany := (any_subscribes_all cbs).2 hall
    simp [reset_subscription, hemp, hany]
  · intro hne hall
    have hemp : cbs.isEmpty = false := by
      cases cbs with
      | nil => exact absurd rfl hne
      | cons a l => rfl
    have hany : cbs.any (fun i => subscribes_all i.m_criteria) = false := by
      cases hb : cbs.any (fun i => subscribes_all i.m_criteria) with
      | false => rfl
      | true => exact absurd ((any_subscribes_all cbs).1 hb) hall
    refine ⟨class_union cbs, object_union (class_union cbs) cbs, ?_, ?_, ?_⟩
    · simp [reset_subscription, hemp, hany]
    · intro c
      unfold class_union
      rw [mem_class_fold]
      simp
    · intro c id
      unfold object_union
      rw [members_subscribers_fold]
      simp [members, find]

/-! ## Error propagation -/

theorem catch_generic_generic {α : Type} (what : String) (e : ConfigError)
    (h : is_generic e = true) :
    catch_generic what (.error e : Except ConfigError α) = .error (.GenericCaused what e) := by
  cases e <;> simp [is_generic] at h <;> rfl

theorem catch_generic_other {α : Type} (what : String) (e : ConfigError)
    (h : is_generic e = false) :
    catch_generic what (.error e : Except ConfigError α) = .error e := by
  cases e <;> simp [is_generic] at h <;> rfl

/-- C18 (as amended): in the operations that have a handler (`get`, `test_object`,
`destroy_obj`, `commit`, `get_versions`, `create`, `add_include`, `remove_include`,
`abort`, `get_class_info`) a `Generic` raised by the backend reaches the caller as a
`Generic` carrying the context sentence of the operation and the backend error as
cause, while a `NotFound` or `DeletedObject` reaches the caller unchanged; `load` and
`rename_object` have no handler and pass every backend error on unchanged. -/
theorem backend_error_propagation (e : ConfigError) (self : Configuration)
    (impl : ConfigurationImpl) (gs : ClassMap → ClassMap) (c n : String) :
    (is_generic e = true →
        _get c n (.error e : Except ConfigError Ptr)
            = .error (.GenericCaused ("failed to get object \x27" ++ n ++ "@" ++ c ++ "\x27") e)
          ∧ test_object c n (.error e)
            = .error (.GenericCaused
                ("failed to test existence of object \x27" ++ n ++ "@" ++ c ++ "\x27") e)
          ∧ destroy_obj n (.error e)
            = .error (.GenericCaused ("failed to destroy object \x27" ++ n ++ "\x27") e)
          ∧ commit true (.error e) = .error (.GenericCaused "commit failed" e)
          ∧ get_versions (.error e : Except ConfigError (List String))
            = .error (.GenericCaused "failed to get versions" e)
          ∧ create self true n (.error e) gs
            = .error (.GenericCaused ("failed to create database \x27" ++ n ++ "\x27") e)
          ∧ add_include self true n c (.error e) gs
            = .error (.GenericCaused
                ("failed to add include \x27" ++ c ++ "\x27 to database \x27" ++ n ++ "\x27") e)
          ∧ remove_include self true n c (.error e) gs
            = .error (.GenericCaused
                ("failed to remove include \x27" ++ c ++ "\x27 from database \x27" ++ n
                  ++ "\x27") e)
          ∧ abort self (some impl) (.error e) gs = .error (.GenericCaused "abort failed" e)
          ∧ (∀ d bg, find (if d then self.p_direct_classes_desc_cache
                            else self.p_all_classes_desc_cache) c = none →
              bg c d = .error e →
              get_class_info self c d bg
                = .error (.GenericCaused
                    ("failed to get description of class \x27" ++ c ++ "\x27") e)))
      ∧ (is_generic e = false →
        _get c n (.error e : Except ConfigError Ptr) = .error e
          ∧ test_object c n (.error e) = .error e
          ∧ destroy_obj n (.error e) = .error e
          ∧ commit true (.error e) = .error e
          ∧ get_versions (.error e : Except ConfigError (List String)) = .error e
          ∧ create self true n (.error e) gs = .error e
          ∧ add_include self true n c (.error e) gs = .error e
          ∧ remove_include self true n c (.error e) gs = .error e
          ∧ abort self (some impl) (.error e) gs = .error e
          ∧ (∀ d bg, find (if d then self.p_direct_classes_desc_cache
                            else self.p_all_classes_desc_cache) c = none →
              bg c d = .error e → get_class_info self c d bg = .error e))
      ∧ load self true (.error e) gs = .error e
      ∧ (∀ obj, rename_object impl obj n (.ok ()) (.error e) = .error e) := by
  refine ⟨?_, ?_, rfl, fun _ => rfl⟩
  · intro h
    refine ⟨catch_generic_generic _ e h, catch_generic_generic _ e h,
      catch_generic_generic _ e h, ?_, catch_generic_generic _ e h, ?_, ?_, ?_, ?_, ?_⟩
    · simp [commit, catch_generic_generic _ e h]
    · simp [create, catch_generic_generic _ e h]
    · simp [add_include, catch_generic_generic _ e h]
    · simp [remove_include, catch_generic_generic _ e h]
    · simp [abort, catch_generic_generic _ e h]
    · intro d bg hf hbg
      simp only [get_class_info, hf, hbg]
      exact catch_generic_generic _ e h
  · intro h
    refine ⟨catch_generic_other _ e h, catch_generic_other _ e h,
      catch_generic_other _ e h, ?_, catch_generic_other _ e h, ?_, ?_, ?_, ?_, ?_⟩
    · simp [commit, catch_generic_other _ e h]
    · simp [create, catch_generic_other _ e h]
    · simp [add_include, catch_generic_other _ e h]
    · simp [remove_include, catch_generic_other _ e h]
    · simp [abort, catch_generic_other _ e h]
    · intro d bg hf hbg
      simp only [get_class_info, hf, hbg]
      exact catch_generic_other _ e h

/-- C18 counterexample: a `NotFound` raised by the backend in `get_class_info` reaches
the caller as that `NotFound`, not as a `Generic`; a `Generic` raised by `open_db` in
`load` reaches the caller as it is, without context sentence or cause. -/
theorem backend_error_unwrapped :
    get_class_info dummySecond "Dummy" true (fun _ _ => .error (.NotFound "class" "Dummy"))
        = .error (.NotFound "class" "Dummy")
      ∧ load dummySecond true (.error (.Generic "cannot open database")) id
        = .error (.Generic "cannot open database") :=
  ⟨rfl, rfl⟩

/-! ## Class descriptors -/

/-- C19 (as amended): after a successful `unload()` both class-descriptor caches are
empty, so the next `get_class_info` returns what the backend answers; a successful
`abort()` leaves both caches as they were. -/
theorem class_info_memo (self : Configuration) :
    (∀ m_impl unsub close after, unload self m_impl unsub close = .ok after →
        after.p_direct_classes_desc_cache = []
          ∧ after.p_all_classes_desc_cache = []
          ∧ ∀ C d bg desc, bg C d = .ok desc →
              ∃ conf2, get_class_info after C d bg = .ok (desc, conf2))
      ∧ (∀ m_impl ba gs after impl', abort self m_impl ba gs = .ok (after, impl') →
          after.p_direct_classes_desc_cache = self.p_direct_classes_desc_cache
            ∧ after.p_all_classes_desc_cache = self.p_all_classes_desc_cache) := by
  constructor
  · intro m_impl unsub close after h
    unfold unload at h
    cases m_impl with
    | false => simp at h
    | true =>
        cases unsub with
        | error e => simp at h
        | ok u =>
            cases close with
            | error e => simp at h
            | ok v =>
                simp only [if_true] at h
                injection h with h
                subst h
                refine ⟨rfl, rfl, ?_⟩
                intro C d bg desc hbg
                cases d <;> simp [get_class_info, find, hbg, catch_generic]
  · intro m_impl ba gs after impl' h
    unfold abort at h
    cases m_impl with
    | none => simp at h
    | some impl =>
        cases ba with
        | error e => cases e <;> simp [catch_generic] at h
        | ok u =>
            simp only [catch_generic] at h
            injection h with h
            injection h with h1 h2
            subst h1
            exact ⟨rfl, rfl⟩

/-- C19 counterexample: with the descriptor of `Dummy` memoised, a successful `abort()`
leaves the caches filled, and the next `get_class_info(Dummy)` returns the descriptor
memoised before although the backend now answers another one. -/
theorem abort_keeps_class_info :
    ∃ after impl', abort dummyMemoised (some onlyDummyA) (.ok ()) id = .ok (after, impl')
      ∧ after.p_direct_classes_desc_cache ≠ []
      ∧ after.p_all_classes_desc_cache ≠ []
      ∧ get_class_info after "Dummy" true (fun _ _ => .ok (plainClass "Dummy" "after"))
          = .ok (plainClass "Dummy" "before", after) :=
  ⟨_, _, rfl, by decide, by decide, rfl⟩

/-! ## Handle equality -/

theorem operator_eq_iff_identity (objs : Objs) (a b : ConfigObject) :
    ConfigObject.operator_eq objs a b = true
      ↔ ConfigObject.identity objs a = ConfigObject.identity objs b := by
  obtain ⟨ma⟩ := a
  obtain ⟨mb⟩ := b
  cases ma with
  | none =>
      cases mb with
      | none => simp [ConfigObject.operator_eq, ConfigObject.identity]
      | some q => simp [ConfigObject.operator_eq, ConfigObject.identity]
  | some p =>
      cases mb with
      | none => simp [ConfigObject.operator_eq, ConfigObject.identity]
      | some q =>
          by_cases hpq : p = q
          · subst hpq
            simp [ConfigObject.operator_eq, ConfigObject.identity]
          · simp [ConfigObject.operator_eq, ConfigObject.identity, hpq]

/-- C20: `a == b` is true exactly when both handles are null, or both point to the same
implementation object, or both are non-null with equal UID and equal class name; a
null handle never equals a non-null one; the relation is reflexive, symmetric and
transitive. -/
theorem operator_eq_spec (objs : Objs) :
    (∀ a b : ConfigObject, ConfigObject.operator_eq objs a b = true
        ↔ ((a.m_impl = none ∧ b.m_impl = none)
            ∨ (∃ p, a.m_impl = some p ∧ b.m_impl = some p)
            ∨ (∃ p q, a.m_impl = some p ∧ b.m_impl = some q
                ∧ ConfigObject.UID objs p = ConfigObject.UID objs q
                ∧ ConfigObject.class_name objs p = ConfigObject.class_name objs q)))
      ∧ (∀ a b : ConfigObject, a.m_impl = none → b.m_impl ≠ none →
          ConfigObject.operator_eq objs a b = false
            ∧ ConfigObject.operator_eq objs b a = false)
      ∧ (∀ a : ConfigObject, ConfigObject.operator_eq objs a a = true)
      ∧ (∀ a b : ConfigObject, ConfigObject.operator_eq objs a b = true →
          ConfigObject.operator_eq objs b a = true)
      ∧ (∀ a b c : ConfigObject, ConfigObject.operator_eq objs a b = true →
          ConfigObject.operator_eq objs b c = true →
          ConfigObject.operator_eq objs a c = true) := by
  refine ⟨?_, ?_, ?_, ?_, ?_⟩
  · intro a b
    obtain ⟨ma⟩ := a
    obtain ⟨mb⟩ := b
    cases ma with
    | none =>
        cases mb with
        | none => simp [ConfigObject.operator_eq]
        | some q => simp [ConfigObject.operator_eq]
    | some p =>
        cases mb with
        | none => simp [ConfigObject.operator_eq]
        | some q =>
            by_cases hpq : p = q
            · subst hpq
              simp [ConfigObject.operator_eq]
            · have hval : ConfigObject.operator_eq objs ⟨some p⟩ ⟨some q⟩
                  = (decide (ConfigObject.UID objs p = ConfigObject.UID objs q)
                      && decide (ConfigObject.class_name objs p
                          = ConfigObject.class_name objs q)) := by
                simp [ConfigObject.operator_eq, hpq]
              rw [hval]
              constructor
              · intro h
                simp only [Bool.and_eq_true, decide_eq_true_eq] at h
                exact Or.inr (Or.inr ⟨p, q, rfl, rfl, h.1, h.2⟩)
              · rintro (⟨h1, _⟩ | ⟨r, h1, h2⟩ | ⟨p', q', h1, h2, h3, h4⟩)
                · cases h1
                · cases h1
                  cases h2
                  exact absurd rfl hpq
                · cases h1
                  cases h2
                  simp [h3, h4]
  · intro a b ha hb
    obtain ⟨ma⟩ := a
    obtain ⟨mb⟩ := b
    simp only at ha hb
    subst ha
    cases mb with
    | none => exact absurd rfl hb
    | some q => simp [ConfigObject.operator_eq]
  · intro a
    exact (operator_eq_iff_identity objs a a).2 rfl
  · intro a b h
    exact (operator_eq_iff_identity objs b a).2 ((operator_eq_iff_identity objs a b).1 h).symm
  · intro a b c h1 h2
    exact (operator_eq_iff_identity objs a c).2
      (((operator_eq_iff_identity objs a b).1 h1).trans ((operator_eq_iff_identity objs b c).1 h2))

/-! ## Change batches -/

theorem push_class_name (r : ConfigurationChange) (o : String) (action : Char) :
    (r.push o action).m_class_name = r.m_class_name := by
  unfold ConfigurationChange.push
  split_ifs <;> rfl

theorem add_absent (changes : List ConfigurationChange) (c o : String) (action : Char)
    (h : ∀ r ∈ changes, r.m_class_name ≠ c) :
    ConfigurationChange.add changes c o action
      = changes ++ [(ConfigurationChange.new c).push o action] := by
  induction changes with
  | nil => rfl
  | cons r rest ih =>
      have hr : c ≠ r.m_class_name := fun e => h r (List.mem_cons_self _ _) e.symm
      simp only [ConfigurationChange.add, hr, if_false, List.cons_append]
      rw [ih (fun x hx => h x (List.mem_cons_of_mem _ hx))]

theorem add_present (changes : List ConfigurationChange) (c o : String) (action : Char)
    (h : ∃ r ∈ changes, r.m_class_name = c) :
    ∃ pre r post, changes = pre ++ r :: post ∧ r.m_class_name = c
      ∧ (∀ x ∈ pre, x.m_class_name ≠ c)
      ∧ ConfigurationChange.add changes c o action = pre ++ r.push o action :: post := by
  induction changes with
  | nil =>
      obtain ⟨r, hr, _⟩ := h
      simp at hr
  | cons x rest ih =>
      by_cases hx : c = x.m_class_name
      · refine ⟨[], x, rest, rfl, hx.symm, by simp, ?_⟩
        simp [ConfigurationChange.add, hx]
      · have h' : ∃ r ∈ rest, r.m_class_name = c := by
          obtain ⟨r, hr, hrc⟩ := h
          rcases List.mem_cons.1 hr with e | e
          · subst e; exact absurd hrc.symm hx
          · exact ⟨r, e, hrc⟩
        obtain ⟨pre, r, post, h1, h2, h3, h4⟩ := ih h'
        refine ⟨x :: pre, r, post, by rw [h1]; rfl, h2, ?_, ?_⟩
        · intro y hy
          rcases List.mem_cons.1 hy with e | e
          · subst e; exact fun e' => hx e'.symm
          · exact h3 y e
        · simp only [ConfigurationChange.add, hx, if_false, h4, List.cons_append]

/-- C29: `ConfigurationChange::add` keeps the class names of a batch pairwise distinct;
when a record for `c` exists the first one receives `o` and the batch keeps its other
records in place; otherwise a new record for `c` is pushed at the back; `o` is pushed
at the back of the created list for `+`, of the removed list for `-`, of the modified
list for any other character, the two other lists being unchanged. -/
theorem add_keeps_batch (changes : List ConfigurationChange) (c o : String) (action : Char) :
    ((changes.map (fun r => r.m_class_name)).Nodup →
        ((ConfigurationChange.add changes c o action).map (fun r => r.m_class_name)).Nodup)
      ∧ ((∃ r ∈ changes, r.m_class_name = c) →
          ∃ pre r post, changes = pre ++ r :: post ∧ r.m_class_name = c
            ∧ (∀ x ∈ pre, x.m_class_name ≠ c)
            ∧ ConfigurationChange.add changes c o action = pre ++ r.push o action :: post)
      ∧ ((∀ r ∈ changes, r.m_class_name ≠ c) →
          ConfigurationChange.add changes c o action
            = changes ++ [(ConfigurationChange.new c).push o action])
      ∧ (∀ r : ConfigurationChange,
          (r.push o action).m_class_name = r.m_class_name
          ∧ (action = '+' →
              r.push o action = { r with m_created := r.m_created ++ [o] })
          ∧ (action = '-' →
              r.push o action = { r with m_removed := r.m_removed ++ [o] })
          ∧ (action ≠ '+' → action ≠ '-' →
              r.push o action = { r with m_modified := r.m_modified ++ [o] })) := by
  refine ⟨?_, add_present changes c o action, add_absent changes c o action, ?_⟩
  · intro hnd
    by_cases h : ∃ r ∈ changes, r.m_class_name = c
    · obtain ⟨pre, r, post, h1, _, _, h4⟩ := add_present changes c o action h
      rw [h4]
      rw [h1] at hnd
      simpa [push_class_name] using hnd
    · have h' : ∀ r ∈ changes, r.m_class_name ≠ c := fun r hr e => h ⟨r, hr, e⟩
      rw [add_absent changes c o action h']
      rw [List.map_append, List.nodup_append]
      refine ⟨hnd, by simp, ?_⟩
      intro a ha hb
      simp only [List.map_cons, List.map_nil, List.mem_singleton, push_class_name,
        ConfigurationChange.new] at hb
      obtain ⟨r, hr, hra⟩ := List.mem_map.1 ha
      exact h' r hr (hra.trans hb)
  · intro r
    refine ⟨push_class_name r o action, ?_, ?_, ?_⟩
    · intro h; simp [ConfigurationChange.push, h]
    · intro h; subst h; simp [ConfigurationChange.push]
    · intro h1 h2; simp [ConfigurationChange.push, h1, h2]

/-! ## Subscription criteria -/

theorem mem_assign {K V : Type} [DecidableEq K] (m : List (K × V)) (k : K) (v : V)
    (e : K × V) (h : e ∈ assign m k v) : e ∈ m ∨ e.2 = v := by
  induction m with
  | nil =>
      simp [assign] at h
      exact Or.inr (by rw [h])
  | cons x rest ih =>
      obtain ⟨a, b⟩ := x
      by_cases hk : a = k
      · simp only [assign, hk, if_true, List.mem_cons] at h
        rcases h with h | h
        · exact Or.inr (by rw [h])
        · exact Or.inl (List.mem_cons_of_mem _ h)
      · simp only [assign, hk, if_false, List.mem_cons] at h
        rcases h with h | h
        · exact Or.inl (h ▸ List.mem_cons_self _ _)
        · rcases ih h with h' | h'
          · exact Or.inl (List.mem_cons_of_mem _ h')
          · exact Or.inr h'

theorem mem_erase {K V : Type} [DecidableEq K] (m : List (K × V)) (k : K)
    (e : K × V) (h : e ∈ erase m k) : e ∈ m := by
  unfold erase at h
  exact (List.mem_filter.1 h).1

theorem fset_insert_ne_nil {K : Type} [DecidableEq K] (s : List K) (x : K) :
    fset_insert s x ≠ [] := by
  unfold fset_insert
  by_cases h : x ∈ s
  · rw [if_pos h]
    intro hs
    rw [hs] at h
    simp at h
  · rw [if_neg h]
    simp

theorem assign_twice {K V : Type} [DecidableEq K] (m : List (K × V)) (k : K) (v w : V) :
    assign (assign m k v) k w = assign m k w := by
  induction m with
  | nil => simp [assign]
  | cons x rest ih =>
      obtain ⟨a, b⟩ := x
      by_cases hk : a = k
      · simp [assign, hk]
      · simp [assign, hk, ih]

theorem assign_found {K V : Type} [DecidableEq K] (m : List (K × V)) (k : K) (v : V)
    (h : find m k = some (k, v)) : assign m k v = m := by
  induction m with
  | nil => simp [find] at h
  | cons x rest ih =>
      obtain ⟨a, b⟩ := x
      by_cases hk : a = k
      · simp only [find, hk, if_true, Option.some.injEq, Prod.mk.injEq, true_and] at h
        simp [assign, hk, h]
      · simp only [find, hk, if_false] at h
        simp [assign, hk, ih h]

theorem erase_assign_absent {K V : Type} [DecidableEq K] (m : List (K × V)) (k : K) (v : V)
    (h : find m k = none) : erase (assign m k v) k = m := by
  induction m with
  | nil => simp [assign, erase]
  | cons x rest ih =>
      obtain ⟨a, b⟩ := x
      by_cases hk : a = k
      · simp [find, hk] at h
      · simp only [find, hk, if_false] at h
        have := ih h
        unfold erase at this ⊢
        simp only [assign, hk, if_false]
        rw [List.filter_cons_of_pos (by simp [hk]), this]

theorem filter_append_absent (s : List String) (id : String) (h : id ∉ s) :
    (s ++ [id]).filter (fun k => decide (k ≠ id)) = s := by
  rw [List.filter_append]
  have h1 : s.filter (fun k => decide (k ≠ id)) = s := by
    apply List.filter_eq_self.2
    intro a ha
    have : a ≠ id := fun e => h (e ▸ ha)
    simp [this]
  rw [h1]
  simp [List.filter]

theorem reachable_no_empty_set (c : ConfigurationSubscriptionCriteria) (h : Reachable c) :
    ∀ e ∈ c.m_objects_subscription, e.2 ≠ [] := by
  induction h with
  | empty => simp [ConfigurationSubscriptionCriteria.empty]
  | add c class_name _ ih => exact ih
  | add_object c class_name object_id _ ih =>
      intro e he
      simp only [ConfigurationSubscriptionCriteria.add_object, objects_add] at he
      cases hf : find c.m_objects_subscription class_name with
      | none =>
          rw [hf] at he
          rcases mem_assign _ _ _ e he with h' | h'
          · exact ih e h'
          · rw [h']; exact fset_insert_ne_nil _ _
      | some x =>
          rw [hf] at he
          rcases mem_assign _ _ _ e he with h' | h'
          · exact ih e h'
          · rw [h']; exact fset_insert_ne_nil _ _
  | remove c class_name _ ih => exact ih
  | remove_object c class_name object_id _ ih =>
      intro e he
      unfold ConfigurationSubscriptionCriteria.remove_object at he
      cases hf : find c.m_objects_subscription class_name with
      | none =>
          rw [hf] at he
          exact ih e he
      | some x =>
          rw [hf] at he
          simp only at he
          by_cases hemp : (x.2.filter (fun k => decide (k ≠ object_id))).isEmpty = true
          · rw [if_pos hemp] at he
            exact ih e (mem_erase _ _ _ he)
          · rw [if_neg hemp] at he
            rcases mem_assign _ _ _ e he with h' | h'
            · exact ih e h'
            · rw [h']
              intro hnil
              rw [hnil] at hemp
              simp at hemp

/-- C30: in criteria built from the empty criteria by `add` and `remove` calls no class of
the object map has an empty id-set, and for a pair `(c, id)` that is not subscribed,
`add(c, id)` followed by `remove(c, id)` gives back the criteria; from the empty
criteria this gives the empty criteria, which mean subscribe-all. -/
theorem criteria_add_remove (self : ConfigurationSubscriptionCriteria) (h : Reachable self) :
    (∀ e ∈ self.m_objects_subscription, e.2 ≠ [])
      ∧ (∀ c id, id ∉ members self.m_objects_subscription c →
          (self.add_object c id).remove_object c id = self)
      ∧ (∀ c id,
          (ConfigurationSubscriptionCriteria.empty.add_object c id).remove_object c id
              = ConfigurationSubscriptionCriteria.empty
            ∧ subscribes_all
                ((ConfigurationSubscriptionCriteria.empty.add_object c id).remove_object c id)
              = true) := by
  have hinv := reachable_no_empty_set self h
  have hundo : ∀ (s : ConfigurationSubscriptionCriteria),
      (∀ e ∈ s.m_objects_subscription, e.2 ≠ []) →
      ∀ c id, id ∉ members s.m_objects_subscription c →
        (s.add_object c id).remove_object c id = s := by
    intro s hs c id hid
    obtain ⟨cls, objs⟩ := s
    simp only at hs hid
    unfold ConfigurationSubscriptionCriteria.add_object
      ConfigurationSubscriptionCriteria.remove_object objects_add
    cases hf : find objs c with
    | none =>
        simp [find_assign_same, fset_insert, erase_assign_absent _ _ _ hf]
    | some x =>
        obtain ⟨k, ids⟩ := x
        have hk : k = c := find_key_eq hf
        subst hk
        have hid' : id ∉ ids := by simpa [members, hf] using hid
        have hne : ids ≠ [] := hs (k, ids) (find_mem hf)
        have hfil : (fset_insert ids id).filter (fun x => decide (x ≠ id)) = ids := by
          simp only [fset_insert, hid', if_false]
          exact filter_append_absent ids id hid'
        have hemp : ids.isEmpty = false := by
          cases ids with
          | nil => exact absurd rfl hne
          | cons a l => rfl
        simp only [find_assign_same, hfil, hemp, assign_twice]
        simp [assign_found _ _ _ hf]
  refine ⟨hinv, hundo self hinv, ?_⟩
  intro c id
  have h0 := hundo ConfigurationSubscriptionCriteria.empty
    (by simp [ConfigurationSubscriptionCriteria.empty]) c id
    (by simp [ConfigurationSubscriptionCriteria.empty, members, find])
  refine ⟨h0, ?_⟩
  rw [h0]
  rfl

/-- C30 witness: criteria built by two `add` calls. -/
theorem criteria_add_remove_witness :
    (∀ e ∈ ((ConfigurationSubscriptionCriteria.empty.add "Dummy").add_object
              "Second" "#3").m_objects_subscription, e.2 ≠ [])
      ∧ (((ConfigurationSubscriptionCriteria.empty.add "Dummy").add_object "Second" "#3").add_object
            "Second" "#4").remove_object "Second" "#4"
          = (ConfigurationSubscriptionCriteria.empty.add "Dummy").add_object "Second" "#3" :=
  have h := criteria_add_remove
    ((ConfigurationSubscriptionCriteria.empty.add "Dummy").add_object "Second" "#3")
    (Reachable.add_object _ _ _ (Reachable.add _ _ Reachable.empty))
  ⟨h.1, h.2.1 "Second" "#4" (by decide)⟩

/-! ## Order and frame of cache coherence -/

/-- C25 (as amended): for a record listing `x` both as modified and as removed, with `x`
cached in the class bucket as object `p`, `update_impl_objects` applies the removal
first and the modification last: `p` is marked Deleted and cleared, then, not being
Valid, receives `reset()`; the state at return is the one `reset()` leaves. -/
theorem update_impl_objects_modified_removed (reset : ConfigObjectImpl → ConfigObjectImpl)
    (cache : List (ClassName × Bucket)) (objs : Objs) (n : String) (C : ClassName)
    (x : String) (p : Ptr) (hp : bucket_entry cache C x = some p) :
    update_impl_objects reset cache objs (modifiedAndRemoved n x) C
        = setObj
            (setObj objs p (call_clear { objs p with m_state := ObjectState.Deleted })) p
            (call_reset reset (call_clear { objs p with m_state := ObjectState.Deleted }))
      ∧ (update_impl_objects reset cache objs (modifiedAndRemoved n x) C p).calls
        = (objs p).calls ++ [VCall.clear, VCall.reset]
      ∧ (update_impl_objects reset cache objs (modifiedAndRemoved n x) C p).m_state
        = (reset (call_clear { objs p with m_state := ObjectState.Deleted })).m_state := by
  obtain ⟨bucket, hb, hf⟩ := bucket_entry_some hp
  have h : update_impl_objects reset cache objs (modifiedAndRemoved n x) C
      = setObj
          (setObj objs p (call_clear { objs p with m_state := ObjectState.Deleted })) p
          (call_reset reset (call_clear { objs p with m_state := ObjectState.Deleted })) := by
    simp [update_impl_objects, for_each_uid, modifiedAndRemoved, hb, removed_step,
      modified_step, hf, setObj_same, call_clear]
  refine ⟨h, ?_, ?_⟩
  · rw [h]; simp [setObj_same, call_reset, call_clear]
  · rw [h]; simp [setObj_same, call_reset]

/-- C25 witness: the record applied to `Second#x`, cached as object 1. -/
theorem update_impl_objects_modified_removed_witness :
    (update_impl_objects reset_valid secondX.m_impl_objects secondX.objs
        (modifiedAndRemoved "Second" "x") "Second" 1).calls = [VCall.clear, VCall.reset] :=
  (update_impl_objects_modified_removed reset_valid secondX.m_impl_objects secondX.objs
    "Second" "Second" "x" 1 (by decide)).2.1

/-- C25 counterexample: `x` is listed as modified and as removed in the record for
`Second`; with a backend whose `reset()` finds the object alive, the object cached at
`(Second, x)` has state Valid, not Deleted, when `update_impl_objects` returns. -/
theorem modified_after_removed :
    bucket_entry secondX.m_impl_objects "Second" "x" = some 1
      ∧ (update_impl_objects reset_valid secondX.m_impl_objects secondX.objs
          (modifiedAndRemoved "Second" "x") "Second" 1).m_state = ObjectState.Valid
      ∧ (update_impl_objects reset_valid secondX.m_impl_objects secondX.objs
          (modifiedAndRemoved "Second" "x") "Second" 1).m_state ≠ ObjectState.Deleted := by
  decide

theorem removed_step_untouched (bucket : Bucket) (objs : Objs) (y : String) (q : Ptr)
    (h : ∀ k, find bucket y ≠ some (k, q)) : removed_step bucket objs y q = objs q := by
  unfold removed_step
  cases hf : find bucket y with
  | none => rfl
  | some e =>
      obtain ⟨k, p⟩ := e
      have hqp : q ≠ p := fun e' => h k (by rw [hf, e'])
      simp [setObj_other _ _ hqp]

theorem created_step_untouched (reset : ConfigObjectImpl → ConfigObjectImpl) (bucket : Bucket)
    (objs : Objs) (y : String) (q : Ptr)
    (h : ∀ k, find bucket y ≠ some (k, q)) : created_step reset bucket objs y q = objs q := by
  unfold created_step
  cases hf : find bucket y with
  | none => rfl
  | some e =>
      obtain ⟨k, p⟩ := e
      have hqp : q ≠ p := fun e' => h k (by rw [hf, e'])
      simp [setObj_other _ _ hqp]

theorem modified_step_untouched (reset : ConfigObjectImpl → ConfigObjectImpl) (bucket : Bucket)
    (objs : Objs) (y : String) (q : Ptr)
    (h : ∀ k, find bucket y ≠ some (k, q)) : modified_step reset bucket objs y q = objs q := by
  unfold modified_step
  cases hf : find bucket y with
  | none => rfl
  | some e =>
      obtain ⟨k, p⟩ := e
      have hqp : q ≠ p := fun e' => h k (by rw [hf, e'])
      by_cases hv : (objs p).m_state = ObjectState.Valid <;> simp [hv, setObj_other _ _ hqp]

theorem for_each_uid_untouched (cache : List (ClassName × Bucket)) (K : ClassName)
    (step : Bucket → Objs → String → Objs) (q : Ptr)
    (hstep : ∀ bucket objs y, (∀ k, find bucket y ≠ some (k, q)) → step bucket objs y q = objs q)
    (uids : List String) (h : ∀ y ∈ uids, bucket_entry cache K y ≠ some q) (objs : Objs) :
    for_each_uid cache K uids step objs q = objs q := by
  unfold for_each_uid
  by_cases he : uids.isEmpty = false
  · rw [if_pos he]
    cases hb : find cache K with
    | none => rfl
    | some e =>
        obtain ⟨key, bucket⟩ := e
        simp only
        induction uids generalizing objs with
        | nil => rfl
        | cons y rest ih =>
            simp only [List.foldl_cons]
            have hy : ∀ k, find bucket y ≠ some (k, q) := by
              intro k hk
              apply h y (List.mem_cons_self _ _)
              simp [bucket_entry, hb, hk]
            by_cases hr : rest.isEmpty = false
            · rw [ih (fun z hz => h z (List.mem_cons_of_mem _ hz)) _ hr, hstep bucket objs y hy]
            · have : rest = [] := by
                cases rest with
                | nil => rfl
                | cons a l => simp at hr
              subst this
              simp [hstep bucket objs y hy]
  · rw [if_neg he]

theorem update_impl_objects_untouched (reset : ConfigObjectImpl → ConfigObjectImpl)
    (cache : List (ClassName × Bucket)) (objs : Objs) (i : ConfigurationChange)
    (K : ClassName) (q : Ptr)
    (h : ∀ x, (x ∈ i.m_created ∨ x ∈ i.m_modified ∨ x ∈ i.m_removed) →
      bucket_entry cache K x ≠ some q) :
    update_impl_objects reset cache objs i K q = objs q := by
  unfold update_impl_objects
  rw [for_each_uid_untouched cache K (modified_step reset) q
        (fun b o y hy => modified_step_untouched reset b o y q hy) _
        (fun y hy => h y (Or.inr (Or.inl hy))),
      for_each_uid_untouched cache K (created_step reset) q
        (fun b o y hy => created_step_untouched reset b o y q hy) _
        (fun y hy => h y (Or.inl hy)),
      for_each_uid_untouched cache K removed_step q
        (fun b o y hy => removed_step_untouched b o y q hy) _
        (fun y hy => h y (Or.inr (Or.inr hy)))]

theorem classes_fold_untouched (reset : ConfigObjectImpl → ConfigObjectImpl)
    (cache : List (ClassName × Bucket)) (i : ConfigurationChange) (q : Ptr)
    (sc : List ClassName)
    (h : ∀ K ∈ sc, ∀ x, (x ∈ i.m_created ∨ x ∈ i.m_modified ∨ x ∈ i.m_removed) →
      bucket_entry cache K x ≠ some q)
    (objs : Objs) :
    sc.foldl (fun o c => update_impl_objects reset cache o i c) objs q = objs q := by
  induction sc generalizing objs with
  | nil => rfl
  | cons c rest ih =>
      simp only [List.foldl_cons]
      rw [ih (fun K hK => h K (List.mem_cons_of_mem _ hK)),
        update_impl_objects_untouched reset cache objs i c q (h c (List.mem_cons_self _ _))]

theorem update_cache_record_untouched (reset : ConfigObjectImpl → ConfigObjectImpl)
    (self : Configuration) (cache : List (ClassName × Bucket)) (objs : Objs)
    (i : ConfigurationChange) (q : Ptr)
    (h : ∀ K x,
      (K = i.m_class_name ∨ K ∈ superclasses_of self i.m_class_name
          ∨ K ∈ subclasses_of self i.m_class_name) →
      (x ∈ i.m_created ∨ x ∈ i.m_modified ∨ x ∈ i.m_removed) →
      bucket_entry cache K x ≠ some q) :
    update_cache_record reset self cache objs i q = objs q := by
  unfold update_cache_record
  simp only [get_known_class_name_ref]
  have h1 := update_impl_objects_untouched reset cache objs i i.m_class_name q
    (fun x hx => h _ x (Or.inl rfl) hx)
  have h2 : (match find self.p_superclasses i.m_class_name with
        | some (_, sc) =>
            sc.foldl (fun o c => update_impl_objects reset cache o i c)
              (update_impl_objects reset cache objs i i.m_class_name)
        | none => update_impl_objects reset cache objs i i.m_class_name) q = objs q := by
    cases hs : find self.p_superclasses i.m_class_name with
    | none => exact h1
    | some e =>
        simp only
        rw [classes_fold_untouched reset cache i q e.2
          (fun K hK x hx => h K x
            (Or.inr (Or.inl (by simp [superclasses_of, members, hs, hK]))) hx)]
        exact h1
  cases hs : find self.p_subclasses i.m_class_name with
  | none => exact h2
  | some e =>
      simp only
      rw [classes_fold_untouched reset cache i q e.2
        (fun K hK x hx => h K x
          (Or.inr (Or.inr (by simp [subclasses_of, members, hs, hK]))) hx)]
      exact h2

/-- C27: `update_cache` leaves the buckets and the tangled list as they are, and leaves
every object as it is unless the object is cached under a UID `x` in the bucket of a
class `K` such that a record of the batch, for class `C`, lists `x` as created,
modified or removed and `K` is `C`, a superclass of `C` or a subclass of `C`. -/
theorem update_cache_frame (reset : ConfigObjectImpl → ConfigObjectImpl)
    (self : Configuration) (m_impl : ConfigurationImpl) (changes : List ConfigurationChange) :
    (update_cache reset self m_impl changes).m_impl_objects = m_impl.m_impl_objects
      ∧ (update_cache reset self m_impl changes).m_tangled_objects = m_impl.m_tangled_objects
      ∧ ∀ q, ¬ touched_by self m_impl.m_impl_objects changes q →
          (update_cache reset self m_impl changes).objs q = m_impl.objs q := by
  refine ⟨rfl, rfl, ?_⟩
  intro q hq
  unfold update_cache
  simp only
  generalize m_impl.objs = objs
  induction changes generalizing objs with
  | nil => rfl
  | cons i rest ih =>
      simp only [List.foldl_cons]
      have hrest : ¬ touched_by self m_impl.m_impl_objects rest q := by
        rintro ⟨j, hj, K, x, h1, h2, h3⟩
        exact hq ⟨j, List.mem_cons_of_mem _ hj, K, x, h1, h2, h3⟩
      rw [ih hrest]
      apply update_cache_record_untouched
      intro K x hK hx hb
      exact hq ⟨i, List.mem_cons_self _ _, K, x, hK, hx, hb⟩

/-! ## Construction -/

theorem erase_append_absent {K V : Type} [DecidableEq K] (m : List (K × V)) (k : K) (v : V)
    (h : find m k = none) : erase (m ++ [(k, v)]) k = m := by
  induction m with
  | nil => simp [erase]
  | cons x rest ih =>
      obtain ⟨a, b⟩ := x
      by_cases hk : a = k
      · simp [find, hk] at h
      · simp only [find, hk, if_false] at h
        have := ih h
        unfold erase at this ⊢
        rw [List.cons_append, List.filter_cons_of_pos (by simp [hk]), this]

theorem find_append_absent {K V : Type} [DecidableEq K] (m : List (K × V)) (k : K) (v : V)
    (h : find m k = none) : find (m ++ [(k, v)]) k = some (k, v) := by
  induction m with
  | nil => simp [find]
  | cons x rest ih =>
      obtain ⟨a, b⟩ := x
      by_cases hk : a = k
      · simp [find, hk] at h
      · simp only [find, hk, if_false] at h
        simp [find, hk, ih h]

/-- C28: with `cs` a fresh address, `subscribe` with a null callback raises `Generic` and
leaves the registry as it was; when the backend call of `reset_subscription` raises a
`Generic`, `subscribe` raises `Generic` with that cause and leaves the registry as it
was; on success the id returned is a member of the registry and `find_callback` returns
it. -/
theorem subscribe_atomic (m_callbacks : CallbackSet)
    (criteria : ConfigurationSubscriptionCriteria)
    (user_cb : Option (List ConfigurationChange → CallbackOutcome)) (parameter : Nat)
    (cs : Ptr) (backend_subscribe : BackendSubscription → Except ConfigError Unit)
    (hfresh : find m_callbacks cs = none) :
    (user_cb = none →
        subscribe m_callbacks criteria user_cb parameter cs backend_subscribe
          = (.error (.Generic "callback function is not defined"), m_callbacks))
      ∧ (∀ cb e, user_cb = some cb →
          backend_subscribe
              (reset_subscription
                ((m_callbacks ++ [(cs, CallbackSubscription.mk criteria cb parameter)]).map
                  Prod.snd))
            = .error e →
          is_generic e = true →
          subscribe m_callbacks criteria user_cb parameter cs backend_subscribe
            = (.error (.GenericCaused "subscription failed" e), m_callbacks))
      ∧ (∀ cb, user_cb = some cb →
          backend_subscribe
              (reset_subscription
                ((m_callbacks ++ [(cs, CallbackSubscription.mk criteria cb parameter)]).map
                  Prod.snd))
            = .ok () →
          ∃ m1, subscribe m_callbacks criteria user_cb parameter cs backend_subscribe
                = (.ok cs, m1)
            ∧ (∃ r, find m1 cs = some (cs, r))
            ∧ find_callback m1 (some cs) = some cs) := by
  refine ⟨?_, ?_, ?_⟩
  · intro h
    subst h
    rfl
  · intro cb e hcb hb hg
    subst hcb
    simp only [subscribe, callbacks_insert, hfresh, hb, hg, if_true]
    rw [erase_append_absent m_callbacks cs _ hfresh]
  · intro cb hcb hb
    subst hcb
    refine ⟨m_callbacks ++ [(cs, CallbackSubscription.mk criteria cb parameter)],
      ?_, ⟨_, find_append_absent m_callbacks cs _ hfresh⟩, ?_⟩
    · simp only [subscribe, callbacks_insert, hfresh, hb]
    · simp [find_callback, find_append_absent m_callbacks cs _ hfresh]

/-- C28 witness: a first subscription on an empty registry, the backend accepting it. -/
theorem subscribe_atomic_witness :
    ∃ m1, subscribe [] subscriberA.m_criteria (some subscriberA.m_cb) 1 100 (fun _ => .ok ())
          = (.ok 100, m1)
      ∧ (∃ r, find m1 100 = some (100, r))
      ∧ find_callback m1 (some 100) = some 100 :=
  (subscribe_atomic [] subscriberA.m_criteria (some subscriberA.m_cb) 1 100
      (fun _ => .ok ()) rfl).2.2 subscriberA.m_cb rfl rfl

/-! ## Lock order -/

/-- C24, at the failing input: `remove_include` takes the implementation mutex and then
the template mutex, against the canonical order, as `destroy_obj` does; the other
operations holding several mutexes, the dispatcher among them, follow the order. -/
theorem remove_include_lock_order :
    lock_events Operation.remove_include
        = [LockEvent.lock Mutex.m_impl_mutex, LockEvent.lock Mutex.m_tmpl_mutex,
           LockEvent.unlock Mutex.m_tmpl_mutex, LockEvent.unlock Mutex.m_impl_mutex]
      ∧ canonical_order (lock_events Operation.remove_include) [] = false
      ∧ canonical_order (lock_events Operation.destroy_obj) [] = false
      ∧ canonical_order (lock_events Operation.system_cb) [] = true
      ∧ ∀ op, op ≠ Operation.remove_include → op ≠ Operation.destroy_obj →
          canonical_order (lock_events op) [] = true := by
  refine ⟨rfl, by decide, by decide, by decide, ?_⟩
  intro op h1 h2
  cases op <;> first | exact absurd rfl h1 | exact absurd rfl h2 | decide

/-! ## Export of the schema -/

theorem attribute_node_is_not_null (x : attribute_t) :
    find (attribute_node x) "is-not-null"
      = if x.p_is_not_null then some ("is-not-null", "true") else none := by
  unfold attribute_node ptree_put bool_text
  simp only []
  split_ifs <;>
    simp_all [find_assign_ne, find_assign_same, find, assign]

theorem attribute_node_is_multi_value (x : attribute_t) :
    find (attribute_node x) "is-multi-value"
      = if x.p_is_multi_value then some ("is-multi-value", "true") else none := by
  unfold attribute_node ptree_put bool_text
  simp only []
  split_ifs <;>
    simp_all [find_assign_ne, find_assign_same, find, assign]

theorem relationship_node_is_aggregation (x : relationship_t) :
    find (relationship_node x) "is-aggregation"
      = if x.p_is_aggregation then none else some ("is-aggregation", "false") := by
  unfold relationship_node ptree_put bool_text
  simp only []
  split_ifs <;>
    simp_all [find_assign_ne, find_assign_same, find, assign]

/-- C26, at the failing input: for the class `Dummy` with the composite relationship
`parts` and the plain relationship `peer`, `export_schema` gives the node of `parts` no
`is-aggregation` child and the node of `peer` the child `is-aggregation` with value
false; the attribute `strings`, not-null and multi-value, has `is-not-null` and
`is-multi-value` with value true, and the attribute `flag` has neither. -/
theorem export_schema_is_aggregation_inverted :
    export_schema onlyDummy (fun _ => .error "") "" false (fun _ _ => .ok dummyDescribed)
        = .ok [("Dummy", class_node dummyDescribed)]
      ∧ (class_node dummyDescribed).relationships
          = some [("parts", [("type", "Second"), ("cardinality", "zero or many")]),
                  ("peer", [("type", "Dummy"), ("cardinality", "zero or one"),
                            ("is-aggregation", "false")])]
      ∧ (class_node dummyDescribed).attributes
          = some [("strings", [("type", "string"), ("is-not-null", "true"),
                               ("is-multi-value", "true")]),
                  ("flag", [("type", "bool")])]
      ∧ (∀ x : relationship_t,
          find (relationship_node x) "is-aggregation"
            = if x.p_is_aggregation then none else some ("is-aggregation", "false")) := by
  refine ⟨rfl, by decide, by decide, relationship_node_is_aggregation⟩

/-! ## Export of the data -/

theorem mem_sorted_insert_by_of_mem {α : Type} (key : α → String) (x y : α) (l : List α)
    (h : y ∈ l) : y ∈ sorted_insert_by key x l := by
  induction l with
  | nil => cases h
  | cons z rest ih =>
      unfold sorted_insert_by
      split_ifs
      · exact List.mem_cons_of_mem x h
      · rcases List.mem_cons.mp h with h1 | h1
        · exact h1 ▸ List.mem_cons_self z _
        · exact List.mem_cons_of_mem z (ih h1)
      · exact h

theorem chars_lt_trichotomy (a b : List Char) (h1 : chars_lt a b = false)
    (h2 : chars_lt b a = false) : a = b := by
  induction a generalizing b with
  | nil =>
      cases b with
      | nil => rfl
      | cons y ys => simp [chars_lt] at h1
  | cons x xs ih =>
      cases b with
      | nil => simp [chars_lt] at h2
      | cons y ys =>
          unfold chars_lt at h1 h2
          split_ifs at h1 h2 with h3 h4
          have hxy : x = y := by
            apply Char.ext
            apply UInt32.ext
            have : x.toNat = y.toNat := by omega
            exact this
          rw [hxy, ih ys h1 h2]

theorem string_lt_trichotomy (a b : String) (h1 : string_lt a b = false)
    (h2 : string_lt b a = false) : a = b := by
  unfold string_lt at h1 h2
  exact String.ext (chars_lt_trichotomy _ _ h1 h2)

theorem self_mem_sorted_insert (x : String) (l : List String) :
    x ∈ sorted_insert_by id x l := by
  induction l with
  | nil => simp [sorted_insert_by]
  | cons z rest ih =>
      unfold sorted_insert_by
      split_ifs with h1 h2
      · exact List.mem_cons_self x _
      · exact List.mem_cons_of_mem z ih
      · have hxz : x = z := string_lt_trichotomy x z (by simpa using h1) (by simpa using h2)
        exact hxz ▸ List.mem_cons_self x rest

theorem mem_sorted_classes_fold (selects : String → Bool) (c : String)
    (l : ClassMap) (acc : List String)
    (h : c ∈ acc ∨ (c ∈ l.map Prod.fst ∧ selects c = true)) :
    c ∈ l.foldl (fun acc c => if selects c.1 then sorted_insert_by id c.1 acc else acc) acc := by
  induction l generalizing acc with
  | nil =>
      rcases h with h | ⟨h, _⟩
      · exact h
      · cases h
  | cons e rest ih =>
      rw [List.foldl_cons]
      apply ih
      rcases h with h | ⟨h, hs⟩
      · left
        split_ifs
        · exact mem_sorted_insert_by_of_mem id e.1 c acc h
        · exact h
      · rw [List.map_cons] at h
        rcases List.mem_cons.mp h with h1 | h1
        · left
          rw [← h1, if_pos hs]
          exact self_mem_sorted_insert c acc
        · right
          exact ⟨h1, hs⟩

theorem mem_sorted_classes (superclasses : ClassMap) (selects : String → Bool) (c : String)
    (hc : c ∈ superclasses.map Prod.fst) (hs : selects c = true) :
    c ∈ sorted_classes superclasses selects :=
  mem_sorted_classes_fold selects c superclasses [] (Or.inr ⟨hc, hs⟩)

/-- C23 counterexample: with the objects `a` and `b` of class `Dummy`, the read of the
attribute `flag` of `a` raising `Generic` and every other read succeeding, `export_data`
raises that error: no marker is stored and `b` is not exported. With the read of the
relationship `peer` of `b` raising `NotFound` instead, `export_data` raises that error
after `a` has been read in full. With all reads succeeding both objects are exported. -/
theorem export_data_aborts :
    export_data onlyDummy twoDummyObjects (fun _ => "f") flagOfOneRaises
        (fun _ => .error "") (fun _ _ => .ok dummyDescribed) (fun _ => .ok [1, 2])
        "" "" "" "" = .error (.Generic "read failed")
      ∧ export_data onlyDummy twoDummyObjects (fun _ => "f") peerOfTwoRaises
        (fun _ => .error "") (fun _ _ => .ok dummyDescribed) (fun _ => .ok [1, 2])
        "" "" "" "" = .error (.NotFound "relationship" "peer")
      ∧ export_data onlyDummy twoDummyObjects (fun _ => "f") allReadsSucceed
        (fun _ => .error "") (fun _ _ => .ok dummyDescribed) (fun _ => .ok [1, 2])
        "" "" "" ""
        = .ok [("Dummy",
            [("a", [("strings", .array ["s"]), ("flag", .value "true"),
                    ("parts", .array []), ("peer", .value "")]),
             ("b", [("strings", .array ["s"]), ("flag", .value "true"),
                    ("parts", .array []), ("peer", .value "")])])] := by
  exact ⟨rfl, rfl, rfl⟩

/-! ## Removal coherence -/

theorem update_impl_objects_spared (reset : ConfigObjectImpl → ConfigObjectImpl)
    (cache : List (ClassName × Bucket)) (objs : Objs) (i : ConfigurationChange)
    (K : ClassName) (p : Ptr)
    (hK : ∀ y, bucket_entry cache K y = some p → y ∉ i.m_created ∧ y ∉ i.m_modified) :
    update_impl_objects reset cache objs i K p
      = for_each_uid cache K i.m_removed removed_step objs p := by
  unfold update_impl_objects
  rw [for_each_uid_untouched cache K (modified_step reset) p
        (fun b o y hy => modified_step_untouched reset b o y p hy) _
        (fun y hy hp => (hK y hp).2 hy),
      for_each_uid_untouched cache K (created_step reset) p
        (fun b o y hy => created_step_untouched reset b o y p hy) _
        (fun y hy hp => (hK y hp).1 hy)]

theorem classes_fold_spared_keeps (reset : ConfigObjectImpl → ConfigObjectImpl)
    (cache : List (ClassName × Bucket)) (i : ConfigurationChange) (p : Ptr)
    (sc : List ClassName)
    (hsc : ∀ K ∈ sc, ∀ y, bucket_entry cache K y = some p →
      y ∉ i.m_created ∧ y ∉ i.m_modified)
    (objs : Objs) (h : deleted_and_cleared (objs p)) :
    deleted_and_cleared
      (sc.foldl (fun o c => update_impl_objects reset cache o i c) objs p) := by
  induction sc generalizing objs with
  | nil => simpa using h
  | cons c rest ih =>
      simp only [List.foldl_cons]
      refine ih (fun K hK => hsc K (List.mem_cons_of_mem _ hK)) _ ?_
      rw [update_impl_objects_spared reset cache objs i c p (hsc c (List.mem_cons_self _ _))]
      exact for_each_removed_keeps cache c _ objs p h

theorem classes_fold_spared_hits (reset : ConfigObjectImpl → ConfigObjectImpl)
    (cache : List (ClassName × Bucket)) (i : ConfigurationChange) (x : String) (p : Ptr)
    (sc : List ClassName)
    (hsc : ∀ K ∈ sc, ∀ y, bucket_entry cache K y = some p →
      y ∉ i.m_created ∧ y ∉ i.m_modified)
    (hr : x ∈ i.m_removed) (K : ClassName) (hp : bucket_entry cache K x = some p)
    (hK : K ∈ sc) (objs : Objs) :
    deleted_and_cleared
      (sc.foldl (fun o c => update_impl_objects reset cache o i c) objs p) := by
  induction sc generalizing objs with
  | nil => simp at hK
  | cons c rest ih =>
      simp only [List.foldl_cons]
      by_cases hcK : c = K
      · subst hcK
        refine classes_fold_spared_keeps reset cache i p rest
          (fun K hK => hsc K (List.mem_cons_of_mem _ hK)) _ ?_
        rw [update_impl_objects_spared reset cache objs i c p
          (hsc c (List.mem_cons_self _ _))]
        exact for_each_removed_hits cache c _ objs x p hr hp
      · rcases List.mem_cons.1 hK with h | h
        · exact absurd h.symm hcK
        · exact ih (fun K hK => hsc K (List.mem_cons_of_mem _ hK)) h _

theorem mem_members_of_find {m : ClassMap} {C K : ClassName} {e : ClassName × List ClassName}
    (hf : find m C = some e) (hK : K ∈ e.2) : K ∈ members m C := by
  unfold members
  rw [hf]
  exact hK

theorem update_cache_record_spared_keeps (reset : ConfigObjectImpl → ConfigObjectImpl)
    (self : Configuration) (cache : List (ClassName × Bucket)) (objs : Objs)
    (i : ConfigurationChange) (p : Ptr) (hs : spares self cache i p)
    (h : deleted_and_cleared (objs p)) :
    deleted_and_cleared (update_cache_record reset self cache objs i p) := by
  unfold update_cache_record
  simp only [get_known_class_name_ref]
  have h1 : deleted_and_cleared (update_impl_objects reset cache objs i i.m_class_name p) := by
    rw [update_impl_objects_spared reset cache objs i _ p (fun y hy => hs _ y (Or.inl rfl) hy)]
    exact for_each_removed_keeps cache _ _ objs p h
  have h2 : deleted_and_cleared
      ((match find self.p_superclasses i.m_class_name with
        | some (_, sc) =>
            sc.foldl (fun o c => update_impl_objects reset cache o i c)
              (update_impl_objects reset cache objs i i.m_class_name)
        | none => update_impl_objects reset cache objs i i.m_class_name) p) := by
    cases hsup : find self.p_superclasses i.m_class_name with
    | none => exact h1
    | some e =>
        exact classes_fold_spared_keeps reset cache i p e.2
          (fun K hK y hy => hs K y (Or.inr (Or.inl (mem_members_of_find hsup hK))) hy) _ h1
  cases hsub : find self.p_subclasses i.m_class_name with
  | none => exact h2
  | some e =>
      exact classes_fold_spared_keeps reset cache i p e.2
        (fun K hK y hy => hs K y (Or.inr (Or.inr (mem_members_of_find hsub hK))) hy) _ h2

theorem update_cache_record_spared_hits (reset : ConfigObjectImpl → ConfigObjectImpl)
    (self : Configuration) (cache : List (ClassName × Bucket)) (objs : Objs)
    (i : ConfigurationChange) (x : String) (p : Ptr) (K : ClassName)
    (hs : spares self cache i p) (hr : x ∈ i.m_removed)
    (hK : K = i.m_class_name ∨ K ∈ superclasses_of self i.m_class_name
            ∨ K ∈ subclasses_of self i.m_class_name)
    (hp : bucket_entry cache K x = some p) :
    deleted_and_cleared (update_cache_record reset self cache objs i p) := by
  unfold update_cache_record
  simp only [get_known_class_name_ref]
  have hsup_sp : ∀ e, find self.p_superclasses i.m_class_name = some e →
      ∀ K ∈ e.2, ∀ y, bucket_entry cache K y = some p →
        y ∉ i.m_created ∧ y ∉ i.m_modified :=
    fun e he K hK y hy => hs K y (Or.inr (Or.inl (mem_members_of_find he hK))) hy
  have hsub_sp : ∀ e, find self.p_subclasses i.m_class_name = some e →
      ∀ K ∈ e.2, ∀ y, bucket_entry cache K y = some p →
        y ∉ i.m_created ∧ y ∉ i.m_modified :=
    fun e he K hK y hy => hs K y (Or.inr (Or.inr (mem_members_of_find he hK))) hy
  unfold superclasses_of subclasses_of members at hK
  rcases hK with hK | hK | hK
  · subst hK
    have h1 : deleted_and_cleared
        (update_impl_objects reset cache objs i i.m_class_name p) := by
      rw [update_impl_objects_spared reset cache objs i _ p
        (fun y hy => hs _ y (Or.inl rfl) hy)]
      exact for_each_removed_hits cache _ _ objs x p hr hp
    have h2 : deleted_and_cleared
        ((match find self.p_superclasses i.m_class_name with
          | some (_, sc) =>
              sc.foldl (fun o c => update_impl_objects reset cache o i c)
                (update_impl_objects reset cache objs i i.m_class_name)
          | none => update_impl_objects reset cache objs i i.m_class_name) p) := by
      cases hsup : find self.p_superclasses i.m_class_name with
      | none => exact h1
      | some e => exact classes_fold_spared_keeps reset cache i p e.2 (hsup_sp e hsup) _ h1
    cases hsub : find self.p_subclasses i.m_class_name with
    | none => exact h2
    | some e => exact classes_fold_spared_keeps reset cache i p e.2 (hsub_sp e hsub) _ h2
  · cases hsup : find self.p_superclasses i.m_class_name with
    | none => rw [hsup] at hK; simp at hK
    | some e =>
        rw [hsup] at hK
        have h2 := classes_fold_spared_hits reset cache i x p e.2 (hsup_sp e hsup) hr K hp hK
          (update_impl_objects reset cache objs i i.m_class_name)
        cases hsub : find self.p_subclasses i.m_class_name with
        | none => exact h2
        | some e' =>
            exact classes_fold_spared_keeps reset cache i p e'.2 (hsub_sp e' hsub) _ h2
  · cases hsub : find self.p_subclasses i.m_class_name with
    | none => rw [hsub] at hK; simp at hK
    | some e =>
        rw [hsub] at hK
        exact classes_fold_spared_hits reset cache i x p e.2 (hsub_sp e hsub) hr K hp hK _

theorem records_fold_spared_keeps (reset : ConfigObjectImpl → ConfigObjectImpl)
    (self : Configuration) (cache : List (ClassName × Bucket)) (p : Ptr)
    (changes : List ConfigurationChange)
    (hs : ∀ c ∈ changes, spares self cache c p)
    (objs : Objs) (h : deleted_and_cleared (objs p)) :
    deleted_and_cleared (changes.foldl (update_cache_record reset self cache) objs p) := by
  induction changes generalizing objs with
  | nil => simpa using h
  | cons c rest ih =>
      simp only [List.foldl_cons]
      exact ih (fun d hd => hs d (List.mem_cons_of_mem _ hd)) _
        (update_cache_record_spared_keeps reset self cache objs c p
          (hs c (List.mem_cons_self _ _)) h)

theorem secondX_only_under : cached_only_under secondX.m_impl_objects 1 "x" := by
  intro K y h
  by_cases hK : "Second" = K
  · by_cases hy : "x" = y
    · exact hy.symm
    · simp [secondX, bucket_entry, find, hK, hy] at h
  · simp [secondX, bucket_entry, find, hK] at h

theorem spares_of_only_under (self : Configuration) (cache : List (ClassName × Bucket))
    (i : ConfigurationChange) (p : Ptr) (x : String) (honly : cached_only_under cache p x)
    (hc : x ∉ i.m_created) (hm : x ∉ i.m_modified) : spares self cache i p := by
  intro K y _ hp
  rw [honly K y hp]
  exact ⟨hc, hm⟩

/-- C9 (as amended): if a record `r` of the batch, for class `C`, lists `x` as removed,
object `p` is cached under `x` in the bucket of `C`, of a class of `superclasses(C)` or
of a class of `subclasses(C)`, and neither `r` nor a record after it lists as created
or modified a UID under which `p` is cached in the bucket of that record's class, of
one of its superclasses or of one of its subclasses, then after `update_cache` object
`p` has state Deleted and no field values, whatever the records before `r` are. -/
theorem update_cache_removed (reset : ConfigObjectImpl → ConfigObjectImpl)
    (self : Configuration) (m_impl : ConfigurationImpl)
    (before later : List ConfigurationChange)
    (r : ConfigurationChange) (x : String) (K : ClassName) (p : Ptr)
    (hx : x ∈ r.m_removed)
    (hK : K = r.m_class_name ∨ K ∈ superclasses_of self r.m_class_name
            ∨ K ∈ subclasses_of self r.m_class_name)
    (hp : bucket_entry m_impl.m_impl_objects K x = some p)
    (hspares : ∀ c ∈ r :: later, spares self m_impl.m_impl_objects c p) :
    deleted_and_cleared
      ((update_cache reset self m_impl (before ++ r :: later)).objs p) := by
  unfold update_cache
  simp only [List.foldl_append, List.foldl_cons]
  exact records_fold_spared_keeps reset self _ p later
    (fun c hc => hspares c (List.mem_cons_of_mem _ hc)) _
    (update_cache_record_spared_hits reset self _ _ r x p K
      (hspares r (List.mem_cons_self _ _)) hx hK hp)

/-- C9 witness: `Second#x` is cached; `x` is reported created in `Dummy`, then removed
in `Dummy`, then created and modified in the unrelated class `Other`. -/
theorem update_cache_removed_witness :
    deleted_and_cleared
      ((update_cache reset_valid dummySecond secondX createdRemovedElsewhere).objs 1) :=
  update_cache_removed reset_valid dummySecond secondX
    [{ m_class_name := "Dummy", m_modified := [], m_created := ["x"], m_removed := [] }]
    [{ m_class_name := "Other", m_modified := ["x"], m_created := ["x"], m_removed := [] }]
    { m_class_name := "Dummy", m_modified := [], m_created := [], m_removed := ["x"] }
    "x" "Second" 1 (by decide) (Or.inr (Or.inr (by decide))) (by decide)
    (by
      intro c hc
      rcases List.mem_cons.1 hc with h | h
      · subst h
        exact spares_of_only_under _ _ _ 1 "x" secondX_only_under (by decide) (by decide)
      · rw [List.mem_singleton.1 h]
        intro K y hK hp
        have hsup : superclasses_of dummySecond "Other" = [] := by decide
        have hsub : subclasses_of dummySecond "Other" = [] := by decide
        have hK2 : K = "Other" := by
          rcases hK with h1 | h1 | h1
          · exact h1
          · rw [hsup] at h1; cases h1
          · rw [hsub] at h1; cases h1
        subst hK2
        have hnone : bucket_entry secondX.m_impl_objects "Other" y = none := rfl
        rw [hnone] at hp
        cases hp)

/-! ## Created and modified notices -/

theorem entry_ne_find {cache : List (ClassName × Bucket)} {K key : ClassName}
    {bucket : Bucket} (hb : find cache K = some (key, bucket)) {y : String} {p : Ptr}
    (h : bucket_entry cache K y ≠ some p) : ∀ k, find bucket y ≠ some (k, p) := by
  intro k hk
  apply h
  simp [bucket_entry, hb, hk]

theorem fold_step_untouched (step : Objs → String → Objs) (q : Ptr) (uids : List String)
    (h : ∀ y ∈ uids, ∀ o, step o y q = o q) (objs : Objs) :
    uids.foldl step objs q = objs q := by
  induction uids generalizing objs with
  | nil => rfl
  | cons y rest ih =>
      simp only [List.foldl_cons]
      rw [ih (fun z hz => h z (List.mem_cons_of_mem _ hz)), h y (List.mem_cons_self _ _)]

theorem for_each_uid_by_entry (cache : List (ClassName × Bucket)) (K : ClassName)
    (step : Bucket → Objs → String → Objs) (act : Objs → Ptr → Objs)
    (hstep : ∀ bucket o y, step bucket o y
      = match find bucket y with
        | some (_, q) => act o q
        | none => o)
    (uids : List String) (objs : Objs) :
    for_each_uid cache K uids step objs = for_each_present cache K act uids objs := by
  unfold for_each_uid for_each_present
  by_cases he : uids.isEmpty = false
  · rw [if_pos he]
    cases hb : find cache K with
    | none =>
        have hnone : ∀ y, bucket_entry cache K y = none := by
          intro y
          simp [bucket_entry, hb]
        simp only [hnone]
        clear he
        induction uids generalizing objs with
        | nil => rfl
        | cons a t ih => exact ih objs
    | some e =>
        obtain ⟨key, bucket⟩ := e
        have hfun : step bucket
            = fun o y =>
                match bucket_entry cache K y with
                | some q => act o q
                | none => o := by
          funext o y
          rw [hstep]
          simp only [bucket_entry, hb]
          cases find bucket y with
          | none => rfl
          | some e' => rfl
        simp only [hfun]
  · rw [if_neg he]
    have : uids = [] := by
      cases uids with
      | nil => rfl
      | cons a l => simp at he
    subst this
    rfl

theorem update_impl_objects_by_entry (reset : ConfigObjectImpl → ConfigObjectImpl)
    (cache : List (ClassName × Bucket)) (objs : Objs) (change : ConfigurationChange)
    (C : ClassName) :
    update_impl_objects reset cache objs change C
      = for_each_present cache C (modified_action reset) change.m_modified
          (for_each_present cache C (created_action reset) change.m_created
            (for_each_uid cache C change.m_removed removed_step objs)) := by
  unfold update_impl_objects
  simp only
  rw [for_each_uid_by_entry cache C (modified_step reset) (modified_action reset)
        (fun bucket o y => by
          unfold modified_step modified_action
          cases find bucket y with
          | none => rfl
          | some e =>
              by_cases hv : (o e.2).m_state = ObjectState.Valid <;> simp [hv]),
      for_each_uid_by_entry cache C (created_step reset) (created_action reset)
        (fun bucket o y => by
          unfold created_step created_action
          cases find bucket y with
          | none => rfl
          | some e => rfl)]

theorem update_impl_objects_one_modified (reset : ConfigObjectImpl → ConfigObjectImpl)
    (cache : List (ClassName × Bucket)) (objs : Objs) (C : ClassName)
    (x : String) (p : Ptr) (hp : bucket_entry cache C x = some p)
    (change : ConfigurationChange) (pre post : List String)
    (hmod : change.m_modified = pre ++ x :: post)
    (hrem : ∀ y ∈ change.m_removed, bucket_entry cache C y ≠ some p)
    (hcre : ∀ y ∈ change.m_created, bucket_entry cache C y ≠ some p)
    (hoth : ∀ y ∈ pre ++ post, bucket_entry cache C y ≠ some p) :
    update_impl_objects reset cache objs change C p
      = if (objs p).m_state = ObjectState.Valid then call_clear (objs p)
        else call_reset reset (objs p) := by
  obtain ⟨bucket, hb, hf⟩ := bucket_entry_some hp
  have h1 : for_each_uid cache C change.m_removed removed_step objs p = objs p :=
    for_each_uid_untouched cache C removed_step p
      (fun b o y hy => removed_step_untouched b o y p hy) _ hrem objs
  have h2 : for_each_uid cache C change.m_created (created_step reset)
      (for_each_uid cache C change.m_removed removed_step objs) p = objs p := by
    rw [for_each_uid_untouched cache C (created_step reset) p
      (fun b o y hy => created_step_untouched reset b o y p hy) _ hcre, h1]
  have hne : (pre ++ x :: post).isEmpty = false := by
    cases pre <;> rfl
  unfold update_impl_objects
  simp only [hmod]
  rw [for_each_uid_eq_fold cache C C bucket _ _ _ hne hb, List.foldl_append,
    List.foldl_cons]
  rw [fold_step_untouched (modified_step reset bucket) p post
    (fun y hy o => modified_step_untouched reset bucket o y p
      (entry_ne_find hb (hoth y (List.mem_append_right _ hy))))]
  have h3 : List.foldl (modified_step reset bucket)
      (for_each_uid cache C change.m_created (created_step reset)
        (for_each_uid cache C change.m_removed removed_step objs)) pre p = objs p := by
    rw [fold_step_untouched (modified_step reset bucket) p pre
      (fun y hy o => modified_step_untouched reset bucket o y p
        (entry_ne_find hb (hoth y (List.mem_append_left _ hy)))), h2]
  generalize List.foldl (modified_step reset bucket)
      (for_each_uid cache C change.m_created (created_step reset)
        (for_each_uid cache C change.m_removed removed_step objs)) pre = o at h3 ⊢
  unfold modified_step
  simp only [hf]
  by_cases hv : (objs p).m_state = ObjectState.Valid
  · simp [hv, setObj_same, h3]
  · simp [hv, setObj_same, h3]

theorem update_impl_objects_one_created (reset : ConfigObjectImpl → ConfigObjectImpl)
    (cache : List (ClassName × Bucket)) (objs : Objs) (C : ClassName)
    (x : String) (p : Ptr) (hp : bucket_entry cache C x = some p)
    (change : ConfigurationChange) (pre post : List String)
    (hcre : change.m_created = pre ++ x :: post)
    (hrem : ∀ y ∈ change.m_removed, bucket_entry cache C y ≠ some p)
    (hmod : ∀ y ∈ change.m_modified, bucket_entry cache C y ≠ some p)
    (hoth : ∀ y ∈ pre ++ post, bucket_entry cache C y ≠ some p) :
    update_impl_objects reset cache objs change C p = call_reset reset (objs p) := by
  obtain ⟨bucket, hb, hf⟩ := bucket_entry_some hp
  have h1 : for_each_uid cache C change.m_removed removed_step objs p = objs p :=
    for_each_uid_untouched cache C removed_step p
      (fun b o y hy => removed_step_untouched b o y p hy) _ hrem objs
  have hne : (pre ++ x :: post).isEmpty = false := by
    cases pre <;> rfl
  unfold update_impl_objects
  rw [for_each_uid_untouched cache C (modified_step reset) p
    (fun b o y hy => modified_step_untouched reset b o y p hy) _ hmod]
  simp only [hcre]
  rw [for_each_uid_eq_fold cache C C bucket _ _ _ hne hb, List.foldl_append,
    List.foldl_cons]
  rw [fold_step_untouched (created_step reset bucket) p post
    (fun y hy o => created_step_untouched reset bucket o y p
      (entry_ne_find hb (hoth y (List.mem_append_right _ hy))))]
  have h3 : List.foldl (created_step reset bucket)
      (for_each_uid cache C change.m_removed removed_step objs) pre p = objs p := by
    rw [fold_step_untouched (created_step reset bucket) p pre
      (fun y hy o => created_step_untouched reset bucket o y p
        (entry_ne_find hb (hoth y (List.mem_append_left _ hy)))), h1]
  generalize List.foldl (created_step reset bucket)
      (for_each_uid cache C change.m_removed removed_step objs) pre = o at h3 ⊢
  unfold created_step
  simp only [hf, setObj_same, h3]

/-- C10: in `update_impl_objects`, for a UID `x` present in the class bucket (object `p`):
a created notice makes one `reset()` call on `p` whatever its state, and any record
listing `x` as created adds a `reset()` call to the trace of `p`; a modified notice on
a Valid object makes one `clear()` call and no `reset()` call, the state staying
Valid; a modified notice on an object that is not Valid makes one `reset()` call. The
same holds in any record that lists `x` as modified (as created) among other UIDs,
wherever `x` stands in the list, when the other UIDs of the record do not address
`p`; and for every record the created loop and the modified loop look up each UID of
their list in turn and act so on the object found. -/
theorem update_impl_objects_created_modified (reset : ConfigObjectImpl → ConfigObjectImpl)
    (cache : List (ClassName × Bucket)) (objs : Objs) (n : String) (C : ClassName)
    (x : String) (p : Ptr) (hp : bucket_entry cache C x = some p) :
    (update_impl_objects reset cache objs (createdNotice n x) C
          = setObj objs p (call_reset reset (objs p))
        ∧ (update_impl_objects reset cache objs (createdNotice n x) C p).calls
          = (objs p).calls ++ [VCall.reset])
      ∧ (∀ change : ConfigurationChange, x ∈ change.m_created →
          ∃ suf, (update_impl_objects reset cache objs change C p).calls
              = (objs p).calls ++ suf ∧ VCall.reset ∈ suf)
      ∧ ((objs p).m_state = ObjectState.Valid →
          update_impl_objects reset cache objs (modifiedNotice n x) C
              = setObj objs p (call_clear (objs p))
            ∧ (update_impl_objects reset cache objs (modifiedNotice n x) C p).calls
              = (objs p).calls ++ [VCall.clear]
            ∧ (update_impl_objects reset cache objs (modifiedNotice n x) C p).m_state
              = ObjectState.Valid)
      ∧ ((objs p).m_state ≠ ObjectState.Valid →
          update_impl_objects reset cache objs (modifiedNotice n x) C
              = setObj objs p (call_reset reset (objs p))
            ∧ (update_impl_objects reset cache objs (modifiedNotice n x) C p).calls
              = (objs p).calls ++ [VCall.reset])
      ∧ (∀ (change : ConfigurationChange) (pre post : List String),
          change.m_modified = pre ++ x :: post →
          (∀ y ∈ change.m_removed, bucket_entry cache C y ≠ some p) →
          (∀ y ∈ change.m_created, bucket_entry cache C y ≠ some p) →
          (∀ y ∈ pre ++ post, bucket_entry cache C y ≠ some p) →
          ((objs p).m_state = ObjectState.Valid →
              update_impl_objects reset cache objs change C p = call_clear (objs p)
                ∧ (update_impl_objects reset cache objs change C p).calls
                  = (objs p).calls ++ [VCall.clear]
                ∧ (update_impl_objects reset cache objs change C p).m_state
                  = ObjectState.Valid)
            ∧ ((objs p).m_state ≠ ObjectState.Valid →
              update_impl_objects reset cache objs change C p = call_reset reset (objs p)
                ∧ (update_impl_objects reset cache objs change C p).calls
                  = (objs p).calls ++ [VCall.reset]))
      ∧ (∀ (change : ConfigurationChange) (pre post : List String),
          change.m_created = pre ++ x :: post →
          (∀ y ∈ change.m_removed, bucket_entry cache C y ≠ some p) →
          (∀ y ∈ change.m_modified, bucket_entry cache C y ≠ some p) →
          (∀ y ∈ pre ++ post, bucket_entry cache C y ≠ some p) →
          update_impl_objects reset cache objs change C p = call_reset reset (objs p)
            ∧ (update_impl_objects reset cache objs change C p).calls
              = (objs p).calls ++ [VCall.reset])
      ∧ (∀ (change : ConfigurationChange) (K : ClassName) (o : Objs),
          update_impl_objects reset cache o change K
            = for_each_present cache K (modified_action reset) change.m_modified
                (for_each_present cache K (created_action reset) change.m_created
                  (for_each_uid cache K change.m_removed removed_step o))) := by
  have hcr := update_impl_objects_created reset cache objs n C x p hp
  have hmo := update_impl_objects_modified reset cache objs n C x p hp
  refine ⟨⟨hcr, ?_⟩, ?_, ?_, ?_, ?_, ?_, ?_⟩
  · rw [hcr]; simp [setObj_same, call_reset]
  · intro change hx
    obtain ⟨bucket, hb, hf⟩ := bucket_entry_some hp
    have hne : change.m_created.isEmpty = false := by
      cases hl : change.m_created with
      | nil => rw [hl] at hx; simp at hx
      | cons a l => rfl
    obtain ⟨s1, h1⟩ := for_each_uid_trace cache C removed_step p
      (fun b o y => removed_step_trace b o y p) change.m_removed objs
    obtain ⟨s2, h2, hin⟩ := created_fold_resets reset bucket x x p hf change.m_created hx
      (for_each_uid cache C change.m_removed removed_step objs)
    obtain ⟨s3, h3⟩ := for_each_uid_trace cache C (modified_step reset) p
      (fun b o y => modified_step_trace reset b o y p) change.m_modified
      (for_each_uid cache C change.m_created (created_step reset)
        (for_each_uid cache C change.m_removed removed_step objs))
    refine ⟨s1 ++ s2 ++ s3, ?_, by simp [hin]⟩
    unfold update_impl_objects
    rw [h3]
    have hmid : for_each_uid cache C change.m_created (created_step reset)
        (for_each_uid cache C change.m_removed removed_step objs)
        = change.m_created.foldl (created_step reset bucket)
            (for_each_uid cache C change.m_removed removed_step objs) :=
      for_each_uid_eq_fold cache C C bucket _ _ _ hne hb
    rw [hmid, h2, h1]
    simp [List.append_assoc]
  · intro hv
    have hv' : ¬ (objs p).m_state ≠ ObjectState.Valid := fun h => h hv
    rw [hmo, if_neg hv']
    refine ⟨rfl, ?_, ?_⟩
    · simp [setObj_same, call_clear]
    · simp [setObj_same, call_clear, hv]
  · intro hv
    rw [hmo, if_pos hv]
    refine ⟨rfl, ?_⟩
    simp [setObj_same, call_reset]
  · intro change pre post hmod hrem hcre hoth
    have h := update_impl_objects_one_modified reset cache objs C x p hp change pre post
      hmod hrem hcre hoth
    refine ⟨?_, ?_⟩
    · intro hv
      rw [h, if_pos hv]
      exact ⟨rfl, rfl, hv⟩
    · intro hv
      rw [h, if_neg hv]
      exact ⟨rfl, rfl⟩
  · intro change pre post hcre hrem hmod hoth
    rw [update_impl_objects_one_created reset cache objs C x p hp change pre post
      hcre hrem hmod hoth]
    exact ⟨rfl, rfl⟩
  · intro change K o
    exact update_impl_objects_by_entry reset cache o change K

/-- C10 witness: the notices applied to `Second#x`, cached as object 1, alone and as the
second modified UID of a record that also lists other UIDs. -/
theorem update_impl_objects_created_modified_witness :
    (update_impl_objects reset_valid secondX.m_impl_objects secondX.objs
          (createdNotice "Second" "x") "Second" 1).calls = [VCall.reset]
      ∧ (update_impl_objects reset_valid secondX.m_impl_objects secondX.objs
          (modifiedNotice "Second" "x") "Second" 1).calls = [VCall.clear]
      ∧ (update_impl_objects reset_valid secondX.m_impl_objects secondX.objs
          severalNotices "Second" 1).calls = [VCall.clear] :=
  have h := update_impl_objects_created_modified reset_valid secondX.m_impl_objects
    secondX.objs "Second" "Second" "x" 1 (by decide)
  ⟨h.1.2, (h.2.2.1 (by decide)).2.1,
    ((h.2.2.2.2.1 severalNotices ["y"] [] rfl (by decide) (by decide) (by decide)).1
      (by decide)).2.1⟩

/-! ## Parsing of the spec and loading of the plug-in -/

theorem first_error_none_iff {α : Type} (err : α → Option ConfigError) (l : List α) :
    first_error err l = none ↔ ∀ a ∈ l, err a = none := by
  induction l with
  | nil => simp [first_error]
  | cons a rest ih =>
      unfold first_error
      cases ha : err a with
      | some e =>
          constructor
          · intro h
            cases h
          · intro h
            have := h a (List.mem_cons_self _ _)
            rw [ha] at this
            cases this
      | none =>
          simp only [ih, List.mem_cons, forall_eq_or_imp, ha, true_and]

theorem returns_iff_no_error {β : Type} (r : Except ConfigError β) (o : Option ConfigError)
    (h : ∀ e, r = .error e ↔ o = some e) : (∃ b, r = .ok b) ↔ o = none := by
  cases r with
  | error e =>
      have := (h e).1 rfl
      simp [this]
  | ok b =>
      cases o with
      | none => simp
      | some e =>
          have := (h e).2 rfl
          cases this

theorem try_fold_first_error {α β : Type} (f : β → α → Except ConfigError β)
    (err : α → Option ConfigError) (l : List α)
    (h : ∀ a ∈ l, ∀ b e, f b a = .error e ↔ err a = some e) :
    ∀ b e, try_fold f l b = .error e ↔ first_error err l = some e := by
  induction l with
  | nil =>
      intro b e
      simp [try_fold, first_error]
  | cons a rest ih =>
      intro b e
      have ha := h a (List.mem_cons_self _ _) b
      have hrest := ih (fun a' ha' => h a' (List.mem_cons_of_mem _ ha'))
      unfold try_fold first_error
      cases hfa : f b a with
      | error e0 =>
          have h0 := (ha e0).1 hfa
          simp only [h0]
          constructor
          · intro h1
            cases h1
            rfl
          · intro h1
            cases h1
            rfl
      | ok b1 =>
          cases herr : err a with
          | some e1 =>
              have := (ha e1).2 herr
              rw [hfa] at this
              cases this
          | none => exact hrest b1 e

theorem add_data_attribute_error (reads : ObjectReads) (x : Ptr) (a : attribute_t)
    (empty_array_item : String) (pt : ObjectData) (e : ConfigError) :
    add_data_attribute reads pt x a empty_array_item = .error e
      ↔ attribute_read_error reads x a = some e := by
  unfold add_data_attribute attribute_read_error
  split_ifs
  · cases reads.get_value x a with
    | error e0 => simp
    | ok v => simp
  · cases reads.get_values x a with
    | error e0 => simp
    | ok v => simp

theorem add_data_relationship_error (reads : ObjectReads) (x : Ptr) (r : relationship_t)
    (empty_array_item : String) (pt : ObjectData) (e : ConfigError) :
    add_data_relationship reads pt x r empty_array_item = .error e
      ↔ relationship_read_error reads x r = some e := by
  unfold add_data_relationship relationship_read_error
  split_ifs
  · cases reads.get_objects x r.p_name with
    | error e0 => simp
    | ok v => simp
  · cases reads.get_object x r.p_name with
    | error e0 => simp
    | ok v => simp

theorem export_object_error (reads : ObjectReads) (info : class_t) (x : Ptr)
    (empty_array_item : String) (e : ConfigError) :
    export_object reads info x empty_array_item = .error e
      ↔ object_first_error reads info x = some e := by
  have hA := try_fold_first_error
    (fun data a => add_data_attribute reads data x a empty_array_item)
    (attribute_read_error reads x) info.p_attributes
    (fun a _ b e => add_data_attribute_error reads x a empty_array_item b e)
  have hR := try_fold_first_error
    (fun data r => add_data_relationship reads data x r empty_array_item)
    (relationship_read_error reads x) info.p_relationships
    (fun r _ b e => add_data_relationship_error reads x r empty_array_item b e)
  unfold export_object object_first_error
  cases hd : try_fold (fun data a => add_data_attribute reads data x a empty_array_item)
      info.p_attributes [] with
  | error e0 =>
      have h0 := (hA [] e0).1 hd
      simp only [h0]
      constructor
      · intro h1
        cases h1
        rfl
      · intro h1
        cases h1
        rfl
  | ok data =>
      have h0 : first_error (attribute_read_error reads x) info.p_attributes = none :=
        (returns_iff_no_error _ _ (hA [])).1 ⟨data, hd⟩
      simp only [h0]
      exact hR data e

theorem export_class_error (self : Configuration) (objs : Objs) (contained_in : Ptr → String)
    (reads : ObjectReads) (backend_get : String → Bool → Except ConfigError class_t)
    (backend_objects : String → Except ConfigError (List Ptr))
    (objects_selects files_selects : String → Bool) (empty_array_item : String) (c : String)
    (pt : DataTree) (e : ConfigError) :
    export_class self objs contained_in reads backend_get backend_objects
        objects_selects files_selects empty_array_item pt c = .error e
      ↔ class_first_error self objs contained_in reads backend_get backend_objects
          objects_selects files_selects c = some e := by
  unfold export_class class_first_error
  cases get_class_info self c false backend_get with
  | error e0 => simp
  | ok d =>
      obtain ⟨info, conf⟩ := d
      simp only
      cases catch_generic ("failed to get objects of class \x27" ++ c ++ "\x27")
          (backend_objects c) with
      | error e0 => simp
      | ok objects =>
          simp only
          have hO := try_fold_first_error
            (fun (pt_objects : List (String × ObjectData)) x =>
              match export_object reads info x empty_array_item with
              | .error e => .error e
              | .ok data => .ok (pt_objects ++ [(ConfigObject.UID objs x, data)]))
            (object_first_error reads info)
            (sorted_objects objs contained_in objects c objects_selects files_selects)
            (fun x _ b e => by
              have hx := export_object_error reads info x empty_array_item e
              cases hobj : export_object reads info x empty_array_item with
              | error e0 =>
                  rw [hobj] at hx
                  simp only [hobj]
                  simpa using hx
              | ok data =>
                  rw [hobj] at hx
                  simp only [hobj]
                  simpa using hx)
          cases hs : sorted_objects objs contained_in objects c objects_selects
              files_selects with
          | nil => simp [first_error]
          | cons y rest =>
              rw [← hs]
              have hne : (sorted_objects objs contained_in objects c objects_selects
                  files_selects).isEmpty = false := by rw [hs]; rfl
              simp only [hne, Bool.not_false, if_true]
              cases hf : try_fold
                  (fun (pt_objects : List (String × ObjectData)) x =>
                    match export_object reads info x empty_array_item with
                    | .error e => .error e
                    | .ok data => .ok (pt_objects ++ [(ConfigObject.UID objs x, data)]))
                  (sorted_objects objs contained_in objects c objects_selects files_selects)
                  [] with
              | error e0 =>
                  have h0 := (hO [] e0).1 hf
                  simp only [h0]
                  constructor
                  · intro h1
                    cases h1
                    rfl
                  · intro h1
                    cases h1
                    rfl
              | ok pt_objects =>
                  have h0 := (returns_iff_no_error _ _ (hO [])).1 ⟨pt_objects, hf⟩
                  simp [h0]

theorem mem_sorted_insert_by {α : Type} (key : α → String) (x y : α) (l : List α)
    (h : y ∈ sorted_insert_by key x l) : y = x ∨ y ∈ l := by
  induction l with
  | nil =>
      simp only [sorted_insert_by, List.mem_singleton] at h
      exact Or.inl h
  | cons z rest ih =>
      unfold sorted_insert_by at h
      split_ifs at h
      · rcases List.mem_cons.1 h with h1 | h1
        · exact Or.inl h1
        · exact Or.inr h1
      · rcases List.mem_cons.1 h with h1 | h1
        · exact Or.inr (h1 ▸ List.mem_cons_self _ _)
        · rcases ih h1 with h2 | h2
          · exact Or.inl h2
          · exact Or.inr (List.mem_cons_of_mem _ h2)
      · exact Or.inr h

theorem sorted_classes_fold_selected (selects : String → Bool) (c : String)
    (l : ClassMap) (acc : List String)
    (h : c ∈ l.foldl
      (fun acc c => if selects c.1 then sorted_insert_by id c.1 acc else acc) acc) :
    c ∈ acc ∨ (c ∈ l.map Prod.fst ∧ selects c = true) := by
  induction l generalizing acc with
  | nil => exact Or.inl h
  | cons e rest ih =>
      rw [List.foldl_cons] at h
      rcases ih _ h with h1 | ⟨h1, h2⟩
      · by_cases hs : selects e.1 = true
        · rw [if_pos hs] at h1
          rcases mem_sorted_insert_by id e.1 c acc h1 with h3 | h3
          · exact Or.inr ⟨by rw [h3]; simp, by rw [h3]; exact hs⟩
          · exact Or.inl h3
        · rw [if_neg hs] at h1
          exact Or.inl h1
      · exact Or.inr ⟨by simp only [List.map_cons]; exact List.mem_cons_of_mem _ h1, h2⟩

theorem mem_sorted_classes_iff (superclasses : ClassMap) (selects : String → Bool)
    (c : String) :
    c ∈ sorted_classes superclasses selects
      ↔ c ∈ superclasses.map Prod.fst ∧ selects c = true := by
  constructor
  · intro h
    rcases sorted_classes_fold_selected selects c superclasses [] h with h1 | h1
    · cases h1
    · exact h1
  · rintro ⟨h1, h2⟩
    exact mem_sorted_classes superclasses selects c h1 h2

theorem export_data_error (self : Configuration) (objs : Objs)
    (contained_in : Ptr → String) (reads : ObjectReads)
    (compile : String → Except String Regex)
    (backend_get : String → Bool → Except ConfigError class_t)
    (backend_objects : String → Except ConfigError (List Ptr))
    (classes_str objects_str files_str empty_array_item : String) (e : ConfigError) :
    export_data self objs contained_in reads compile backend_get backend_objects
        classes_str objects_str files_str empty_array_item = .error e
      ↔ export_first_error self objs contained_in reads compile backend_get backend_objects
          classes_str objects_str files_str = some e := by
  unfold export_data export_first_error
  cases init_regex compile classes_str "classes" with
  | error e0 => simp
  | ok classes_regex =>
      cases init_regex compile objects_str "objects" with
      | error e0 => simp
      | ok objects_regex =>
          cases init_regex compile files_str "files" with
          | error e0 => simp
          | ok files_regex =>
              simp only
              refine try_fold_first_error _ _ _ ?_ [] e
              intro c hc b e1
              have hsel := ((mem_sorted_classes_iff _ _ c).1 hc).2
              simp only [hsel, if_true]
              exact export_class_error self objs contained_in reads backend_get
                backend_objects _ _ empty_array_item c b e1

theorem first_error_of_mem {α : Type} (err : α → Option ConfigError) (l : List α) (a : α)
    (ha : a ∈ l) (e : ConfigError) (he : err a = some e) :
    ∃ e1, first_error err l = some e1 := by
  cases h : first_error err l with
  | some e1 => exact ⟨e1, rfl⟩
  | none =>
      have := (first_error_none_iff err l).1 h a ha
      rw [he] at this
      cases this

theorem catch_generic_error {α : Type} (what : String) (e : ConfigError) :
    ∃ e1, catch_generic what (.error e : Except ConfigError α) = .error e1 := by
  cases e with
  | Generic w => exact ⟨_, rfl⟩
  | GenericCaused w c => exact ⟨_, rfl⟩
  | NotFound t d => exact ⟨_, rfl⟩
  | DeletedObject c o => exact ⟨_, rfl⟩

theorem catch_generic_ok {α : Type} (what : String) (r : Except ConfigError α) (a : α)
    (h : catch_generic what r = .ok a) : r = .ok a := by
  cases r with
  | ok b =>
      simp only [catch_generic, Except.ok.injEq] at h
      rw [h]
  | error e =>
      obtain ⟨e1, he1⟩ := catch_generic_error (α := α) what e
      rw [he1] at h
      cases h

theorem object_first_error_none_iff (reads : ObjectReads) (info : class_t) (x : Ptr) :
    object_first_error reads info x = none
      ↔ (∀ a ∈ info.p_attributes, attribute_read_error reads x a = none)
        ∧ (∀ r ∈ info.p_relationships, relationship_read_error reads x r = none) := by
  unfold object_first_error
  cases h : first_error (attribute_read_error reads x) info.p_attributes with
  | some e =>
      constructor
      · intro h1
        cases h1
      · intro h1
        rw [(first_error_none_iff _ _).2 h1.1] at h
        cases h
  | none =>
      simp only [first_error_none_iff]
      constructor
      · intro h2
        exact ⟨(first_error_none_iff _ _).1 h, h2⟩
      · intro h2
        exact h2.2

theorem class_first_error_none_iff (self : Configuration) (objs : Objs)
    (contained_in : Ptr → String)
    (reads : ObjectReads) (backend_get : String → Bool → Except ConfigError class_t)
    (backend_objects : String → Except ConfigError (List Ptr))
    (objects_selects files_selects : String → Bool) (c : String) :
    class_first_error self objs contained_in reads backend_get backend_objects
        objects_selects files_selects c = none
      ↔ ∃ info conf objects,
          get_class_info self c false backend_get = .ok (info, conf)
            ∧ backend_objects c = .ok objects
            ∧ ∀ x ∈ sorted_objects objs contained_in objects c objects_selects files_selects,
                (∀ a ∈ info.p_attributes, attribute_read_error reads x a = none)
                  ∧ (∀ r ∈ info.p_relationships,
                      relationship_read_error reads x r = none) := by
  unfold class_first_error
  cases hinfo : get_class_info self c false backend_get with
  | error e0 => simp
  | ok d =>
      obtain ⟨info, conf⟩ := d
      simp only
      cases hobj : backend_objects c with
      | error e0 =>
          obtain ⟨e1, he1⟩ := catch_generic_error (α := List Ptr)
            ("failed to get objects of class \x27" ++ c ++ "\x27") e0
          simp [he1]
      | ok objects =>
          simp only [catch_generic, first_error_none_iff, object_first_error_none_iff]
          constructor
          · intro h
            exact ⟨info, conf, objects, rfl, rfl, h⟩
          · rintro ⟨info1, conf1, objects1, h1, h2, h3⟩
            simp only [Except.ok.injEq, Prod.mk.injEq] at h1 h2
            obtain ⟨h1a, _⟩ := h1
            subst h1a
            subst h2
            exact h3

/-- C23 (amended): `export_data` has no handler. It raises exactly when a step of the
export raises, and then the error of the first such step in the order of the export:
compiling the three filters, then for each selected class by name reading its
descriptor, listing its objects, and for each selected object by UID reading its
attributes and then its relationships in the order of the descriptor; no tree is
returned. In particular, with the filters compiled, a failing read of the descriptor
or of the objects of a selected class, or of an attribute or relationship of a
selected object, makes `export_data` raise; and it returns a tree exactly when every
descriptor and object list of a selected class is read and no read of a selected
object raises. -/
theorem export_data_read_failure (self : Configuration) (objs : Objs)
    (contained_in : Ptr → String) (reads : ObjectReads)
    (compile : String → Except String Regex)
    (backend_get : String → Bool → Except ConfigError class_t)
    (backend_objects : String → Except ConfigError (List Ptr))
    (classes_str objects_str files_str empty_array_item : String) :
    (∀ e, export_data self objs contained_in reads compile backend_get backend_objects
            classes_str objects_str files_str empty_array_item = .error e
          ↔ export_first_error self objs contained_in reads compile backend_get
              backend_objects classes_str objects_str files_str = some e)
      ∧ ((∃ pt, export_data self objs contained_in reads compile backend_get backend_objects
            classes_str objects_str files_str empty_array_item = .ok pt)
          ↔ export_first_error self objs contained_in reads compile backend_get
              backend_objects classes_str objects_str files_str = none)
      ∧ (∀ classes_regex objects_regex files_regex,
          init_regex compile classes_str "classes" = .ok classes_regex →
          init_regex compile objects_str "objects" = .ok objects_regex →
          init_regex compile files_str "files" = .ok files_regex →
          (∀ c, c ∈ self.p_superclasses.map Prod.fst →
              regex_selects classes_str classes_regex c = true →
              (∀ e, get_class_info self c false backend_get = .error e →
                  ∃ e1, export_data self objs contained_in reads compile backend_get
                    backend_objects classes_str objects_str files_str empty_array_item
                      = .error e1)
                ∧ (∀ e, backend_objects c = .error e →
                  ∃ e1, export_data self objs contained_in reads compile backend_get
                    backend_objects classes_str objects_str files_str empty_array_item
                      = .error e1)
                ∧ (∀ info conf objects x,
                  get_class_info self c false backend_get = .ok (info, conf) →
                  backend_objects c = .ok objects →
                  x ∈ sorted_objects objs contained_in objects c
                        (regex_selects objects_str objects_regex)
                        (regex_selects files_str files_regex) →
                  ((∃ a ∈ info.p_attributes, ∃ e, attribute_read_error reads x a = some e)
                    ∨ (∃ r ∈ info.p_relationships, ∃ e,
                        relationship_read_error reads x r = some e)) →
                  ∃ e1, export_data self objs contained_in reads compile backend_get
                    backend_objects classes_str objects_str files_str empty_array_item
                      = .error e1))
            ∧ ((∃ pt, export_data self objs contained_in reads compile backend_get
                  backend_objects classes_str objects_str files_str empty_array_item = .ok pt)
                ↔ ∀ c, c ∈ self.p_superclasses.map Prod.fst →
                    regex_selects classes_str classes_regex c = true →
                    ∃ info conf objects,
                      get_class_info self c false backend_get = .ok (info, conf)
                        ∧ backend_objects c = .ok objects
                        ∧ ∀ x ∈ sorted_objects objs contained_in objects c
                              (regex_selects objects_str objects_regex)
                              (regex_selects files_str files_regex),
                            (∀ a ∈ info.p_attributes,
                                attribute_read_error reads x a = none)
                              ∧ (∀ r ∈ info.p_relationships,
                                  relationship_read_error reads x r = none))) := by
  have hE := export_data_error self objs contained_in reads compile backend_get
    backend_objects classes_str objects_str files_str empty_array_item
  have hR := returns_iff_no_error _ _ hE
  refine ⟨hE, hR, ?_⟩
  intro classes_regex objects_regex files_regex h1 h2 h3
  have hfirst : export_first_error self objs contained_in reads compile backend_get
      backend_objects classes_str objects_str files_str
      = first_error
          (class_first_error self objs contained_in reads backend_get backend_objects
            (regex_selects objects_str objects_regex) (regex_selects files_str files_regex))
          (sorted_classes self.p_superclasses (regex_selects classes_str classes_regex)) := by
    simp only [export_first_error, h1, h2, h3]
  have hraise : ∀ c, c ∈ self.p_superclasses.map Prod.fst →
      regex_selects classes_str classes_regex c = true →
      class_first_error self objs contained_in reads backend_get backend_objects
        (regex_selects objects_str objects_regex) (regex_selects files_str files_regex) c
        ≠ none →
      ∃ e1, export_data self objs contained_in reads compile backend_get
        backend_objects classes_str objects_str files_str empty_array_item = .error e1 := by
    intro c hc hsel hne
    cases hcf : class_first_error self objs contained_in reads backend_get backend_objects
        (regex_selects objects_str objects_regex) (regex_selects files_str files_regex) c with
    | none => exact absurd hcf hne
    | some e0 =>
        obtain ⟨e1, he1⟩ := first_error_of_mem _ _ c
          ((mem_sorted_classes_iff _ _ c).2 ⟨hc, hsel⟩) e0 hcf
        exact ⟨e1, (hE e1).2 (by rw [hfirst, he1])⟩
  refine ⟨?_, ?_⟩
  · intro c hc hsel
    refine ⟨?_, ?_, ?_⟩
    · intro e he
      apply hraise c hc hsel
      rw [Ne, class_first_error_none_iff]
      rintro ⟨info, conf, objects, h4, _, _⟩
      rw [he] at h4
      cases h4
    · intro e he
      apply hraise c hc hsel
      rw [Ne, class_first_error_none_iff]
      rintro ⟨info, conf, objects, _, h4, _⟩
      rw [he] at h4
      cases h4
    · intro info conf objects x hinfo hobjects hx hread
      apply hraise c hc hsel
      rw [Ne, class_first_error_none_iff]
      rintro ⟨info1, conf1, objects1, h4, h5, h6⟩
      rw [hinfo] at h4
      rw [hobjects] at h5
      simp only [Except.ok.injEq, Prod.mk.injEq] at h4 h5
      obtain ⟨h4a, _⟩ := h4
      subst h4a
      subst h5
      rcases hread with ⟨a, ha, e, he⟩ | ⟨r, hr, e, he⟩
      · have := (h6 x hx).1 a ha
        rw [he] at this
        cases this
      · have := (h6 x hx).2 r hr
        rw [he] at this
        cases this
  · rw [hR, hfirst, first_error_none_iff]
    constructor
    · intro h c hc hsel
      exact (class_first_error_none_iff _ _ _ _ _ _ _ _ c).1
        (h c ((mem_sorted_classes_iff _ _ c).2 ⟨hc, hsel⟩))
    · intro h c hc
      have hm := (mem_sorted_classes_iff _ _ c).1 hc
      exact (class_first_error_none_iff _ _ _ _ _ _ _ _ c).2 (h c hm.1 hm.2)

end Config
